import Mathlib

/-!
# SatProp: the batch propagation driver (`src/Propagator.cpp`)

A shallow embedding of `Propagator::CalcStartStopTime` and
`Propagator::RunOneSgp4Job`, and theorems about them.

Modelling conventions.

* The stepping loop is read twice.  In the exact reading (`stepLoop`,
  `stepInstant`) a C `double` is a rational number, all time arithmetic is
  exact, and the counter `step` is a natural number.  The theorems about the
  single steps, their records and messages, the calls that are made and the
  formula of the instants are stated in it.  In the machine reading
  (`stepLoopM`, `stepInstantM`) every `double` operation rounds to the nearest
  `double` and the counter `step` is an `int` of 32 bits, whose overflow is
  undefined behaviour and gives the loop no result.  The theorems about
  reaching the stop time, about termination and about the order of the instants
  are stated in it, and the inputs on which the two readings part are given as
  counterexamples.
* The counter `i` of the loop over the satellites is a natural number: it is
  bounded by the count that the engine reports.
* The external propagation library (the `Sgp4Prop`, `Tle`, `TimeFunc`,
  `AstroFunc` and `DllMain` wrappers) and the C runtime are not part of the
  repository.  They are a parameter: a record `Engine σ` of operations over an
  abstract engine state `σ`.  Every call threads the state and is appended to a
  log, so that theorems can speak about which calls are made and in which order.
* An output parameter of an engine call is a returned value.  A field of a
  record that the code leaves uninitialised is `none`.
* A `char` buffer that the engine fills is the list of its bytes after the call;
  a list that is shorter than the buffer stands for a buffer whose other bytes
  are NUL.  A `std::string` is a `String` whose characters stand for its bytes.
* A `while (1)` loop takes a fuel argument and returns `none` when the fuel is
  exhausted before the loop exits.
-/

namespace SGP_IMPL

/-! ## Data model (`src/PropResults.h`) -/

/-- Three doubles, `double[3]`. -/
abbrev Vec3 := ℚ × ℚ × ℚ

/-- One time step of one satellite, `struct TimeStepData`. -/
structure TimeStepData where
  mse : Option ℚ := none
  pos : Option Vec3 := none
  vel : Option Vec3 := none
  llh : Option Vec3 := none
  meanKep : Option (List ℚ) := none
  oscKep : Option (List ℚ) := none
  nodalApPer : Option (List ℚ) := none
  meanMotion : Option ℚ := none
  errorMsg : String := ""
  hasError : Bool
  deriving DecidableEq, Repr

/-- All the data of one satellite, `struct SatelliteData`. -/
structure SatelliteData where
  line1 : String := ""
  line2 : String := ""
  satKey : Int
  timeSteps : List TimeStepData := []
  propagationSuccess : Bool
  deriving DecidableEq, Repr

/-- The result of a batch, `struct PropagationResults`. -/
structure PropagationResults where
  satellites : List SatelliteData := []
  totalSatellites : Int
  overallSuccess : Bool
  generalError : String := ""
  deriving DecidableEq, Repr

/-! ## The external engine -/

/-- The contents of a `char` buffer after an engine call: its bytes, in order. -/
abbrev CBuf := List (Fin 256)

/-- The prediction control card returned by `Get6P`. -/
structure Card6P where
  startFrEpoch : Int
  stopFrEpoch : Int
  startTime : ℚ
  stopTime : ℚ
  stepSize : ℚ
  deriving DecidableEq, Repr

/-- The outputs of `Sgp4PropDs50UTC`: its return code and its output buffers. -/
structure PropOut where
  errCode : Int
  mse : ℚ
  pos : Vec3
  vel : Vec3
  llh : Vec3
  deriving DecidableEq, Repr

/-- One call into the external library or the C runtime, with its inputs. -/
inductive Call where
  | Sgp4LoadFileAll (inFile : String)
  | TleGetCount
  | malloc (count : Int)
  | TleGetLoaded (order : Int)
  | TleGetLines (satKey : Int)
  | Sgp4InitSat (satKey : Int)
  | GetLastErrMsg
  | TleGetField (satKey : Int) (xf : Int)
  | DTGToUTC (dtg : String)
  | Get6P
  | Sgp4PropDs50UTC (satKey : Int) (ds50UTC : ℚ)
  | Sgp4GetPropOut (satKey : Int) (xf : Int)
  | AToN (a : ℚ)
  | Sgp4RemoveSat (satKey : Int)
  | free
  | TleRemoveAllSats
  | Sgp4RemoveAllSats
  deriving DecidableEq, Repr

/-- The external collaborators of `RunOneSgp4Job`: the constants of the library
headers, the library operations over the engine state `σ`, and the two pieces of
the C/C++ runtime the function relies on (`malloc`, `std::to_string`). -/
structure Engine (σ : Type) where
  INPUTCARDLEN : Nat
  LOGMSGLEN : Nat
  GETSETSTRLEN : Nat
  XF_TLE_EPOCH : Int
  XF_SGP4OUT_OSC_KEP : Int
  XF_SGP4OUT_MEAN_KEP : Int
  XF_SGP4OUT_NODAL_AP_PER : Int
  Sgp4LoadFileAll : String → σ → Int × σ
  TleGetCount : σ → Int × σ
  /-- Whether the allocation of the key array succeeds. -/
  malloc : Int → σ → Bool × σ
  /-- The contents of the key array after the call, by index. -/
  TleGetLoaded : Int → σ → (Nat → Int) × σ
  TleGetLines : Int → σ → (CBuf × CBuf) × σ
  Sgp4InitSat : Int → σ → Int × σ
  GetLastErrMsg : σ → CBuf × σ
  TleGetField : Int → Int → σ → CBuf × σ
  DTGToUTC : String → σ → ℚ × σ
  Get6P : σ → Card6P × σ
  Sgp4PropDs50UTC : Int → ℚ → σ → PropOut × σ
  Sgp4GetPropOut : Int → Int → σ → List ℚ × σ
  AToN : ℚ → σ → ℚ × σ
  Sgp4RemoveSat : Int → σ → Int × σ
  TleRemoveAllSats : σ → Unit × σ
  Sgp4RemoveAllSats : σ → Unit × σ
  to_string : ℚ → String

/-- The engine state together with the log of the calls made so far. -/
structure World (σ : Type) where
  eng : σ
  log : List Call
  deriving DecidableEq

/-- Perform one engine call: run it on the engine state and log it. -/
def World.call {σ α : Type} (w : World σ) (c : Call) (f : σ → α × σ) : α × World σ :=
  ((f w.eng).1, { eng := (f w.eng).2, log := w.log ++ [c] })

/-- The `std::string` read from a `char buf[len]` after `buf[len - 1] = 0`: the
bytes of the buffer before its first NUL byte, at most `len - 1` of them. -/
def cstr (len : Nat) (buf : CBuf) : String :=
  String.mk (((buf.take (len - 1)).takeWhile fun b => b ≠ 0).map fun b => Char.ofNat b.val)

/-! ## `Propagator::CalcStartStopTime` -/

/-- Start time, stop time and signed step size of one satellite, resolved from
the 6P card and the epoch of the satellite (`Propagator.cpp`, lines 351-379). -/
def CalcStartStopTime {σ : Type} (E : Engine σ) (epoch : ℚ) (w : World σ) :
    (ℚ × ℚ × ℚ) × World σ :=
  let r := w.call Call.Get6P E.Get6P
  let c := r.1
  let tStart := if c.startFrEpoch = 1 then epoch + c.startTime / 1440 else c.startTime
  let tStop := if c.stopFrEpoch = 1 then epoch + c.stopTime / 1440 else c.stopTime
  let tStep := if tStart > tStop then -|c.stepSize| else |c.stepSize|
  ((tStart, tStop, tStep), r.2)

/-! ## The stepping loop of `Propagator::RunOneSgp4Job` -/

/-- The time tolerance in seconds, `EPSI`. -/
def EPSI : ℚ := 0.00050

/-- The two `break` tests at the head of the stepping loop (lines 142-145). -/
def loopExit (stopTime stepSize ds50UTC : ℚ) : Bool :=
  if stepSize ≥ 0 ∧ ds50UTC ≥ stopTime then true
  else if stepSize < 0 ∧ ds50UTC ≤ stopTime then true
  else false

/-- The instant of step number `step`: computed from the index and snapped to
the stop time within the tolerance (lines 147-151). -/
def stepInstant (startTime stopTime stepSize : ℚ) (step : Nat) : ℚ :=
  let ds50UTC := startTime + ((step : ℚ) * stepSize / 1440)
  if (stepSize ≥ 0 ∧ ds50UTC + EPSI / 86400 > stopTime) ∨
      (stepSize < 0 ∧ ds50UTC - EPSI / 86400 < stopTime) then stopTime
  else ds50UTC

/-- The stepping loop of one satellite (lines 140-220).  `step` and `ds50UTC`
are the loop variables, `satData` the record being filled. -/
def stepLoop {σ : Type} (E : Engine σ) (satKey : Int) (startTime stopTime stepSize : ℚ) :
    Nat → Nat → ℚ → SatelliteData → World σ → Option (SatelliteData × World σ)
  | 0, _, _, _, _ => none
  | fuel + 1, step, ds50UTC, satData, w =>
    if loopExit stopTime stepSize ds50UTC then some (satData, w)
    else
      let ds50UTC := stepInstant startTime stopTime stepSize step
      let p := w.call (Call.Sgp4PropDs50UTC satKey ds50UTC) (E.Sgp4PropDs50UTC satKey ds50UTC)
      let out := p.1
      let stepData : TimeStepData :=
        { mse := some out.mse, hasError := false,
          pos := some out.pos, vel := some out.vel, llh := some out.llh }
      if out.errCode ≠ 0 then
        let m := p.2.call Call.GetLastErrMsg E.GetLastErrMsg
        let stepData := { stepData with hasError := true, errorMsg := cstr E.LOGMSGLEN m.1 }
        some ({ satData with timeSteps := satData.timeSteps ++ [stepData],
                             propagationSuccess := false }, m.2)
      else
        let o := p.2.call (Call.Sgp4GetPropOut satKey E.XF_SGP4OUT_OSC_KEP)
          (E.Sgp4GetPropOut satKey E.XF_SGP4OUT_OSC_KEP)
        let k := o.2.call (Call.Sgp4GetPropOut satKey E.XF_SGP4OUT_MEAN_KEP)
          (E.Sgp4GetPropOut satKey E.XF_SGP4OUT_MEAN_KEP)
        let n := k.2.call (Call.Sgp4GetPropOut satKey E.XF_SGP4OUT_NODAL_AP_PER)
          (E.Sgp4GetPropOut satKey E.XF_SGP4OUT_NODAL_AP_PER)
        let a := n.2.call (Call.AToN (k.1.getD 0 0)) (E.AToN (k.1.getD 0 0))
        let stepData := { stepData with
          meanKep := some (k.1.take 6), oscKep := some (o.1.take 6),
          nodalApPer := some (n.1.take 3), meanMotion := some a.1 }
        if out.llh.2.2 < 100 then
          let stepData := { stepData with
            hasError := true,
            errorMsg :=
              if out.llh.2.2 < 0 then
                "Warning: Decay condition. Distance from the Geoid (Km) = " ++
                  E.to_string out.llh.2.2
              else "Warning: Height is low. HT (Km) = " ++ E.to_string out.llh.2.2 }
          some ({ satData with timeSteps := satData.timeSteps ++ [stepData],
                               propagationSuccess := false }, a.2)
        else
          stepLoop E satKey startTime stopTime stepSize fuel (step + 1) ds50UTC
            { satData with timeSteps := satData.timeSteps ++ [stepData] } a.2

/-- The instants of the stepping loop when every step is Ok: the loop of lines
140-151 and 219 without the engine.  `none` when the fuel does not suffice. -/
def stepSequence (startTime stopTime stepSize : ℚ) : Nat → Nat → ℚ → Option (List ℚ)
  | 0, _, _ => none
  | fuel + 1, step, ds50UTC =>
    if loopExit stopTime stepSize ds50UTC then some []
    else
      let ds50UTC := stepInstant startTime stopTime stepSize step
      (stepSequence startTime stopTime stepSize fuel (step + 1) ds50UTC).map (ds50UTC :: ·)

/-! ## One satellite and the whole batch -/

/-- The processing of one satellite up to the end of its stepping loop (lines
101-220).  The boolean tells whether the satellite was initialised, that is
whether control reaches line 222 rather than the `continue` of line 126. -/
def runSat {σ : Type} (E : Engine σ) (fuel : Nat) (satKey : Int) (w : World σ) :
    Option (SatelliteData × Bool × World σ) :=
  let satData : SatelliteData := { satKey := satKey, propagationSuccess := true }
  let l := w.call (Call.TleGetLines satKey) (E.TleGetLines satKey)
  let satData := { satData with
    line1 := cstr E.INPUTCARDLEN l.1.1, line2 := cstr E.INPUTCARDLEN l.1.2 }
  let r := l.2.call (Call.Sgp4InitSat satKey) (E.Sgp4InitSat satKey)
  if r.1 ≠ 0 then
    let satData := { satData with propagationSuccess := false }
    let m := r.2.call Call.GetLastErrMsg E.GetLastErrMsg
    let errorStep : TimeStepData := { hasError := true, errorMsg := cstr E.LOGMSGLEN m.1 }
    some ({ satData with timeSteps := satData.timeSteps ++ [errorStep] }, false, m.2)
  else
    let v := r.2.call (Call.TleGetField satKey E.XF_TLE_EPOCH)
      (E.TleGetField satKey E.XF_TLE_EPOCH)
    let e := v.2.call (Call.DTGToUTC (cstr E.GETSETSTRLEN v.1))
      (E.DTGToUTC (cstr E.GETSETSTRLEN v.1))
    let t := CalcStartStopTime E e.1 e.2
    (stepLoop E satKey t.1.1 t.1.2.1 t.1.2.2 fuel 0 t.1.1 satData t.2).map
      fun q => (q.1, true, q.2)

/-- The loop over the satellites (lines 99-232): `todo` satellites remain, the
next one has index `i`. -/
def tleLoop {σ : Type} (E : Engine σ) (fuel : Nat) (pSatKeys : Nat → Int) :
    Nat → Nat → PropagationResults → World σ → Option (PropagationResults × World σ)
  | 0, _, results, w => some (results, w)
  | todo + 1, i, results, w =>
    match runSat E fuel (pSatKeys i) w with
    | none => none
    | some (satData, false, w) =>
      tleLoop E fuel pSatKeys todo (i + 1)
        { results with satellites := results.satellites ++ [satData] } w
    | some (satData, true, w) =>
      let results := { results with satellites := results.satellites ++ [satData] }
      let r := w.call (Call.Sgp4RemoveSat (pSatKeys i)) (E.Sgp4RemoveSat (pSatKeys i))
      if r.1 ≠ 0 then
        some ({ results with overallSuccess := false,
                             generalError := "Failed to remove satellite from memory" }, r.2)
      else tleLoop E fuel pSatKeys todo (i + 1) results r.2

/-- The batch driver `Propagator::RunOneSgp4Job` (lines 32-242).  `fuel` bounds
the number of iterations of each stepping loop.  The `reserve` of line 96 has no
effect on the result and is left out; the two early returns of lines 78 and 89
leave before the cleanup of lines 234-239, as in the source. -/
def RunOneSgp4Job {σ : Type} (E : Engine σ) (fuel : Nat) (inFile : String) (w : World σ) :
    Option (PropagationResults × World σ) :=
  let results : PropagationResults := { overallSuccess := true, totalSatellites := 0 }
  let f := w.call (Call.Sgp4LoadFileAll inFile) (E.Sgp4LoadFileAll inFile)
  let c := f.2.call Call.TleGetCount E.TleGetCount
  let numSats := c.1
  if numSats = 0 then
    some ({ results with overallSuccess := false,
                         generalError := "No TLEs were found in the input file" }, c.2)
  else
    let results := { results with totalSatellites := numSats }
    let a := c.2.call (Call.malloc numSats) (E.malloc numSats)
    if a.1 = false then
      some ({ results with overallSuccess := false,
                           generalError := "Memory allocation failed for satellite keys" }, a.2)
    else
      let g := a.2.call (Call.TleGetLoaded 2) (E.TleGetLoaded 2)
      match tleLoop E fuel g.1 numSats.toNat 0 results g.2 with
      | none => none
      | some (results, w) =>
        let w := { w with log := w.log ++ [Call.free] }
        let x := w.call Call.TleRemoveAllSats E.TleRemoveAllSats
        let y := x.2.call Call.Sgp4RemoveAllSats E.Sgp4RemoveAllSats
        some (results, y.2)

/-! ## Vocabulary of the theorems -/

/-- The bytes of a `std::string`. -/
def strBytes (s : String) : List Nat := s.toList.map Char.toNat

/-- The instants passed to `Sgp4PropDs50UTC` in a log, in call order. -/
def propTimes : List Call → List ℚ
  | [] => []
  | Call.Sgp4PropDs50UTC _ t :: cs => t :: propTimes cs
  | _ :: cs => propTimes cs

/-- One pass through lines 153-218 of the stepping loop, at the instant
`ds50UTC`: the record that is appended, whether the loop goes on to the next
step, and the world afterwards.  `stepLoop_succ` shows that `stepLoop` is the
iteration of this pass. -/
def propStep {σ : Type} (E : Engine σ) (satKey : Int) (ds50UTC : ℚ) (w : World σ) :
    TimeStepData × Bool × World σ :=
  let p := w.call (Call.Sgp4PropDs50UTC satKey ds50UTC) (E.Sgp4PropDs50UTC satKey ds50UTC)
  let out := p.1
  let stepData : TimeStepData :=
    { mse := some out.mse, hasError := false,
      pos := some out.pos, vel := some out.vel, llh := some out.llh }
  if out.errCode ≠ 0 then
    let m := p.2.call Call.GetLastErrMsg E.GetLastErrMsg
    ({ stepData with hasError := true, errorMsg := cstr E.LOGMSGLEN m.1 }, false, m.2)
  else
    let o := p.2.call (Call.Sgp4GetPropOut satKey E.XF_SGP4OUT_OSC_KEP)
      (E.Sgp4GetPropOut satKey E.XF_SGP4OUT_OSC_KEP)
    let k := o.2.call (Call.Sgp4GetPropOut satKey E.XF_SGP4OUT_MEAN_KEP)
      (E.Sgp4GetPropOut satKey E.XF_SGP4OUT_MEAN_KEP)
    let n := k.2.call (Call.Sgp4GetPropOut satKey E.XF_SGP4OUT_NODAL_AP_PER)
      (E.Sgp4GetPropOut satKey E.XF_SGP4OUT_NODAL_AP_PER)
    let a := n.2.call (Call.AToN (k.1.getD 0 0)) (E.AToN (k.1.getD 0 0))
    let stepData := { stepData with
      meanKep := some (k.1.take 6), oscKep := some (o.1.take 6),
      nodalApPer := some (n.1.take 3), meanMotion := some a.1 }
    if out.llh.2.2 < 100 then
      ({ stepData with
          hasError := true,
          errorMsg :=
            if out.llh.2.2 < 0 then
              "Warning: Decay condition. Distance from the Geoid (Km) = " ++
                E.to_string out.llh.2.2
            else "Warning: Height is low. HT (Km) = " ++ E.to_string out.llh.2.2 }, false, a.2)
    else (stepData, true, a.2)

/-- The value of the loop variable `ds50UTC` at the head of iteration `k` of the
stepping loop, when the steps before it were Ok: the start time at first, the
instant of the previous step afterwards (lines 137 and 147-151). -/
def headInstant (startTime stopTime stepSize : ℚ) : Nat → ℚ
  | 0 => startTime
  | k + 1 => stepInstant startTime stopTime stepSize k

/-- Index `k` is within the instant sequence: the loop does not exit at the head
of any iteration up to `k`, so step `k` is evaluated if the steps before it are
Ok. -/
def inSequence (startTime stopTime stepSize : ℚ) (k : Nat) : Prop :=
  ∀ j, j < k + 1 → loopExit stopTime stepSize (headInstant startTime stopTime stepSize j) = false

instance (startTime stopTime stepSize : ℚ) (k : Nat) :
    Decidable (inSequence startTime stopTime stepSize k) :=
  inferInstanceAs (Decidable (∀ j, j < k + 1 → _))

/-- An Ok answer of the propagator: status zero and a geodetic height of at
least 100 km. -/
def OkOut (o : PropOut) : Prop := o.errCode = 0 ∧ 100 ≤ o.llh.2.2

instance (o : PropOut) : Decidable (OkOut o) :=
  inferInstanceAs (Decidable (_ ∧ _))

/-- The world at the head of iteration `k + m` of the stepping loop, for a loop
that is at the head of iteration `k` in the world `w` and whose steps
`k .. k + m - 1` are Ok: the world that the passes of these steps leave. -/
def stepWorld {σ : Type} (E : Engine σ) (satKey : Int) (startTime stopTime stepSize : ℚ) :
    Nat → World σ → Nat → World σ
  | _, w, 0 => w
  | k, w, m + 1 =>
    stepWorld E satKey startTime stopTime stepSize (k + 1)
      (propStep E satKey (stepInstant startTime stopTime stepSize k) w).2.2 m

/-- The answer of the propagate call of step `k + m` in that run: the call is
made at the instant of the step, in the engine state that the run has reached. -/
def stepOut {σ : Type} (E : Engine σ) (satKey : Int) (startTime stopTime stepSize : ℚ) :
    Nat → World σ → Nat → PropOut
  | k, w, 0 => (E.Sgp4PropDs50UTC satKey (stepInstant startTime stopTime stepSize k) w.eng).1
  | k, w, m + 1 =>
    stepOut E satKey startTime stopTime stepSize (k + 1)
      (propStep E satKey (stepInstant startTime stopTime stepSize k) w).2.2 m

/-- The keys passed to `Sgp4RemoveSat` in a log, in call order. -/
def removeCalls : List Call → List Int
  | [] => []
  | Call.Sgp4RemoveSat k :: cs => k :: removeCalls cs
  | _ :: cs => removeCalls cs

/-- The world of `runSat` after `TleGetLines` and `Sgp4InitSat` (lines 106-114). -/
def initWorld {σ : Type} (E : Engine σ) (satKey : Int) (w : World σ) : World σ :=
  ((w.call (Call.TleGetLines satKey) (E.TleGetLines satKey)).2.call
    (Call.Sgp4InitSat satKey) (E.Sgp4InitSat satKey)).2

/-- The status that `Sgp4InitSat` returns to `runSat` (line 114). -/
def initCode {σ : Type} (E : Engine σ) (satKey : Int) (w : World σ) : Int :=
  ((w.call (Call.TleGetLines satKey) (E.TleGetLines satKey)).2.call
    (Call.Sgp4InitSat satKey) (E.Sgp4InitSat satKey)).1

/-- The record of a satellite before its stepping loop (lines 101-111). -/
def satHeader {σ : Type} (E : Engine σ) (satKey : Int) (w : World σ) : SatelliteData :=
  { satKey := satKey, propagationSuccess := true,
    line1 := cstr E.INPUTCARDLEN (E.TleGetLines satKey w.eng).1.1,
    line2 := cstr E.INPUTCARDLEN (E.TleGetLines satKey w.eng).1.2 }

/-- The epoch of a satellite as `runSat` obtains it (lines 129-131), with the
world after the two calls. -/
def satEpoch {σ : Type} (E : Engine σ) (satKey : Int) (w : World σ) : ℚ × World σ :=
  let v := (initWorld E satKey w).call (Call.TleGetField satKey E.XF_TLE_EPOCH)
    (E.TleGetField satKey E.XF_TLE_EPOCH)
  v.2.call (Call.DTGToUTC (cstr E.GETSETSTRLEN v.1)) (E.DTGToUTC (cstr E.GETSETSTRLEN v.1))

/-- The time window `(start, stop, step)` of a satellite as `runSat` resolves it
(line 134), with the world at the head of the stepping loop. -/
def satWindow {σ : Type} (E : Engine σ) (satKey : Int) (w : World σ) :
    (ℚ × ℚ × ℚ) × World σ :=
  CalcStartStopTime E (satEpoch E satKey w).1 (satEpoch E satKey w).2

/-- The world at the head of step `j` of a satellite, in the run of `runSat`
that starts in the world `w`, the steps before step `j` being Ok. -/
def satWorld {σ : Type} (E : Engine σ) (satKey : Int) (w : World σ) (j : Nat) : World σ :=
  stepWorld E satKey (satWindow E satKey w).1.1 (satWindow E satKey w).1.2.1
    (satWindow E satKey w).1.2.2 0 (satWindow E satKey w).2 j

/-- The answer of the propagate call of step `j` of a satellite, in the run of
`runSat` that starts in the world `w`, the steps before step `j` being Ok. -/
def satOut {σ : Type} (E : Engine σ) (satKey : Int) (w : World σ) (j : Nat) : PropOut :=
  stepOut E satKey (satWindow E satKey w).1.1 (satWindow E satKey w).1.2.1
    (satWindow E satKey w).1.2.2 0 (satWindow E satKey w).2 j

/-- The number of satellites `RunOneSgp4Job` reads after loading the catalogue
(lines 70-73). -/
def jobCount {σ : Type} (E : Engine σ) (inFile : String) (w : World σ) : Int :=
  ((w.call (Call.Sgp4LoadFileAll inFile) (E.Sgp4LoadFileAll inFile)).2.call
    Call.TleGetCount E.TleGetCount).1

/-- The allocation of the key array in `RunOneSgp4Job` (line 84): whether it
succeeds, and the world afterwards. -/
def jobAlloc {σ : Type} (E : Engine σ) (inFile : String) (w : World σ) : Bool × World σ :=
  ((w.call (Call.Sgp4LoadFileAll inFile) (E.Sgp4LoadFileAll inFile)).2.call
    Call.TleGetCount E.TleGetCount).2.call
      (Call.malloc (jobCount E inFile w)) (E.malloc (jobCount E inFile w))

/-- The key array and the world of `RunOneSgp4Job` at the head of the loop over
the satellites (line 93). -/
def jobSetup {σ : Type} (E : Engine σ) (inFile : String) (w : World σ) :
    (Nat → Int) × World σ :=
  (jobAlloc E inFile w).2.call (Call.TleGetLoaded 2) (E.TleGetLoaded 2)

/-- The cleanup at the end of `RunOneSgp4Job` (lines 234-239). -/
def jobCleanup {σ : Type} (E : Engine σ) (w : World σ) : World σ :=
  (((({ w with log := w.log ++ [Call.free] } : World σ).call
    Call.TleRemoveAllSats E.TleRemoveAllSats).2).call
      Call.Sgp4RemoveAllSats E.Sgp4RemoveAllSats).2

/-- Whether every `Sgp4RemoveSat` call that the loop over the satellites makes,
for `todo` satellites from index `i` on, returns status zero.  The calls are
followed in the order of `tleLoop`: a satellite whose initialisation failed has
no such call, and nothing is asked beyond a stepping loop that does not
return. -/
def removesOk {σ : Type} (E : Engine σ) (fuel : Nat) (pSatKeys : Nat → Int) :
    Nat → Nat → World σ → Bool
  | 0, _, _ => true
  | todo + 1, i, w =>
    match runSat E fuel (pSatKeys i) w with
    | none => true
    | some (_, false, w1) => removesOk E fuel pSatKeys todo (i + 1) w1
    | some (_, true, w1) =>
      decide ((E.Sgp4RemoveSat (pSatKeys i) w1.eng).1 = 0) &&
        removesOk E fuel pSatKeys todo (i + 1)
          (w1.call (Call.Sgp4RemoveSat (pSatKeys i)) (E.Sgp4RemoveSat (pSatKeys i))).2

/-- The world at the head of the iteration for the satellite of index `i + m`,
for a loop over the satellites that is at the head of the iteration for index
`i` in the world `w`: the world that the processing of the satellites
`i .. i + m - 1` leaves, `none` when one of their stepping loops does not return
or one of their remove calls fails. -/
def tleWorld {σ : Type} (E : Engine σ) (fuel : Nat) (pSatKeys : Nat → Int) :
    Nat → World σ → Nat → Option (World σ)
  | _, w, 0 => some w
  | i, w, m + 1 =>
    match runSat E fuel (pSatKeys i) w with
    | none => none
    | some (_, false, w1) => tleWorld E fuel pSatKeys (i + 1) w1 m
    | some (_, true, w1) =>
      if (E.Sgp4RemoveSat (pSatKeys i) w1.eng).1 ≠ 0 then none
      else tleWorld E fuel pSatKeys (i + 1)
        (w1.call (Call.Sgp4RemoveSat (pSatKeys i)) (E.Sgp4RemoveSat (pSatKeys i))).2 m

/-- The engines `E` and `E1` answer alike for the satellite `satKey`: they have
the same constants, and every operation that the processing of one satellite
calls gives the same answer and the same next state in both, for this key.
Nothing is asked of their answers for another key, nor of `Sgp4RemoveSat`. -/
structure AgreeOn {σ : Type} (E E1 : Engine σ) (satKey : Int) : Prop where
  cardLen : E.INPUTCARDLEN = E1.INPUTCARDLEN
  msgLen : E.LOGMSGLEN = E1.LOGMSGLEN
  strLen : E.GETSETSTRLEN = E1.GETSETSTRLEN
  epochField : E.XF_TLE_EPOCH = E1.XF_TLE_EPOCH
  oscKep : E.XF_SGP4OUT_OSC_KEP = E1.XF_SGP4OUT_OSC_KEP
  meanKep : E.XF_SGP4OUT_MEAN_KEP = E1.XF_SGP4OUT_MEAN_KEP
  nodalApPer : E.XF_SGP4OUT_NODAL_AP_PER = E1.XF_SGP4OUT_NODAL_AP_PER
  lines : E.TleGetLines satKey = E1.TleGetLines satKey
  initSat : E.Sgp4InitSat satKey = E1.Sgp4InitSat satKey
  errMsg : E.GetLastErrMsg = E1.GetLastErrMsg
  field : E.TleGetField satKey = E1.TleGetField satKey
  dtg : E.DTGToUTC = E1.DTGToUTC
  card : E.Get6P = E1.Get6P
  prop : E.Sgp4PropDs50UTC satKey = E1.Sgp4PropDs50UTC satKey
  propOut : E.Sgp4GetPropOut satKey = E1.Sgp4GetPropOut satKey
  aton : E.AToN = E1.AToN
  str : E.to_string = E1.to_string

/-- The part of a result of `runSat` that does not depend on the log: the record
of the satellite, whether it was initialised, and the engine state. -/
def satResult {σ : Type} (r : Option (SatelliteData × Bool × World σ)) :
    Option (SatelliteData × Bool × σ) :=
  r.map fun q => (q.1, q.2.1, q.2.2.eng)

/-! ## The stepping loop in machine arithmetic

The same loop, read with the arithmetic of the machine instead of exact
arithmetic.  A `double` operation is the exact operation followed by rounding to
the nearest `double`, a tie going to the even significand (`fl`); every
operation of the source expressions rounds on its own.  The `int` counter `step`
has 32 bits: incrementing it at `INT_MAX` is undefined behaviour, for which the
loop has no result.  The exponent range of a `double`, infinities and NaN are
not part of this reading: it speaks about finite values in the normal range. -/

/-- The number of halvings that bring `n` below 2: the position of the leading
bit of `n`, for `0 < n ≤ fuel`. -/
def log2F : Nat → Nat → Nat
  | 0, _ => 0
  | f + 1, n => if 2 ≤ n then log2F f (n / 2) + 1 else 0

/-- The binary exponent of `a ≠ 0`: the integer `e` with `2 ^ e ≤ |a| < 2 ^ (e + 1)`. -/
def binExp (a : ℚ) : Int :=
  if (2 : ℚ) ^ ((log2F a.num.natAbs a.num.natAbs : Int) - (log2F a.den a.den : Int)) ≤ |a| then
    (log2F a.num.natAbs a.num.natAbs : Int) - (log2F a.den a.den : Int)
  else (log2F a.num.natAbs a.num.natAbs : Int) - (log2F a.den a.den : Int) - 1

/-- The integer nearest to `q`, a tie going to the even one. -/
def rne (q : ℚ) : Int :=
  if q - ⌊q⌋ < 1 / 2 then ⌊q⌋
  else if 1 / 2 < q - ⌊q⌋ then ⌊q⌋ + 1
  else if ⌊q⌋ % 2 = 0 then ⌊q⌋ else ⌊q⌋ + 1

/-- The `double` nearest to a real `a ≥ 0`: `a` rounded to 53 significant bits. -/
def flAbs (a : ℚ) : ℚ :=
  (rne (a / 2 ^ (binExp a - 52)) : ℚ) * 2 ^ (binExp a - 52)

/-- The `double` nearest to the real `x`. -/
def fl (x : ℚ) : ℚ := if x < 0 then -flAbs (-x) else flAbs x

/-- The largest value of an `int`. -/
def INT_MAX : Nat := 2147483647

/-- The tolerance `EPSI / 86400` of lines 149-150 as the machine computes it. -/
def tolM : ℚ := fl (fl EPSI / 86400)

/-- The instant of step number `step` as the machine computes it (lines
147-151): `startTime + (step * stepSize / 1440.0)`, one rounding per operation,
and the two tolerance tests on rounded sums. -/
def stepInstantM (startTime stopTime stepSize : ℚ) (step : Nat) : ℚ :=
  let ds50UTC := fl (startTime + fl (fl ((step : ℚ) * stepSize) / 1440))
  if (stepSize ≥ 0 ∧ fl (ds50UTC + tolM) > stopTime) ∨
      (stepSize < 0 ∧ fl (ds50UTC - tolM) < stopTime) then stopTime
  else ds50UTC

/-- The value of the loop variable `ds50UTC` at the head of iteration `k`, in
machine arithmetic. -/
def headInstantM (startTime stopTime stepSize : ℚ) : Nat → ℚ
  | 0 => startTime
  | k + 1 => stepInstantM startTime stopTime stepSize k

/-- The stepping loop of one satellite (lines 140-220) in machine arithmetic:
the iteration of the pass `propStep` at the instants `stepInstantM`, with no
result when `step++` would overflow. -/
def stepLoopM {σ : Type} (E : Engine σ) (satKey : Int) (startTime stopTime stepSize : ℚ) :
    Nat → Nat → ℚ → SatelliteData → World σ → Option (SatelliteData × World σ)
  | 0, _, _, _, _ => none
  | fuel + 1, step, ds50UTC, satData, w =>
    if loopExit stopTime stepSize ds50UTC then some (satData, w)
    else
      let ds50UTC := stepInstantM startTime stopTime stepSize step
      let p := propStep E satKey ds50UTC w
      if p.2.1 then
        if INT_MAX ≤ step then none
        else
          stepLoopM E satKey startTime stopTime stepSize fuel (step + 1) ds50UTC
            { satData with timeSteps := satData.timeSteps ++ [p.1] } p.2.2
      else
        some ({ satData with timeSteps := satData.timeSteps ++ [p.1],
                             propagationSuccess := false }, p.2.2)

/-- The instant of step number `step` before the snap to the stop time, as the
machine computes it (line 147): each of the three operations rounds. -/
def rawInstantM (startTime stepSize : ℚ) (step : Nat) : ℚ :=
  fl (startTime + fl (fl ((step : ℚ) * stepSize) / 1440))

/-- The world at the head of iteration `k + m` of the machine loop, for a loop
that is at the head of iteration `k` in the world `w` and whose steps
`k .. k + m - 1` are Ok. -/
def stepWorldM {σ : Type} (E : Engine σ) (satKey : Int) (startTime stopTime stepSize : ℚ) :
    Nat → World σ → Nat → World σ
  | _, w, 0 => w
  | k, w, m + 1 =>
    stepWorldM E satKey startTime stopTime stepSize (k + 1)
      (propStep E satKey (stepInstantM startTime stopTime stepSize k) w).2.2 m

/-- The answer of the propagate call of step `k + m` in that run of the machine
loop: the call is made at the instant of the step, in the engine state that the
run has reached. -/
def stepOutM {σ : Type} (E : Engine σ) (satKey : Int) (startTime stopTime stepSize : ℚ) :
    Nat → World σ → Nat → PropOut
  | k, w, 0 => (E.Sgp4PropDs50UTC satKey (stepInstantM startTime stopTime stepSize k) w.eng).1
  | k, w, m + 1 =>
    stepOutM E satKey startTime stopTime stepSize (k + 1)
      (propStep E satKey (stepInstantM startTime stopTime stepSize k) w).2.2 m

/-! ## A concrete engine

A stateless engine with constant answers, used to evaluate the driver on
concrete inputs. -/

/-- The bytes of a text, as an engine writes it into a buffer. -/
def bytes (s : String) : CBuf := s.toUTF8.toList.map fun b => Fin.ofNat b.toNat

/-- An Ok propagation output with geodetic height `h`. -/
def okOut (h : ℚ) : PropOut :=
  { errCode := 0, mse := 0, pos := (0, 0, 0), vel := (0, 0, 0), llh := (0, 0, h) }

/-- The test engine: `count` satellites with keys `1, 2, ...`, the control card
`card`, the same `epoch` for every satellite, and the given answers of
`Sgp4InitSat`, `Sgp4PropDs50UTC` and `Sgp4RemoveSat`. -/
def testEngine (count : Int) (card : Card6P) (epoch : ℚ) (initSat : Int → Int)
    (prop : Int → ℚ → PropOut) (removeSat : Int → Int) : Engine Unit where
  INPUTCARDLEN := 512
  LOGMSGLEN := 128
  GETSETSTRLEN := 512
  XF_TLE_EPOCH := 4
  XF_SGP4OUT_OSC_KEP := 4
  XF_SGP4OUT_MEAN_KEP := 3
  XF_SGP4OUT_NODAL_AP_PER := 2
  Sgp4LoadFileAll := fun _ s => (0, s)
  TleGetCount := fun s => (count, s)
  malloc := fun _ s => (true, s)
  TleGetLoaded := fun _ s => (fun i => (i : Int) + 1, s)
  TleGetLines := fun _ s => ((bytes "1", bytes "2"), s)
  Sgp4InitSat := fun k s => (initSat k, s)
  GetLastErrMsg := fun s => (bytes "engine error", s)
  TleGetField := fun _ _ s => ([], s)
  DTGToUTC := fun _ s => (epoch, s)
  Get6P := fun s => (card, s)
  Sgp4PropDs50UTC := fun k t s => (prop k t, s)
  Sgp4GetPropOut := fun _ _ s => ([], s)
  AToN := fun a s => (a, s)
  Sgp4RemoveSat := fun k s => (removeSat k, s)
  TleRemoveAllSats := fun s => ((), s)
  Sgp4RemoveAllSats := fun s => ((), s)
  to_string := fun _ => "h"

/-- The empty world of the test engine. -/
def w0 : World Unit := { eng := (), log := [] }

/-- A test engine with two satellites, an epoch-relative window from 0 to 60
minutes in steps of 30 minutes, the epoch 100, and every call successful at a
height of 200 km. -/
def okEngine : Engine Unit :=
  testEngine 2 ⟨1, 1, 0, 60, 30⟩ 100 (fun _ => 0) (fun _ _ => okOut 200) (fun _ => 0)

/-- A fresh satellite record with key 1. -/
def sat1 : SatelliteData := { satKey := 1, propagationSuccess := true }

/-- The test engine `okEngine` with a propagator that always reports the height
`h`. -/
def heightEngine (h : ℚ) : Engine Unit :=
  testEngine 2 ⟨1, 1, 0, 60, 30⟩ 100 (fun _ => 0) (fun _ _ => okOut h) (fun _ => 0)

/-- A propagation output with the error status 1 and the height `h`. -/
def errOut (h : ℚ) : PropOut :=
  { errCode := 1, mse := 0, pos := (0, 0, 0), vel := (0, 0, 0), llh := (0, 0, h) }

/-- The test engine `okEngine` with a propagator that fails from 30 minutes
after the epoch on (step 1), and the given answers of `Sgp4RemoveSat`. -/
def errEngine (removeSat : Int → Int) : Engine Unit :=
  testEngine 2 ⟨1, 1, 0, 60, 30⟩ 100 (fun _ => 0)
    (fun _ t => if 100 + 30 / 1440 ≤ t then errOut 200 else okOut 200) removeSat

/-- A test engine whose catalogue is empty. -/
def emptyEngine : Engine Unit :=
  testEngine 0 ⟨1, 1, 0, 60, 30⟩ 100 (fun _ => 0) (fun _ _ => okOut 200) (fun _ => 0)

/-- A test engine with three satellites, Ok steps, and the given answers of
`Sgp4RemoveSat`. -/
def removeEngine (removeSat : Int → Int) : Engine Unit :=
  testEngine 3 ⟨1, 1, 0, 60, 30⟩ 100 (fun _ => 0) (fun _ _ => okOut 200) removeSat

/-- A test engine with three satellites and successful remove calls: the
initialisation of the satellite with key 1 fails, the propagator fails for the
satellite with key 2 from 30 minutes after the epoch on, and every step of the
satellite with key 3 is Ok. -/
def mixedEngine : Engine Unit :=
  testEngine 3 ⟨1, 1, 0, 60, 30⟩ 100 (fun k => if k = 1 then 1 else 0)
    (fun k t => if k = 2 ∧ 100 + 30 / 1440 ≤ t then errOut 200 else okOut 200) (fun _ => 0)

/-- The test engine `okEngine` with a step of 45 minutes, which does not divide
the window of 60 minutes. -/
def overshootEngine : Engine Unit :=
  testEngine 2 ⟨1, 1, 0, 60, 45⟩ 100 (fun _ => 0) (fun _ _ => okOut 200) (fun _ => 0)

/-- The test engine `okEngine` on the window from 0 to 0 minutes after the
epoch, whose start and stop coincide, in steps of 30 minutes. -/
def emptyWindowEngine : Engine Unit :=
  testEngine 2 ⟨1, 1, 0, 0, 30⟩ 100 (fun _ => 0) (fun _ _ => okOut 200) (fun _ => 0)

/-- The test engine `okEngine` with a propagator that always fails, reporting
the height `h` along with the error status. -/
def errHeightEngine (h : ℚ) : Engine Unit :=
  testEngine 2 ⟨1, 1, 0, 60, 30⟩ 100 (fun _ => 0) (fun _ _ => errOut h) (fun _ => 0)

/-- A test engine with a registry: the engine state is the list of the keys
that are loaded.  `Sgp4LoadFileAll` adds the keys of `catalogue` to the
registry, `TleGetCount` and `TleGetLoaded` read the registry,
`TleRemoveAllSats` empties it.  The window and the other answers are those of
`okEngine`. -/
def registryEngine (catalogue : List Int) : Engine (List Int) where
  INPUTCARDLEN := 512
  LOGMSGLEN := 128
  GETSETSTRLEN := 512
  XF_TLE_EPOCH := 4
  XF_SGP4OUT_OSC_KEP := 4
  XF_SGP4OUT_MEAN_KEP := 3
  XF_SGP4OUT_NODAL_AP_PER := 2
  Sgp4LoadFileAll := fun _ s => (0, s ++ catalogue)
  TleGetCount := fun s => ((s.length : Int), s)
  malloc := fun _ s => (true, s)
  TleGetLoaded := fun _ s => (fun i => s.getD i 0, s)
  TleGetLines := fun _ s => ((bytes "1", bytes "2"), s)
  Sgp4InitSat := fun _ s => (0, s)
  GetLastErrMsg := fun s => (bytes "engine error", s)
  TleGetField := fun _ _ s => ([], s)
  DTGToUTC := fun _ s => (100, s)
  Get6P := fun s => (⟨1, 1, 0, 60, 30⟩, s)
  Sgp4PropDs50UTC := fun _ _ s => (okOut 200, s)
  Sgp4GetPropOut := fun _ _ s => ([], s)
  AToN := fun a s => (a, s)
  Sgp4RemoveSat := fun _ s => (0, s)
  TleRemoveAllSats := fun _ => ((), [])
  Sgp4RemoveAllSats := fun s => ((), s)
  to_string := fun _ => "h"

/-- A test engine with a state: the list of the keys that `Sgp4InitSat` has
initialised and `Sgp4RemoveSat` has not removed since.  The propagator answers
`prop k t` for an initialised key and fails with status 1 for any other key,
and `Sgp4RemoveSat` fails for a key that is not initialised.  The element lines
of the key `k` end in the digit of `k`. -/
def initEngine (count : Int) (card : Card6P) (epoch : ℚ) (initSat : Int → Int)
    (prop : Int → ℚ → PropOut) : Engine (List Int) where
  INPUTCARDLEN := 512
  LOGMSGLEN := 128
  GETSETSTRLEN := 512
  XF_TLE_EPOCH := 4
  XF_SGP4OUT_OSC_KEP := 4
  XF_SGP4OUT_MEAN_KEP := 3
  XF_SGP4OUT_NODAL_AP_PER := 2
  Sgp4LoadFileAll := fun _ s => (0, s)
  TleGetCount := fun s => (count, s)
  malloc := fun _ s => (true, s)
  TleGetLoaded := fun _ s => (fun i => (i : Int) + 1, s)
  TleGetLines := fun k s =>
    ((bytes "1 0000" ++ [Fin.ofNat (48 + k.toNat)], bytes "2 0000" ++ [Fin.ofNat (48 + k.toNat)]),
      s)
  Sgp4InitSat := fun k s => (initSat k, if initSat k = 0 then k :: s else s)
  GetLastErrMsg := fun s => (bytes "engine error", s)
  TleGetField := fun _ _ s => ([], s)
  DTGToUTC := fun _ s => (epoch, s)
  Get6P := fun s => (card, s)
  Sgp4PropDs50UTC := fun k t s => (if k ∈ s then prop k t else errOut 0, s)
  Sgp4GetPropOut := fun _ _ s => ([], s)
  AToN := fun a s => (a, s)
  Sgp4RemoveSat := fun k s => (if k ∈ s then 0 else 1, s.erase k)
  TleRemoveAllSats := fun s => ((), s)
  Sgp4RemoveAllSats := fun _ => ((), [])
  to_string := fun _ => "h"

/-- The empty world of the engines with a state: no key is initialised. -/
def ws0 : World (List Int) := { eng := [], log := [] }

/-- The engine with a state, two satellites, the window from 0 to 60 minutes
after the epoch 100 in steps of 30 minutes, and a propagator that answers Ok at
a height of 200 km for an initialised key. -/
def okInitEngine : Engine (List Int) :=
  initEngine 2 ⟨1, 1, 0, 60, 30⟩ 100 (fun _ => 0) (fun _ _ => okOut 200)

/-- The engine `okInitEngine` with a propagator that reports a height of -5 km
from 60 minutes after the epoch on: the orbit decays at step 2. -/
def decayInitEngine : Engine (List Int) :=
  initEngine 2 ⟨1, 1, 0, 60, 30⟩ 100 (fun _ => 0)
    (fun _ t => if 100 + 60 / 1440 ≤ t then okOut (-5) else okOut 200)

/-- The engine `okInitEngine` with a propagator that fails, reporting a height
of 200 km, from 30 minutes after the epoch on (step 1). -/
def errInitEngine : Engine (List Int) :=
  initEngine 2 ⟨1, 1, 0, 60, 30⟩ 100 (fun _ => 0)
    (fun _ t => if 100 + 30 / 1440 ≤ t then errOut 200 else okOut 200)

/-- The engine with a state and three satellites: the initialisation of the
satellite with key 1 fails, the propagator fails for the satellite with key 2
from 30 minutes after the epoch on, and every step of the satellite with key 3
is Ok. -/
def mixedInitEngine : Engine (List Int) :=
  initEngine 3 ⟨1, 1, 0, 60, 30⟩ 100 (fun k => if k = 1 then 1 else 0)
    (fun k t => if k = 2 ∧ 100 + 30 / 1440 ≤ t then errOut 200 else okOut 200)

/-- The engine with a state and three satellites without any failure. -/
def cleanInitEngine : Engine (List Int) :=
  initEngine 3 ⟨1, 1, 0, 60, 30⟩ 100 (fun _ => 0) (fun _ _ => okOut 200)

/-- The engine `errHeightEngine 50` with a message buffer of 8 bytes. -/
def shortErrEngine : Engine Unit :=
  { errHeightEngine 50 with LOGMSGLEN := 8 }

/-- The engine `errInitEngine` with a message buffer of 8 bytes. -/
def shortErrInitEngine : Engine (List Int) :=
  { errInitEngine with LOGMSGLEN := 8 }

/-- The engine `initFailEngine` whose message buffer holds the text "bad tle",
a NUL byte, and stale bytes behind it. -/
def nulMsgEngine : Engine Unit :=
  { testEngine 2 ⟨1, 1, 0, 60, 30⟩ 100 (fun _ => 1) (fun _ _ => okOut 200) (fun _ => 0) with
    GetLastErrMsg := fun s => (bytes "bad tle" ++ [0] ++ bytes "stale", s) }

/-- The engine `initFailEngine` with a message buffer of 8 bytes. -/
def shortMsgEngine : Engine Unit :=
  { testEngine 2 ⟨1, 1, 0, 60, 30⟩ 100 (fun _ => 1) (fun _ _ => okOut 200) (fun _ => 0) with
    LOGMSGLEN := 8 }

/-- The engine `okInitEngine` with line buffers of 6 bytes and a catalogue whose
load order is the key 7, then the key 3.  The element lines of the key `k` are
"1 k5544U" and "2 k5544 ", with the digit of `k`: longer than the buffers. -/
def shortLineEngine : Engine (List Int) :=
  { initEngine 2 ⟨1, 1, 0, 60, 30⟩ 100 (fun _ => 0) (fun _ _ => okOut 200) with
    INPUTCARDLEN := 6
    TleGetLoaded := fun _ s => (fun i => if i = 0 then 7 else 3, s)
    TleGetLines := fun k s =>
      ((bytes "1 " ++ [Fin.ofNat (48 + k.toNat)] ++ bytes "5544U",
        bytes "2 " ++ [Fin.ofNat (48 + k.toNat)] ++ bytes "5544 "), s) }

/-- A test engine with two satellites, the step magnitude 0, and an absolute
window that runs backwards, from day 5 to day 1. -/
def zeroBackEngine : Engine (List Int) :=
  initEngine 2 ⟨0, 0, 5, 1, 0⟩ 100 (fun _ => 0) (fun _ _ => okOut 200)

/-- A test engine with two satellites, the step magnitude 0, a start at the
epoch 100 (epoch-relative, 0 minutes) and the absolute stop at day 50. -/
def zeroMixedEngine : Engine (List Int) :=
  initEngine 2 ⟨1, 0, 0, 50, 0⟩ 100 (fun _ => 0) (fun _ _ => okOut 200)

/-- The test engine `okEngine` whose allocation of the key array fails, with the
registry of `registryEngine`. -/
def allocFailEngine (catalogue : List Int) : Engine (List Int) :=
  { registryEngine catalogue with malloc := fun _ s => (false, s) }

/-- The engine `registryEngine` with an `Sgp4RemoveSat` that fails with status
1. -/
def removeFailEngine (catalogue : List Int) : Engine (List Int) :=
  { registryEngine catalogue with Sgp4RemoveSat := fun _ s => (1, s) }

/-- The world of the engines with a state in which the key 1 is initialised. -/
def ws1 : World (List Int) := { eng := [1], log := [] }

/-- The test engine `okEngine` with an `Sgp4InitSat` that fails with status 1. -/
def initFailEngine : Engine Unit :=
  testEngine 2 ⟨1, 1, 0, 60, 30⟩ 100 (fun _ => 1) (fun _ _ => okOut 200) (fun _ => 0)

/-- A test engine with one satellite and an absolute window that runs backwards,
from day 5 to day 1, with the positive step magnitude 7. -/
def backEngine : Engine Unit :=
  testEngine 1 ⟨0, 0, 5, 1, 7⟩ 100 (fun _ => 0) (fun _ _ => okOut 200) (fun _ => 0)

/-! ## Basic lemmas -/

theorem propTimes_append (l l' : List Call) :
    propTimes (l ++ l') = propTimes l ++ propTimes l' := by
  induction l with
  | nil => rfl
  | cons c cs ih => cases c <;> simp [propTimes, ih]

theorem call_log {σ α : Type} (w : World σ) (c : Call) (f : σ → α × σ) :
    (w.call c f).2.log = w.log ++ [c] := rfl

theorem call_fst {σ α : Type} (w : World σ) (c : Call) (f : σ → α × σ) :
    (w.call c f).1 = (f w.eng).1 := rfl

theorem call_eng {σ α : Type} (w : World σ) (c : Call) (f : σ → α × σ) :
    (w.call c f).2.eng = (f w.eng).2 := rfl

/-- The stepping loop is the iteration of `propStep`. -/
theorem stepLoop_succ {σ : Type} (E : Engine σ) (satKey : Int) (startTime stopTime stepSize : ℚ)
    (fuel step : Nat) (ds50UTC : ℚ) (satData : SatelliteData) (w : World σ) :
    stepLoop E satKey startTime stopTime stepSize (fuel + 1) step ds50UTC satData w =
      if loopExit stopTime stepSize ds50UTC then some (satData, w)
      else
        if (propStep E satKey (stepInstant startTime stopTime stepSize step) w).2.1 then
          stepLoop E satKey startTime stopTime stepSize fuel (step + 1)
            (stepInstant startTime stopTime stepSize step)
            { satData with timeSteps := satData.timeSteps ++
                [(propStep E satKey (stepInstant startTime stopTime stepSize step) w).1] }
            (propStep E satKey (stepInstant startTime stopTime stepSize step) w).2.2
        else
          some ({ satData with
              timeSteps := satData.timeSteps ++
                [(propStep E satKey (stepInstant startTime stopTime stepSize step) w).1],
              propagationSuccess := false },
            (propStep E satKey (stepInstant startTime stopTime stepSize step) w).2.2) := by
  simp only [stepLoop, propStep]
  by_cases h1 : loopExit stopTime stepSize ds50UTC = true
  · simp only [h1, if_true]
  · simp only [h1, if_false]
    split_ifs <;> simp_all

/-- When `Sgp4InitSat` succeeds, `runSat` is the stepping loop over the resolved
window, started at step 0 and at the start time. -/
theorem runSat_of_init {σ : Type} (E : Engine σ) (fuel : Nat) (satKey : Int) (w : World σ)
    (h : initCode E satKey w = 0) :
    runSat E fuel satKey w =
      (stepLoop E satKey (satWindow E satKey w).1.1 (satWindow E satKey w).1.2.1
        (satWindow E satKey w).1.2.2 fuel 0 (satWindow E satKey w).1.1
        (satHeader E satKey w) (satWindow E satKey w).2).map fun q => (q.1, true, q.2) := by
  unfold initCode at h
  simp only [runSat, h, ne_eq, not_true_eq_false, if_false]
  rfl

/-- Every pass of `propStep` logs its propagate call first and no other
propagate call. -/
theorem propStep_log {σ : Type} (E : Engine σ) (satKey : Int) (t : ℚ) (w : World σ) :
    ∃ evs, (propStep E satKey t w).2.2.log = w.log ++ Call.Sgp4PropDs50UTC satKey t :: evs ∧
      propTimes evs = [] := by
  simp only [propStep]
  split_ifs <;>
    simp only [call_log, List.append_assoc, List.singleton_append, List.nil_append] <;>
    exact ⟨_, rfl, rfl⟩

theorem propStep_propTimes {σ : Type} (E : Engine σ) (satKey : Int) (t : ℚ) (w : World σ) :
    ∃ evs, (propStep E satKey t w).2.2.log = w.log ++ evs ∧ propTimes evs = [t] := by
  obtain ⟨evs, h1, h2⟩ := propStep_log E satKey t w
  exact ⟨Call.Sgp4PropDs50UTC satKey t :: evs, h1, by simp [propTimes, h2]⟩

/-- An Ok step: the record is unflagged and the loop goes on. -/
theorem propStep_ok {σ : Type} (E : Engine σ) (satKey : Int) (t : ℚ) (w : World σ)
    (h : OkOut (E.Sgp4PropDs50UTC satKey t w.eng).1) :
    (propStep E satKey t w).2.1 = true ∧ (propStep E satKey t w).1.hasError = false := by
  obtain ⟨h1, h2⟩ := h
  unfold propStep
  simp only [call_fst, h1, ne_eq, not_true_eq_false, if_false, not_lt.mpr h2]
  exact ⟨trivial, trivial⟩

/-- The answer of step `k + m` of a run is the answer of the propagator in the
world at the head of that step. -/
theorem stepOut_eq {σ : Type} (E : Engine σ) (satKey : Int) (startTime stopTime stepSize : ℚ)
    (m : Nat) : ∀ (k : Nat) (w : World σ),
      stepOut E satKey startTime stopTime stepSize k w m =
        (E.Sgp4PropDs50UTC satKey (stepInstant startTime stopTime stepSize (k + m))
          (stepWorld E satKey startTime stopTime stepSize k w m).eng).1 := by
  induction m with
  | zero => intro k w; rfl
  | succ m ih =>
    intro k w
    simp only [stepOut, stepWorld]
    rw [ih, show k + 1 + m = k + (m + 1) by omega]

/-- A run of `m` Ok steps from iteration `k`: when the propagate calls of the
steps `k .. k + m - 1` of the run are Ok, the loop appends `m` unflagged records,
passes the instants of these steps to the propagator, and arrives at the head
of iteration `k + m` in the world `stepWorld .. k w m`. -/
theorem stepLoop_ok_run {σ : Type} (E : Engine σ) (satKey : Int)
    (startTime stopTime stepSize : ℚ) (m : Nat) :
    ∀ (k : Nat) (satData : SatelliteData) (w : World σ),
      (∀ j, k ≤ j → j < k + m →
        loopExit stopTime stepSize (headInstant startTime stopTime stepSize j) = false) →
      (∀ j, j < m → OkOut (stepOut E satKey startTime stopTime stepSize k w j)) →
      ∃ (recs : List TimeStepData) (evs : List Call),
        recs.length = m ∧ (∀ r ∈ recs, r.hasError = false) ∧
        (stepWorld E satKey startTime stopTime stepSize k w m).log = w.log ++ evs ∧
        propTimes evs = (List.range' k m).map (stepInstant startTime stopTime stepSize) ∧
        ∀ fuel, stepLoop E satKey startTime stopTime stepSize (fuel + m) k
            (headInstant startTime stopTime stepSize k) satData w =
          stepLoop E satKey startTime stopTime stepSize fuel (k + m)
            (headInstant startTime stopTime stepSize (k + m))
            { satData with timeSteps := satData.timeSteps ++ recs }
            (stepWorld E satKey startTime stopTime stepSize k w m) := by
  induction m with
  | zero =>
    intro k satData w _ _
    exact ⟨[], [], rfl, by simp, by simp [stepWorld], rfl, fun fuel => by simp [stepWorld]⟩
  | succ m ih =>
    intro k satData w h hok
    have hexit := h k le_rfl (by omega)
    obtain ⟨hcont, hflag⟩ := propStep_ok E satKey _ w (hok 0 (by omega))
    obtain ⟨ev0, hlog0, hev0⟩ := propStep_propTimes E satKey
      (stepInstant startTime stopTime stepSize k) w
    obtain ⟨recs, evs, hlen, hall, hlog, hev, hrun⟩ :=
      ih (k + 1)
        { satData with timeSteps := satData.timeSteps ++
            [(propStep E satKey (stepInstant startTime stopTime stepSize k) w).1] }
        (propStep E satKey (stepInstant startTime stopTime stepSize k) w).2.2
        (fun j h1 h2 => h j (by omega) (by omega))
        (fun j hj => hok (j + 1) (by omega))
    refine ⟨(propStep E satKey (stepInstant startTime stopTime stepSize k) w).1 :: recs,
      ev0 ++ evs, by simp [hlen], ?_, ?_, ?_, ?_⟩
    · intro r hr
      rcases List.mem_cons.mp hr with rfl | hr
      · exact hflag
      · exact hall r hr
    · show (stepWorld E satKey startTime stopTime stepSize (k + 1) _ m).log = _
      rw [hlog, hlog0, List.append_assoc]
    · rw [propTimes_append, hev0, hev, List.range'_succ]
      rfl
    · intro fuel
      have e1 : fuel + (m + 1) = (fuel + m) + 1 := by omega
      have e2 : k + (m + 1) = k + 1 + m := by omega
      rw [e1, stepLoop_succ, hexit, e2]
      simp only [Bool.false_eq_true, if_false, hcont, if_true]
      have := hrun fuel
      simp only [headInstant, List.append_assoc, List.singleton_append] at this ⊢
      exact this

/-- The loop exits at once, with nothing changed, when the exit test holds. -/
theorem stepLoop_exit {σ : Type} (E : Engine σ) (satKey : Int)
    (startTime stopTime stepSize : ℚ) (fuel step : Nat) (ds50UTC : ℚ)
    (satData : SatelliteData) (w : World σ)
    (h : loopExit stopTime stepSize ds50UTC = true) :
    stepLoop E satKey startTime stopTime stepSize (fuel + 1) step ds50UTC satData w =
      some (satData, w) := by
  rw [stepLoop_succ, h]
  rfl

theorem tol_pos : 0 < EPSI / 86400 := by norm_num [EPSI]

theorem loopExit_false_of_lt (stopTime stepSize ds50UTC : ℚ) (h1 : 0 ≤ stepSize)
    (h2 : ds50UTC < stopTime) : loopExit stopTime stepSize ds50UTC = false := by
  simp [loopExit, not_le.mpr h2, not_lt.mpr h1]

theorem loopExit_true_of_ge (stopTime stepSize ds50UTC : ℚ) (h1 : 0 ≤ stepSize)
    (h2 : stopTime ≤ ds50UTC) : loopExit stopTime stepSize ds50UTC = true := by
  simp [loopExit, h1, h2]

/-- Forward stepping: an unsnapped step instant is the raw instant. -/
theorem stepInstant_raw (startTime stopTime stepSize : ℚ) (j : Nat) (h1 : 0 ≤ stepSize)
    (h2 : startTime + (j : ℚ) * stepSize / 1440 + EPSI / 86400 ≤ stopTime) :
    stepInstant startTime stopTime stepSize j = startTime + (j : ℚ) * stepSize / 1440 := by
  simp [stepInstant, not_lt.mpr h1, not_lt.mpr h2]

/-- Forward stepping: a raw instant within the tolerance of the stop time, or
beyond it, is snapped to the stop time. -/
theorem stepInstant_snap (startTime stopTime stepSize : ℚ) (j : Nat) (h1 : 0 ≤ stepSize)
    (h2 : stopTime < startTime + (j : ℚ) * stepSize / 1440 + EPSI / 86400) :
    stepInstant startTime stopTime stepSize j = stopTime := by
  simp [stepInstant, h1, h2]

/-- When the first `n` raw instants stay clear of the snapping zone and the
stop time lies after the start, the forward loop does not exit at the head of
any of the iterations `0 .. n`. -/
theorem forward_heads (startTime stopTime stepSize : ℚ) (n : Nat) (h1 : startTime < stopTime)
    (h2 : 0 ≤ stepSize)
    (h3 : ∀ j, j < n → startTime + (j : ℚ) * stepSize / 1440 + EPSI / 86400 ≤ stopTime) :
    ∀ j, j < n + 1 →
      loopExit stopTime stepSize (headInstant startTime stopTime stepSize j) = false := by
  intro j hj
  cases j with
  | zero => exact loopExit_false_of_lt _ _ _ h2 h1
  | succ i =>
    have h4 := h3 i (by omega)
    have := tol_pos
    simp only [headInstant]
    rw [stepInstant_raw _ _ _ _ h2 h4]
    exact loopExit_false_of_lt _ _ _ h2 (by linarith)

theorem stepSequence_succ (startTime stopTime stepSize : ℚ) (fuel step : Nat) (ds50UTC : ℚ) :
    stepSequence startTime stopTime stepSize (fuel + 1) step ds50UTC =
      if loopExit stopTime stepSize ds50UTC then some []
      else (stepSequence startTime stopTime stepSize fuel (step + 1)
        (stepInstant startTime stopTime stepSize step)).map
          (stepInstant startTime stopTime stepSize step :: ·) := rfl

/-- A complete run: when the loop first exits at the head of iteration `n` and
the propagate calls of the steps `0 .. n - 1` of the run are Ok, the stepping
loop started at step 0 returns as soon as the fuel exceeds `n`.  It appends `n`
unflagged records, leaves the success flag alone, and passes the instants of
the steps `0 .. n - 1` to the propagator, in order. -/
theorem stepLoop_complete {σ : Type} (E : Engine σ) (satKey : Int)
    (startTime stopTime stepSize : ℚ) (n : Nat) (satData : SatelliteData) (w : World σ)
    (hheads : ∀ j, j < n →
      loopExit stopTime stepSize (headInstant startTime stopTime stepSize j) = false)
    (hexit : loopExit stopTime stepSize (headInstant startTime stopTime stepSize n) = true)
    (hok : ∀ j, j < n → OkOut (stepOut E satKey startTime stopTime stepSize 0 w j)) :
    ∃ (recs : List TimeStepData) (w' : World σ) (evs : List Call),
      recs.length = n ∧ (∀ r ∈ recs, r.hasError = false) ∧
      w'.log = w.log ++ evs ∧
      propTimes evs = (List.range' 0 n).map (stepInstant startTime stopTime stepSize) ∧
      ∀ fuel, n < fuel →
        stepLoop E satKey startTime stopTime stepSize fuel 0 startTime satData w =
          some ({ satData with timeSteps := satData.timeSteps ++ recs }, w') := by
  obtain ⟨recs, evs, hlen, hall, hlog, hev, hrun⟩ :=
    stepLoop_ok_run E satKey startTime stopTime stepSize n 0 satData w
      (fun j _ h2 => hheads j (by omega)) hok
  refine ⟨recs, _, evs, hlen, hall, hlog, hev, fun fuel hf => ?_⟩
  have e : fuel = (fuel - n - 1 + 1) + n := by omega
  have h := hrun (fuel - n - 1 + 1)
  rw [← e, show headInstant startTime stopTime stepSize 0 = startTime from rfl] at h
  rw [h, Nat.zero_add]
  exact stepLoop_exit _ _ _ _ _ _ _ _ _ _ hexit

theorem getLast_map_range'_succ (f : Nat → ℚ) (n : Nat) :
    ((List.range' 0 (n + 1)).map f).getLast? = some (f n) := by
  rw [List.range'_concat]
  simp

/-- The calls of `runSat` before the stepping loop of an initialised satellite. -/
theorem satWindow_log {σ : Type} (E : Engine σ) (satKey : Int) (w : World σ) :
    ∃ evs, (satWindow E satKey w).2.log = w.log ++ evs ∧ propTimes evs = [] := by
  refine ⟨[Call.TleGetLines satKey, Call.Sgp4InitSat satKey,
    Call.TleGetField satKey E.XF_TLE_EPOCH,
    Call.DTGToUTC (cstr E.GETSETSTRLEN ((initWorld E satKey w).call
      (Call.TleGetField satKey E.XF_TLE_EPOCH) (E.TleGetField satKey E.XF_TLE_EPOCH)).1),
    Call.Get6P], ?_, rfl⟩
  simp only [satWindow, CalcStartStopTime, satEpoch, initWorld, call_log, List.append_assoc,
    List.singleton_append, List.nil_append, List.cons_append]

/-- A complete run of an initialised satellite: when the loop over its window
first exits at the head of iteration `n` and the propagate calls of the steps
`0 .. n - 1` of the run are Ok, `runSat` returns as soon as the fuel exceeds
`n`, with `n` unflagged records on top of the header, the success flag still
set, and the instants of the steps `0 .. n - 1` passed to the propagator, in
order. -/
theorem runSat_complete {σ : Type} (E : Engine σ) (satKey : Int) (w : World σ) (n : Nat)
    (hinit : initCode E satKey w = 0)
    (hheads : ∀ j, j < n →
      loopExit (satWindow E satKey w).1.2.1 (satWindow E satKey w).1.2.2
        (headInstant (satWindow E satKey w).1.1 (satWindow E satKey w).1.2.1
          (satWindow E satKey w).1.2.2 j) = false)
    (hexit : loopExit (satWindow E satKey w).1.2.1 (satWindow E satKey w).1.2.2
        (headInstant (satWindow E satKey w).1.1 (satWindow E satKey w).1.2.1
          (satWindow E satKey w).1.2.2 n) = true)
    (hok : ∀ j, j < n → OkOut (satOut E satKey w j)) :
    ∃ (recs : List TimeStepData) (w' : World σ) (evs : List Call),
      recs.length = n ∧ (∀ r ∈ recs, r.hasError = false) ∧
      w'.log = w.log ++ evs ∧
      propTimes evs = (List.range' 0 n).map
        (stepInstant (satWindow E satKey w).1.1 (satWindow E satKey w).1.2.1
          (satWindow E satKey w).1.2.2) ∧
      ∀ fuel, n < fuel →
        runSat E fuel satKey w =
          some ({ satHeader E satKey w with timeSteps := recs }, true, w') := by
  obtain ⟨recs, w', evs, hlen, hall, hlog, hev, hrun⟩ :=
    stepLoop_complete E satKey _ _ _ n (satHeader E satKey w) (satWindow E satKey w).2
      hheads hexit hok
  obtain ⟨ev0, hlog0, hev0⟩ := satWindow_log E satKey w
  refine ⟨recs, w', ev0 ++ evs, hlen, hall, ?_, ?_, fun fuel hf => ?_⟩
  · rw [hlog, hlog0, List.append_assoc]
  · rw [propTimes_append, hev0, hev, List.nil_append]
  · rw [runSat_of_init E fuel satKey w hinit, hrun fuel hf]
    rfl

/-- Reaching step `k`: when index `k` is within the instant sequence and the
propagate calls of the steps before it are Ok, the loop appends `k` unflagged
records and then runs `propStep` at the instant of step `k`, in the world
`stepWorld .. 0 w k`; the outcome of that pass decides whether the loop goes on
or returns with the success flag cleared. -/
theorem stepLoop_reach {σ : Type} (E : Engine σ) (satKey : Int)
    (startTime stopTime stepSize : ℚ) (k : Nat) (satData : SatelliteData) (w : World σ)
    (hseq : inSequence startTime stopTime stepSize k)
    (hok : ∀ j, j < k → OkOut (stepOut E satKey startTime stopTime stepSize 0 w j)) :
    ∃ (recs : List TimeStepData) (evs : List Call),
      recs.length = k ∧ (∀ r ∈ recs, r.hasError = false) ∧
      (stepWorld E satKey startTime stopTime stepSize 0 w k).log = w.log ++ evs ∧
      propTimes evs = (List.range' 0 k).map (stepInstant startTime stopTime stepSize) ∧
      ∀ fuel, stepLoop E satKey startTime stopTime stepSize (fuel + 1 + k) 0 startTime satData w =
        if (propStep E satKey (stepInstant startTime stopTime stepSize k)
            (stepWorld E satKey startTime stopTime stepSize 0 w k)).2.1 then
          stepLoop E satKey startTime stopTime stepSize fuel (k + 1)
            (stepInstant startTime stopTime stepSize k)
            { satData with timeSteps := satData.timeSteps ++ recs ++
                [(propStep E satKey (stepInstant startTime stopTime stepSize k)
                  (stepWorld E satKey startTime stopTime stepSize 0 w k)).1] }
            (propStep E satKey (stepInstant startTime stopTime stepSize k)
              (stepWorld E satKey startTime stopTime stepSize 0 w k)).2.2
        else
          some ({ satData with
              timeSteps := satData.timeSteps ++ recs ++
                [(propStep E satKey (stepInstant startTime stopTime stepSize k)
                  (stepWorld E satKey startTime stopTime stepSize 0 w k)).1],
              propagationSuccess := false },
            (propStep E satKey (stepInstant startTime stopTime stepSize k)
              (stepWorld E satKey startTime stopTime stepSize 0 w k)).2.2) := by
  obtain ⟨recs, evs, hlen, hall, hlog, hev, hrun⟩ :=
    stepLoop_ok_run E satKey startTime stopTime stepSize k 0 satData w
      (fun j _ h2 => hseq j (by omega)) hok
  refine ⟨recs, evs, hlen, hall, hlog, hev, fun fuel => ?_⟩
  have h := hrun (fuel + 1)
  rw [show headInstant startTime stopTime stepSize 0 = startTime from rfl, Nat.zero_add] at h
  rw [h, stepLoop_succ, hseq k (by omega)]
  simp only [Bool.false_eq_true, if_false]

/-- Reaching step `k` in `runSat`: the statement of `stepLoop_reach` for an
initialised satellite, on its resolved window and from its header record.  When
the pass of step `k`, made in the world `satWorld E satKey w k`, stops the loop,
`runSat` returns with the `k` unflagged records and the record of that pass. -/
theorem runSat_reach {σ : Type} (E : Engine σ) (satKey : Int) (w : World σ) (k : Nat)
    (hinit : initCode E satKey w = 0)
    (hseq : inSequence (satWindow E satKey w).1.1 (satWindow E satKey w).1.2.1
      (satWindow E satKey w).1.2.2 k)
    (hok : ∀ j, j < k → OkOut (satOut E satKey w j)) :
    ∃ (recs : List TimeStepData) (evs : List Call),
      recs.length = k ∧ (∀ r ∈ recs, r.hasError = false) ∧
      (satWorld E satKey w k).log = w.log ++ evs ∧
      propTimes evs = (List.range' 0 k).map
        (stepInstant (satWindow E satKey w).1.1 (satWindow E satKey w).1.2.1
          (satWindow E satKey w).1.2.2) ∧
      ∀ fuel, k < fuel →
        (propStep E satKey (stepInstant (satWindow E satKey w).1.1 (satWindow E satKey w).1.2.1
          (satWindow E satKey w).1.2.2 k) (satWorld E satKey w k)).2.1 = false →
        runSat E fuel satKey w =
          some ({ satHeader E satKey w with
              timeSteps := recs ++
                [(propStep E satKey (stepInstant (satWindow E satKey w).1.1
                  (satWindow E satKey w).1.2.1 (satWindow E satKey w).1.2.2 k)
                  (satWorld E satKey w k)).1],
              propagationSuccess := false }, true,
            (propStep E satKey (stepInstant (satWindow E satKey w).1.1
              (satWindow E satKey w).1.2.1 (satWindow E satKey w).1.2.2 k)
              (satWorld E satKey w k)).2.2) := by
  obtain ⟨recs, evs, hlen, hall, hlog, hev, hrun⟩ :=
    stepLoop_reach E satKey _ _ _ k (satHeader E satKey w) (satWindow E satKey w).2 hseq hok
  obtain ⟨ev0, hlog0, hev0⟩ := satWindow_log E satKey w
  refine ⟨recs, ev0 ++ evs, hlen, hall, ?_, ?_, fun fuel hf hstop => ?_⟩
  · show (stepWorld E satKey _ _ _ 0 (satWindow E satKey w).2 k).log = _
    rw [hlog, hlog0, List.append_assoc]
  · rw [propTimes_append, hev0, hev, List.nil_append]
  · have e : fuel = (fuel - k - 1) + 1 + k := by omega
    have hstop' : (propStep E satKey (stepInstant (satWindow E satKey w).1.1
        (satWindow E satKey w).1.2.1 (satWindow E satKey w).1.2.2 k)
        (stepWorld E satKey (satWindow E satKey w).1.1 (satWindow E satKey w).1.2.1
          (satWindow E satKey w).1.2.2 0 (satWindow E satKey w).2 k)).2.1 = false := hstop
    rw [runSat_of_init E fuel satKey w hinit, e, hrun (fuel - k - 1), hstop']
    rfl

/-- The answer of step `j` of a satellite is the answer of the propagator in
the world at the head of that step. -/
theorem satOut_eq {σ : Type} (E : Engine σ) (satKey : Int) (w : World σ) (j : Nat) :
    satOut E satKey w j =
      (E.Sgp4PropDs50UTC satKey (stepInstant (satWindow E satKey w).1.1
        (satWindow E satKey w).1.2.1 (satWindow E satKey w).1.2.2 j)
        (satWorld E satKey w j).eng).1 := by
  unfold satOut satWorld
  rw [stepOut_eq, Nat.zero_add]

/-- When `Sgp4InitSat` fails, `runSat` returns the header with a single error
record and the success flag cleared, after one call of `GetLastErrMsg`. -/
theorem runSat_of_init_failure {σ : Type} (E : Engine σ) (fuel : Nat) (satKey : Int)
    (w : World σ) (h : initCode E satKey w ≠ 0) :
    runSat E fuel satKey w =
      some ({ satHeader E satKey w with
          timeSteps := [{ hasError := true,
                          errorMsg := cstr E.LOGMSGLEN
                            (E.GetLastErrMsg (initWorld E satKey w).eng).1 }],
          propagationSuccess := false }, false,
        ((initWorld E satKey w).call Call.GetLastErrMsg E.GetLastErrMsg).2) := by
  unfold initCode at h
  simp only [runSat, ne_eq, h, not_false_eq_true, if_true]
  rfl

/-- With a resolved step of 0 and a resolved start that is not before the
resolved stop, `runSat` returns with any positive fuel and makes no propagate
call; a satellite whose initialisation fails returns in any case. -/
theorem runSat_zero_step {σ : Type} (E : Engine σ) (fuel : Nat) (satKey : Int) (w : World σ)
    (hwin : initCode E satKey w = 0 →
      (E.Get6P (satEpoch E satKey w).2.eng).1.stepSize = 0 ∧
      (satWindow E satKey w).1.2.1 ≤ (satWindow E satKey w).1.1)
    (hfuel : 0 < fuel) :
    ∃ (sd : SatelliteData) (b : Bool) (w' : World σ),
      runSat E fuel satKey w = some (sd, b, w') ∧ propTimes w'.log = propTimes w.log := by
  by_cases hinit : initCode E satKey w = 0
  · obtain ⟨hzero, hle⟩ := hwin hinit
    have hstep : (satWindow E satKey w).1.2.2 = 0 := by
      have hs : (satWindow E satKey w).1.2.2 =
          if (satWindow E satKey w).1.1 > (satWindow E satKey w).1.2.1 then
            -|(E.Get6P (satEpoch E satKey w).2.eng).1.stepSize|
          else |(E.Get6P (satEpoch E satKey w).2.eng).1.stepSize| := rfl
      rw [hs, hzero]
      simp
    obtain ⟨recs, w', evs, -, -, hlog, hev, hrun⟩ :=
      runSat_complete E satKey w 0 hinit (fun j h => absurd h (Nat.not_lt_zero j))
        (by
          rw [hstep]
          exact loopExit_true_of_ge _ _ _ le_rfl hle)
        (fun j h => absurd h (Nat.not_lt_zero j))
    refine ⟨_, true, w', hrun fuel hfuel, ?_⟩
    rw [hlog, propTimes_append, hev]
    simp
  · refine ⟨_, false, _, runSat_of_init_failure E fuel satKey w hinit, ?_⟩
    simp only [initWorld, call_log, propTimes_append, propTimes, List.append_nil]

/-- With a non-empty catalogue and a successful allocation, `RunOneSgp4Job` is
the loop over the satellites followed by the cleanup. -/
theorem RunOneSgp4Job_of_loop {σ : Type} (E : Engine σ) (fuel : Nat) (inFile : String)
    (w : World σ) (hcount : jobCount E inFile w ≠ 0) (halloc : (jobAlloc E inFile w).1 = true) :
    RunOneSgp4Job E fuel inFile w =
      (tleLoop E fuel (jobSetup E inFile w).1 (jobCount E inFile w).toNat 0
        { overallSuccess := true, totalSatellites := jobCount E inFile w }
        (jobSetup E inFile w).2).map fun r => (r.1, jobCleanup E r.2) := by
  unfold jobAlloc at halloc
  unfold jobCount at hcount halloc
  simp only [RunOneSgp4Job, hcount, if_false, halloc, Bool.true_eq_false, jobSetup, jobAlloc,
    jobCount]
  cases tleLoop E fuel _ _ 0 _ _ <;> rfl

theorem jobSetup_log {σ : Type} (E : Engine σ) (inFile : String) (w : World σ) :
    propTimes (jobSetup E inFile w).2.log = propTimes w.log := by
  simp only [jobSetup, jobAlloc, call_log, propTimes_append, propTimes, List.append_nil]

theorem jobCleanup_log {σ : Type} (E : Engine σ) (w : World σ) :
    propTimes (jobCleanup E w).log = propTimes w.log := by
  simp only [jobCleanup, call_log, propTimes_append, propTimes, List.append_nil]

/-- A step with status zero is classified by its height alone. -/
theorem propStep_zero_status {σ : Type} (E : Engine σ) (satKey : Int) (t : ℚ) (w : World σ)
    (h0 : (E.Sgp4PropDs50UTC satKey t w.eng).1.errCode = 0) :
    (propStep E satKey t w).1.llh = some (E.Sgp4PropDs50UTC satKey t w.eng).1.llh ∧
    ((E.Sgp4PropDs50UTC satKey t w.eng).1.llh.2.2 < 0 →
      (propStep E satKey t w).2.1 = false ∧ (propStep E satKey t w).1.hasError = true ∧
      (propStep E satKey t w).1.errorMsg =
        "Warning: Decay condition. Distance from the Geoid (Km) = " ++
          E.to_string (E.Sgp4PropDs50UTC satKey t w.eng).1.llh.2.2) ∧
    (0 ≤ (E.Sgp4PropDs50UTC satKey t w.eng).1.llh.2.2 →
      (E.Sgp4PropDs50UTC satKey t w.eng).1.llh.2.2 < 100 →
      (propStep E satKey t w).2.1 = false ∧ (propStep E satKey t w).1.hasError = true ∧
      (propStep E satKey t w).1.errorMsg =
        "Warning: Height is low. HT (Km) = " ++
          E.to_string (E.Sgp4PropDs50UTC satKey t w.eng).1.llh.2.2) ∧
    (100 ≤ (E.Sgp4PropDs50UTC satKey t w.eng).1.llh.2.2 →
      (propStep E satKey t w).2.1 = true ∧ (propStep E satKey t w).1.hasError = false) := by
  refine ⟨?_, fun h => ?_, fun h1 h2 => ?_, fun h => ?_⟩
  · simp only [propStep, call_fst, h0, ne_eq, not_true_eq_false, if_false]
    split_ifs <;> rfl
  · have h3 : (E.Sgp4PropDs50UTC satKey t w.eng).1.llh.2.2 < 100 := by linarith
    simp only [propStep, call_fst, h0, ne_eq, not_true_eq_false, if_false, h3, h, if_true]
    exact ⟨trivial, trivial, trivial⟩
  · simp only [propStep, call_fst, h0, ne_eq, not_true_eq_false, if_false, h2, if_true,
      not_lt.mpr h1]
    exact ⟨trivial, trivial, trivial⟩
  · simp only [propStep, call_fst, h0, ne_eq, not_true_eq_false, if_false, not_lt.mpr h]
    exact ⟨trivial, trivial⟩

/-- A step with a non-zero status: the record is flagged and carries the message
that `GetLastErrMsg` returns right after the propagate call, the derived
elements are not queried, and the loop stops. -/
theorem propStep_error {σ : Type} (E : Engine σ) (satKey : Int) (t : ℚ) (w : World σ)
    (h : (E.Sgp4PropDs50UTC satKey t w.eng).1.errCode ≠ 0) :
    (propStep E satKey t w).2.1 = false ∧ (propStep E satKey t w).1.hasError = true ∧
    (propStep E satKey t w).1.errorMsg =
      cstr E.LOGMSGLEN (E.GetLastErrMsg (E.Sgp4PropDs50UTC satKey t w.eng).2).1 ∧
    (propStep E satKey t w).2.2.log =
      w.log ++ [Call.Sgp4PropDs50UTC satKey t, Call.GetLastErrMsg] := by
  simp only [propStep, call_fst, ne_eq, h, not_false_eq_true, if_true, call_log, call_eng,
    List.append_assoc, List.singleton_append]
  exact ⟨trivial, trivial, trivial, trivial⟩

/-- The loop over the satellites after a satellite that went through its
stepping loop: its result is appended and `Sgp4RemoveSat` is called; a non-zero
status ends the batch, a zero status leads to the next satellite. -/
theorem tleLoop_succ_stepped {σ : Type} (E : Engine σ) (fuel : Nat) (pSatKeys : Nat → Int)
    (todo i : Nat) (results : PropagationResults) (w : World σ) (sd : SatelliteData)
    (w1 : World σ) (h : runSat E fuel (pSatKeys i) w = some (sd, true, w1)) :
    tleLoop E fuel pSatKeys (todo + 1) i results w =
      if (E.Sgp4RemoveSat (pSatKeys i) w1.eng).1 ≠ 0 then
        some ({ results with
            satellites := results.satellites ++ [sd],
            overallSuccess := false,
            generalError := "Failed to remove satellite from memory" },
          (w1.call (Call.Sgp4RemoveSat (pSatKeys i)) (E.Sgp4RemoveSat (pSatKeys i))).2)
      else
        tleLoop E fuel pSatKeys todo (i + 1)
          { results with satellites := results.satellites ++ [sd] }
          (w1.call (Call.Sgp4RemoveSat (pSatKeys i)) (E.Sgp4RemoveSat (pSatKeys i))).2 := by
  simp only [tleLoop, h, call_fst]

/-- The loop over the satellites after a satellite whose initialisation failed:
its result is appended and the loop goes to the next satellite, without a call
of `Sgp4RemoveSat`. -/
theorem tleLoop_succ_failed {σ : Type} (E : Engine σ) (fuel : Nat) (pSatKeys : Nat → Int)
    (todo i : Nat) (results : PropagationResults) (w : World σ) (sd : SatelliteData)
    (w1 : World σ) (h : runSat E fuel (pSatKeys i) w = some (sd, false, w1)) :
    tleLoop E fuel pSatKeys (todo + 1) i results w =
      tleLoop E fuel pSatKeys todo (i + 1)
        { results with satellites := results.satellites ++ [sd] } w1 := by
  simp only [tleLoop, h]

theorem tleLoop_succ_none {σ : Type} (E : Engine σ) (fuel : Nat) (pSatKeys : Nat → Int)
    (todo i : Nat) (results : PropagationResults) (w : World σ)
    (h : runSat E fuel (pSatKeys i) w = none) :
    tleLoop E fuel pSatKeys (todo + 1) i results w = none := by
  simp only [tleLoop, h]

/-- The record of a pass is flagged exactly when the loop stops after it. -/
theorem propStep_flag {σ : Type} (E : Engine σ) (satKey : Int) (t : ℚ) (w : World σ) :
    (propStep E satKey t w).1.hasError = !(propStep E satKey t w).2.1 := by
  simp only [propStep]
  split_ifs <;> rfl

/-- The trace of a stepping loop that returns, for any engine.  From the head of
iteration `k` the loop appends records `recs` to the record of the satellite and
leaves its key and element lines alone.  Record `j` is the record of the pass
through `propStep` at the instant of step `k + j`, the loop did not exit at the
head of iteration `k + j`, the propagate calls are exactly those of the steps
`k .. k + recs.length - 1`, and no record before the last is flagged.  Either no
record is flagged and the success flag is untouched, or the last record is
flagged and the success flag is cleared. -/
theorem stepLoop_trace {σ : Type} (E : Engine σ) (satKey : Int)
    (startTime stopTime stepSize : ℚ) (fuel : Nat) :
    ∀ (k : Nat) (satData : SatelliteData) (w : World σ) (sd : SatelliteData) (w' : World σ),
      stepLoop E satKey startTime stopTime stepSize fuel k
        (headInstant startTime stopTime stepSize k) satData w = some (sd, w') →
      ∃ (recs : List TimeStepData) (evs : List Call),
        sd.timeSteps = satData.timeSteps ++ recs ∧
        sd.line1 = satData.line1 ∧ sd.line2 = satData.line2 ∧ sd.satKey = satData.satKey ∧
        w'.log = w.log ++ evs ∧
        propTimes evs = (List.range' k recs.length).map
          (stepInstant startTime stopTime stepSize) ∧
        (∀ j, j < recs.length →
          loopExit stopTime stepSize (headInstant startTime stopTime stepSize (k + j)) = false ∧
          ∃ wj : World σ, recs[j]? =
            some (propStep E satKey (stepInstant startTime stopTime stepSize (k + j)) wj).1) ∧
        (∀ j r, recs[j]? = some r → j + 1 < recs.length → r.hasError = false) ∧
        ((sd.propagationSuccess = satData.propagationSuccess ∧
            ∀ r ∈ recs, r.hasError = false) ∨
          (sd.propagationSuccess = false ∧
            ∃ last, recs.getLast? = some last ∧ last.hasError = true)) := by
  induction fuel with
  | zero => intro k satData w sd w' h; simp [stepLoop] at h
  | succ fuel ih =>
    intro k satData w sd w' h
    rw [stepLoop_succ] at h
    by_cases hx : loopExit stopTime stepSize (headInstant startTime stopTime stepSize k) = true
    · rw [hx] at h
      simp only [if_true, Option.some.injEq, Prod.mk.injEq] at h
      obtain ⟨rfl, rfl⟩ := h
      exact ⟨[], [], by simp, rfl, rfl, rfl, by simp, rfl, by simp, by simp,
        Or.inl ⟨rfl, by simp⟩⟩
    · have hx' : loopExit stopTime stepSize (headInstant startTime stopTime stepSize k) = false := by
        simpa using hx
      rw [hx'] at h
      simp only [Bool.false_eq_true, if_false] at h
      have hflag := propStep_flag E satKey (stepInstant startTime stopTime stepSize k) w
      obtain ⟨ev0, hlog0, hev0⟩ := propStep_propTimes E satKey
        (stepInstant startTime stopTime stepSize k) w
      by_cases hc : (propStep E satKey (stepInstant startTime stopTime stepSize k) w).2.1 = true
      · rw [hc] at h hflag
        simp only [if_true] at h
        obtain ⟨recs, evs, h1, h2, h3, h4, h5, h6, h7, h8, h9⟩ := ih (k + 1) _ _ sd w' h
        refine ⟨(propStep E satKey (stepInstant startTime stopTime stepSize k) w).1 :: recs,
          ev0 ++ evs, ?_, h2, h3, h4, ?_, ?_, ?_, ?_, ?_⟩
        · rw [h1]; simp
        · rw [h5, hlog0, List.append_assoc]
        · rw [propTimes_append, hev0, h6, List.length_cons, List.range'_succ]
          rfl
        · intro j hj
          cases j with
          | zero => exact ⟨hx', w, by simp⟩
          | succ j =>
            have := h7 j (by simpa using hj)
            rw [show k + 1 + j = k + (j + 1) by omega] at this
            simpa using this
        · intro j r hr hj
          cases j with
          | zero =>
            simp only [List.getElem?_cons_zero, Option.some.injEq] at hr
            rw [← hr, hflag]
            rfl
          | succ j =>
            rw [List.getElem?_cons_succ] at hr
            exact h8 j r hr (by simpa using hj)
        · rcases h9 with ⟨a, b⟩ | ⟨a, last, b, c⟩
          · refine Or.inl ⟨a, fun r hr => ?_⟩
            rcases List.mem_cons.mp hr with rfl | hr
            · rw [hflag]; rfl
            · exact b r hr
          · refine Or.inr ⟨a, last, ?_, c⟩
            cases recs with
            | nil => simp at b
            | cons r rs => rw [List.getLast?_cons_cons]; exact b
      · have hc' : (propStep E satKey (stepInstant startTime stopTime stepSize k) w).2.1
            = false := by simpa using hc
        rw [hc'] at h hflag
        simp only [Bool.false_eq_true, if_false, Option.some.injEq, Prod.mk.injEq] at h
        obtain ⟨rfl, rfl⟩ := h
        refine ⟨[(propStep E satKey (stepInstant startTime stopTime stepSize k) w).1], ev0,
          rfl, rfl, rfl, rfl, hlog0, by rw [hev0]; rfl, ?_, ?_,
          Or.inr ⟨rfl, (propStep E satKey (stepInstant startTime stopTime stepSize k) w).1,
            rfl, ?_⟩⟩
        · intro j hj
          have : j = 0 := by simpa using hj
          subst this
          exact ⟨hx', w, by simp⟩
        · intro j r _ hj
          simp at hj
        · rw [hflag]; rfl

/-- The trace of `runSat`, for any engine.  A result carries the key and the
element lines of its satellite, and no record before its last is flagged.  When
the initialisation failed the result is the single error record of
`runSat_of_init_failure`.  Otherwise record `j` is the record of the pass
through `propStep` at the instant of step `j` of the resolved window, index `j`
is within the instant sequence, the propagate calls are exactly those of the
steps `0 .. length - 1`, and the success flag is set exactly when no record is
flagged. -/
theorem runSat_trace {σ : Type} (E : Engine σ) (fuel : Nat) (satKey : Int) (w : World σ)
    (sd : SatelliteData) (b : Bool) (w' : World σ)
    (h : runSat E fuel satKey w = some (sd, b, w')) :
    sd.satKey = satKey ∧
    sd.line1 = cstr E.INPUTCARDLEN (E.TleGetLines satKey w.eng).1.1 ∧
    sd.line2 = cstr E.INPUTCARDLEN (E.TleGetLines satKey w.eng).1.2 ∧
    (∀ j r, sd.timeSteps[j]? = some r → j + 1 < sd.timeSteps.length → r.hasError = false) ∧
    (b = false → initCode E satKey w ≠ 0 ∧
      sd.timeSteps = [{ hasError := true,
                        errorMsg := cstr E.LOGMSGLEN
                          (E.GetLastErrMsg (initWorld E satKey w).eng).1 }] ∧
      sd.propagationSuccess = false ∧
      w'.log = w.log ++
        [Call.TleGetLines satKey, Call.Sgp4InitSat satKey, Call.GetLastErrMsg]) ∧
    (b = true → initCode E satKey w = 0 ∧
      ∃ evs : List Call, w'.log = w.log ++ evs ∧
        propTimes evs = (List.range' 0 sd.timeSteps.length).map
          (stepInstant (satWindow E satKey w).1.1 (satWindow E satKey w).1.2.1
            (satWindow E satKey w).1.2.2) ∧
        (∀ j, j < sd.timeSteps.length →
          inSequence (satWindow E satKey w).1.1 (satWindow E satKey w).1.2.1
            (satWindow E satKey w).1.2.2 j ∧
          ∃ wj : World σ, sd.timeSteps[j]? =
            some (propStep E satKey (stepInstant (satWindow E satKey w).1.1
              (satWindow E satKey w).1.2.1 (satWindow E satKey w).1.2.2 j) wj).1) ∧
        ((sd.propagationSuccess = true ∧ ∀ r ∈ sd.timeSteps, r.hasError = false) ∨
          (sd.propagationSuccess = false ∧
            ∃ last, sd.timeSteps.getLast? = some last ∧ last.hasError = true))) := by
  by_cases hinit : initCode E satKey w = 0
  · rw [runSat_of_init E fuel satKey w hinit, Option.map_eq_some'] at h
    obtain ⟨⟨sd0, w1⟩, hloop, heq⟩ := h
    simp only [Prod.mk.injEq] at heq
    obtain ⟨rfl, rfl, rfl⟩ := heq
    obtain ⟨recs, evs, h1, h2, h3, h4, h5, h6, h7, h8, h9⟩ :=
      stepLoop_trace E satKey _ _ _ fuel 0 (satHeader E satKey w) (satWindow E satKey w).2
        sd0 w1 hloop
    have hts : sd0.timeSteps = recs := by rw [h1]; rfl
    obtain ⟨ev0, hlog0, hev0⟩ := satWindow_log E satKey w
    refine ⟨h4, h2, h3, ?_, fun hb => absurd hb (by decide), fun _ => ⟨hinit, ev0 ++ evs,
      ?_, ?_, ?_, ?_⟩⟩
    · rw [hts]; exact h8
    · rw [h5, hlog0, List.append_assoc]
    · rw [propTimes_append, hev0, h6, hts, List.nil_append]
    · rw [hts]
      intro j hj
      refine ⟨fun i hi => ?_, ?_⟩
      · have := (h7 i (by omega)).1
        rwa [Nat.zero_add] at this
      · have := (h7 j hj).2
        rwa [Nat.zero_add] at this
    · rw [hts]
      rcases h9 with ⟨a, b⟩ | ⟨a, b⟩
      · exact Or.inl ⟨a, b⟩
      · exact Or.inr ⟨a, b⟩
  · rw [runSat_of_init_failure E fuel satKey w hinit] at h
    simp only [Option.some.injEq, Prod.mk.injEq] at h
    obtain ⟨rfl, rfl, rfl⟩ := h
    refine ⟨rfl, rfl, rfl, ?_, fun _ => ⟨hinit, rfl, rfl, ?_⟩, fun hb => absurd hb (by decide)⟩
    · intro j r _ hj
      simp at hj
    · simp only [initWorld, call_log, List.append_assoc, List.singleton_append,
        List.nil_append, List.cons_append]

/-- The loop over the satellites, for any engine, when it returns.  It appends
object results `sds` to the batch and leaves the satellite count alone; result
`j` is the result of `runSat` for the key of satellite `i + j`.  Either no
remove call failed, every satellite got a result and the batch flags are
untouched; or a remove call failed, `overallSuccess` is cleared and the batch
message is set. -/
theorem tleLoop_spec {σ : Type} (E : Engine σ) (fuel : Nat) (pSatKeys : Nat → Int)
    (todo : Nat) :
    ∀ (i : Nat) (results : PropagationResults) (w : World σ) (res : PropagationResults)
      (w' : World σ),
      tleLoop E fuel pSatKeys todo i results w = some (res, w') →
      ∃ sds : List SatelliteData,
        res.satellites = results.satellites ++ sds ∧
        res.totalSatellites = results.totalSatellites ∧
        sds.length ≤ todo ∧
        (∀ j, j < sds.length → ∃ (sd : SatelliteData) (b : Bool) (wj wj' : World σ),
          sds[j]? = some sd ∧ runSat E fuel (pSatKeys (i + j)) wj = some (sd, b, wj')) ∧
        ((removesOk E fuel pSatKeys todo i w = true ∧ sds.length = todo ∧
            res.overallSuccess = results.overallSuccess ∧
            res.generalError = results.generalError) ∨
          (removesOk E fuel pSatKeys todo i w = false ∧ res.overallSuccess = false ∧
            res.generalError = "Failed to remove satellite from memory")) := by
  induction todo with
  | zero =>
    intro i results w res w' h
    simp only [tleLoop, Option.some.injEq, Prod.mk.injEq] at h
    obtain ⟨rfl, rfl⟩ := h
    exact ⟨[], by simp, rfl, le_rfl, by simp, Or.inl ⟨rfl, rfl, rfl, rfl⟩⟩
  | succ todo ih =>
    intro i results w res w' h
    cases hrun : runSat E fuel (pSatKeys i) w with
    | none => rw [tleLoop_succ_none E fuel pSatKeys todo i results w hrun] at h; simp at h
    | some r =>
      obtain ⟨sd, b, w1⟩ := r
      have hstep : ∀ (sds : List SatelliteData) (j : Nat), j < (sd :: sds).length →
          (∀ j, j < sds.length → ∃ (sd' : SatelliteData) (b' : Bool) (wj wj' : World σ),
            sds[j]? = some sd' ∧ runSat E fuel (pSatKeys (i + 1 + j)) wj = some (sd', b', wj')) →
          ∃ (sd' : SatelliteData) (b' : Bool) (wj wj' : World σ),
            (sd :: sds)[j]? = some sd' ∧
              runSat E fuel (pSatKeys (i + j)) wj = some (sd', b', wj') := by
        intro sds j hj hall
        cases j with
        | zero => exact ⟨sd, b, w, w1, by simp, hrun⟩
        | succ j =>
          obtain ⟨sd', b', wj, wj', h1, h2⟩ := hall j (by simpa using hj)
          refine ⟨sd', b', wj, wj', by simpa using h1, ?_⟩
          rw [show i + (j + 1) = i + 1 + j by omega]
          exact h2
      cases b with
      | false =>
        rw [tleLoop_succ_failed E fuel pSatKeys todo i results w sd w1 hrun] at h
        obtain ⟨sds, h1, h2, h3, h4, h5⟩ := ih (i + 1) _ w1 res w' h
        refine ⟨sd :: sds, by rw [h1]; simp, h2, by simp; omega,
          fun j hj => hstep sds j hj h4, ?_⟩
        have hr : removesOk E fuel pSatKeys (todo + 1) i w =
            removesOk E fuel pSatKeys todo (i + 1) w1 := by
          simp only [removesOk, hrun]
        rw [hr]
        rcases h5 with ⟨a, b, c, d⟩ | ⟨a, b, c⟩
        · exact Or.inl ⟨a, by simp [b], c, d⟩
        · exact Or.inr ⟨a, b, c⟩
      | true =>
        rw [tleLoop_succ_stepped E fuel pSatKeys todo i results w sd w1 hrun] at h
        have hr : removesOk E fuel pSatKeys (todo + 1) i w =
            (decide ((E.Sgp4RemoveSat (pSatKeys i) w1.eng).1 = 0) &&
              removesOk E fuel pSatKeys todo (i + 1)
                (w1.call (Call.Sgp4RemoveSat (pSatKeys i))
                  (E.Sgp4RemoveSat (pSatKeys i))).2) := by
          simp only [removesOk, hrun]
        by_cases hrem : (E.Sgp4RemoveSat (pSatKeys i) w1.eng).1 = 0
        · simp only [hrem, ne_eq, not_true_eq_false, if_false] at h
          obtain ⟨sds, h1, h2, h3, h4, h5⟩ := ih (i + 1) _ _ res w' h
          refine ⟨sd :: sds, by rw [h1]; simp, h2, by simp; omega,
            fun j hj => hstep sds j hj h4, ?_⟩
          rw [hr]
          simp only [hrem, decide_True, Bool.true_and]
          rcases h5 with ⟨a, b, c, d⟩ | ⟨a, b, c⟩
          · exact Or.inl ⟨a, by simp [b], c, d⟩
          · exact Or.inr ⟨a, b, c⟩
        · simp only [ne_eq, hrem, not_false_eq_true, if_true, Option.some.injEq,
            Prod.mk.injEq] at h
          obtain ⟨rfl, rfl⟩ := h
          refine ⟨[sd], rfl, rfl, by simp, fun j hj => hstep [] j hj (by simp), Or.inr ⟨?_, rfl,
            rfl⟩⟩
          rw [hr]
          simp [hrem]

/-- The three ways in which `RunOneSgp4Job` returns: at once on an empty
catalogue, at once when the key array cannot be allocated, and after the loop
over the satellites and the cleanup. -/
theorem RunOneSgp4Job_cases {σ : Type} (E : Engine σ) (fuel : Nat) (inFile : String)
    (w : World σ) (res : PropagationResults) (w' : World σ)
    (h : RunOneSgp4Job E fuel inFile w = some (res, w')) :
    (jobCount E inFile w = 0 ∧
      res = { overallSuccess := false, totalSatellites := 0,
              generalError := "No TLEs were found in the input file" } ∧
      w'.log = w.log ++ [Call.Sgp4LoadFileAll inFile, Call.TleGetCount]) ∨
    (jobCount E inFile w ≠ 0 ∧ (jobAlloc E inFile w).1 = false ∧
      res = { overallSuccess := false, totalSatellites := jobCount E inFile w,
              generalError := "Memory allocation failed for satellite keys" } ∧
      w' = (jobAlloc E inFile w).2) ∨
    (jobCount E inFile w ≠ 0 ∧ (jobAlloc E inFile w).1 = true ∧
      ∃ w1 : World σ,
        tleLoop E fuel (jobSetup E inFile w).1 (jobCount E inFile w).toNat 0
          { overallSuccess := true, totalSatellites := jobCount E inFile w }
          (jobSetup E inFile w).2 = some (res, w1) ∧
        w' = jobCleanup E w1) := by
  by_cases hc : jobCount E inFile w = 0
  · left
    have hc' := hc
    unfold jobCount at hc'
    simp only [RunOneSgp4Job, hc', if_true, Option.some.injEq, Prod.mk.injEq] at h
    obtain ⟨rfl, rfl⟩ := h
    refine ⟨hc, rfl, ?_⟩
    simp only [call_log, List.append_assoc, List.singleton_append]
  · right
    by_cases ha : (jobAlloc E inFile w).1 = true
    · right
      rw [RunOneSgp4Job_of_loop E fuel inFile w hc ha, Option.map_eq_some'] at h
      obtain ⟨⟨r, w1⟩, h1, h2⟩ := h
      simp only [Prod.mk.injEq] at h2
      obtain ⟨rfl, rfl⟩ := h2
      exact ⟨hc, ha, w1, h1, rfl⟩
    · left
      have ha' : (jobAlloc E inFile w).1 = false := by simpa using ha
      have hc' := hc
      have ha'' := ha'
      unfold jobAlloc at ha''
      unfold jobCount at hc' ha''
      simp only [RunOneSgp4Job, hc', if_false, ha'', if_true, Option.some.injEq,
        Prod.mk.injEq] at h
      obtain ⟨rfl, rfl⟩ := h
      exact ⟨hc, ha', rfl, rfl⟩

/-- On an empty catalogue `RunOneSgp4Job` returns right after `TleGetCount`. -/
theorem RunOneSgp4Job_of_empty {σ : Type} (E : Engine σ) (fuel : Nat) (inFile : String)
    (w : World σ) (h : jobCount E inFile w = 0) :
    RunOneSgp4Job E fuel inFile w =
      some ({ overallSuccess := false, totalSatellites := 0,
              generalError := "No TLEs were found in the input file" },
        ((w.call (Call.Sgp4LoadFileAll inFile) (E.Sgp4LoadFileAll inFile)).2.call
          Call.TleGetCount E.TleGetCount).2) := by
  unfold jobCount at h
  simp only [RunOneSgp4Job, h, if_true]

theorem removesOk_succ_none {σ : Type} (E : Engine σ) (fuel : Nat) (pSatKeys : Nat → Int)
    (todo i : Nat) (w : World σ) (h : runSat E fuel (pSatKeys i) w = none) :
    removesOk E fuel pSatKeys (todo + 1) i w = true := by
  simp only [removesOk, h]

theorem removesOk_succ_failed {σ : Type} (E : Engine σ) (fuel : Nat) (pSatKeys : Nat → Int)
    (todo i : Nat) (w : World σ) (sd : SatelliteData) (w1 : World σ)
    (h : runSat E fuel (pSatKeys i) w = some (sd, false, w1)) :
    removesOk E fuel pSatKeys (todo + 1) i w = removesOk E fuel pSatKeys todo (i + 1) w1 := by
  simp only [removesOk, h]

theorem removesOk_succ_stepped {σ : Type} (E : Engine σ) (fuel : Nat) (pSatKeys : Nat → Int)
    (todo i : Nat) (w : World σ) (sd : SatelliteData) (w1 : World σ)
    (h : runSat E fuel (pSatKeys i) w = some (sd, true, w1)) :
    removesOk E fuel pSatKeys (todo + 1) i w =
      (decide ((E.Sgp4RemoveSat (pSatKeys i) w1.eng).1 = 0) &&
        removesOk E fuel pSatKeys todo (i + 1)
          (w1.call (Call.Sgp4RemoveSat (pSatKeys i)) (E.Sgp4RemoveSat (pSatKeys i))).2) := by
  simp only [removesOk, h]

/-- The first failing remove call.  When no remove call fails for the `a`
satellites from index `i` on and one fails among the first `a + 1`, the loop
over these `a` satellites returns, the satellite of index `i + a` goes through
its stepping loop, its `Sgp4RemoveSat` call returns a non-zero status, and the
loop over any larger number of satellites returns right after that call, with
the results of the satellites up to this one, `overallSuccess` cleared and the
batch message set. -/
theorem tleLoop_remove_failure {σ : Type} (E : Engine σ) (fuel : Nat) (pSatKeys : Nat → Int)
    (a : Nat) :
    ∀ (i : Nat) (results : PropagationResults) (w : World σ),
      removesOk E fuel pSatKeys a i w = true →
      removesOk E fuel pSatKeys (a + 1) i w = false →
      ∃ (resA : PropagationResults) (wA : World σ) (sd : SatelliteData) (w1 : World σ),
        tleLoop E fuel pSatKeys a i results w = some (resA, wA) ∧
        runSat E fuel (pSatKeys (i + a)) wA = some (sd, true, w1) ∧
        (E.Sgp4RemoveSat (pSatKeys (i + a)) w1.eng).1 ≠ 0 ∧
        ∀ b, tleLoop E fuel pSatKeys (a + 1 + b) i results w =
          some ({ resA with
              satellites := resA.satellites ++ [sd],
              overallSuccess := false,
              generalError := "Failed to remove satellite from memory" },
            (w1.call (Call.Sgp4RemoveSat (pSatKeys (i + a)))
              (E.Sgp4RemoveSat (pSatKeys (i + a)))).2) := by
  induction a with
  | zero =>
    intro i results w _ h2
    cases hrun : runSat E fuel (pSatKeys i) w with
    | none => rw [removesOk_succ_none E fuel pSatKeys 0 i w hrun] at h2; simp at h2
    | some r =>
      obtain ⟨sd, b, w1⟩ := r
      cases b with
      | false =>
        rw [removesOk_succ_failed E fuel pSatKeys 0 i w sd w1 hrun] at h2
        simp [removesOk] at h2
      | true =>
        rw [removesOk_succ_stepped E fuel pSatKeys 0 i w sd w1 hrun] at h2
        have hrem : (E.Sgp4RemoveSat (pSatKeys i) w1.eng).1 ≠ 0 := by
          intro h0
          simp [removesOk, h0] at h2
        refine ⟨results, w, sd, w1, rfl, hrun, hrem, fun b => ?_⟩
        rw [show 0 + 1 + b = b + 1 by omega,
          tleLoop_succ_stepped E fuel pSatKeys b i results w sd w1 hrun, if_pos hrem]
        rfl
  | succ a ih =>
    intro i results w h1 h2
    cases hrun : runSat E fuel (pSatKeys i) w with
    | none => rw [removesOk_succ_none E fuel pSatKeys (a + 1) i w hrun] at h2; simp at h2
    | some r =>
      obtain ⟨sd0, b, w0'⟩ := r
      cases b with
      | false =>
        rw [removesOk_succ_failed E fuel pSatKeys _ i w sd0 w0' hrun] at h1 h2
        obtain ⟨resA, wA, sd, w1, e1, e2, e3, e4⟩ :=
          ih (i + 1) { results with satellites := results.satellites ++ [sd0] } w0' h1 h2
        refine ⟨resA, wA, sd, w1, ?_, ?_, ?_, fun b => ?_⟩
        · rw [tleLoop_succ_failed E fuel pSatKeys a i results w sd0 w0' hrun]; exact e1
        · rw [show i + (a + 1) = i + 1 + a by omega]; exact e2
        · rw [show i + (a + 1) = i + 1 + a by omega]; exact e3
        · rw [show a + 1 + 1 + b = (a + 1 + b) + 1 by omega,
            tleLoop_succ_failed E fuel pSatKeys _ i results w sd0 w0' hrun, e4 b,
            show i + (a + 1) = i + 1 + a by omega]
      | true =>
        rw [removesOk_succ_stepped E fuel pSatKeys _ i w sd0 w0' hrun] at h1 h2
        have hrem : (E.Sgp4RemoveSat (pSatKeys i) w0'.eng).1 = 0 := by
          by_contra hne
          simp [hne] at h1
        simp only [hrem, decide_True, Bool.true_and] at h1 h2
        obtain ⟨resA, wA, sd, w1, e1, e2, e3, e4⟩ :=
          ih (i + 1) { results with satellites := results.satellites ++ [sd0] } _ h1 h2
        have hne : ¬ (E.Sgp4RemoveSat (pSatKeys i) w0'.eng).1 ≠ 0 := by simp [hrem]
        refine ⟨resA, wA, sd, w1, ?_, ?_, ?_, fun b => ?_⟩
        · rw [tleLoop_succ_stepped E fuel pSatKeys a i results w sd0 w0' hrun, if_neg hne]
          exact e1
        · rw [show i + (a + 1) = i + 1 + a by omega]; exact e2
        · rw [show i + (a + 1) = i + 1 + a by omega]; exact e3
        · rw [show a + 1 + 1 + b = (a + 1 + b) + 1 by omega,
            tleLoop_succ_stepped E fuel pSatKeys _ i results w sd0 w0' hrun, if_neg hne, e4 b,
            show i + (a + 1) = i + 1 + a by omega]

/-- The step that `CalcStartStopTime` returns is the magnitude of the card,
signed by the order of the resolved start and stop. -/
theorem CalcStartStopTime_step {σ : Type} (E : Engine σ) (epoch : ℚ) (w : World σ) :
    (CalcStartStopTime E epoch w).1.2.2 =
      if (CalcStartStopTime E epoch w).1.1 > (CalcStartStopTime E epoch w).1.2.1 then
        -|(E.Get6P w.eng).1.stepSize|
      else |(E.Get6P w.eng).1.stepSize| := rfl

/-- Every step instant of a window whose step is signed as `CalcStartStopTime`
signs it lies between the start and the stop, whatever the magnitude: a raw
instant that comes within the tolerance of the stop, or passes it, is replaced
by the stop. -/
theorem stepInstant_within (startTime stopTime mag : ℚ) (i : Nat) :
    min startTime stopTime ≤
        stepInstant startTime stopTime (if startTime > stopTime then -|mag| else |mag|) i ∧
      stepInstant startTime stopTime (if startTime > stopTime then -|mag| else |mag|) i ≤
        max startTime stopTime := by
  have htol := tol_pos
  have habs : 0 ≤ |mag| := abs_nonneg mag
  have hi : (0 : ℚ) ≤ (i : ℚ) := Nat.cast_nonneg i
  by_cases hgt : startTime > stopTime
  · simp only [hgt, if_true]
    have hmin : min startTime stopTime = stopTime := min_eq_right hgt.le
    have hmax : max startTime stopTime = startTime := max_eq_left hgt.le
    have hraw : startTime + (i : ℚ) * -|mag| / 1440 ≤ startTime := by
      have : (i : ℚ) * -|mag| / 1440 ≤ 0 :=
        div_nonpos_of_nonpos_of_nonneg (by nlinarith) (by norm_num)
      linarith
    rw [hmin, hmax]
    simp only [stepInstant]
    split_ifs with hc
    · exact ⟨le_rfl, hgt.le⟩
    · refine ⟨?_, hraw⟩
      by_cases hm : -|mag| < 0
      · have h1 : ¬ (startTime + (i : ℚ) * -|mag| / 1440 - EPSI / 86400 < stopTime) :=
          fun h => hc (Or.inr ⟨hm, h⟩)
        linarith [not_lt.mp h1]
      · have h0 : -|mag| ≥ 0 := not_lt.mp hm
        have hz : |mag| = 0 := le_antisymm (by linarith) habs
        have h1 : ¬ (startTime + (i : ℚ) * -|mag| / 1440 + EPSI / 86400 > stopTime) :=
          fun h => hc (Or.inl ⟨h0, h⟩)
        rw [hz] at h1 ⊢
        simp only [neg_zero, mul_zero, zero_div, add_zero] at h1 ⊢
        linarith [not_lt.mp h1]
  · simp only [hgt, if_false]
    have hle : startTime ≤ stopTime := not_lt.mp hgt
    have hmin : min startTime stopTime = startTime := min_eq_left hle
    have hmax : max startTime stopTime = stopTime := max_eq_right hle
    have hraw : startTime ≤ startTime + (i : ℚ) * |mag| / 1440 := by
      have : 0 ≤ (i : ℚ) * |mag| / 1440 := div_nonneg (mul_nonneg hi habs) (by norm_num)
      linarith
    rw [hmin, hmax]
    simp only [stepInstant]
    split_ifs with hc
    · exact ⟨hle, le_rfl⟩
    · refine ⟨hraw, ?_⟩
      have h1 : ¬ (startTime + (i : ℚ) * |mag| / 1440 + EPSI / 86400 > stopTime) :=
        fun h => hc (Or.inl ⟨habs, h⟩)
      linarith [not_lt.mp h1]

/-- A step with a non-zero status leaves the derived elements of its record
unset. -/
theorem propStep_error_fields {σ : Type} (E : Engine σ) (satKey : Int) (t : ℚ) (w : World σ)
    (h : (E.Sgp4PropDs50UTC satKey t w.eng).1.errCode ≠ 0) :
    (propStep E satKey t w).1.meanKep = none ∧ (propStep E satKey t w).1.oscKep = none ∧
    (propStep E satKey t w).1.nodalApPer = none ∧
    (propStep E satKey t w).1.meanMotion = none := by
  simp only [propStep, call_fst, ne_eq, h, not_false_eq_true, if_true]
  exact ⟨trivial, trivial, trivial, trivial⟩

/-- Every object result of a returned batch is the result of `runSat` for some
key, from some world. -/
theorem RunOneSgp4Job_results {σ : Type} (E : Engine σ) (fuel : Nat) (inFile : String)
    (w : World σ) (res : PropagationResults) (w' : World σ)
    (h : RunOneSgp4Job E fuel inFile w = some (res, w')) :
    ∀ sd ∈ res.satellites, ∃ (key : Int) (b : Bool) (wj wj' : World σ),
      runSat E fuel key wj = some (sd, b, wj') := by
  intro sd hsd
  rcases RunOneSgp4Job_cases E fuel inFile w res w' h with
    ⟨-, rfl, -⟩ | ⟨-, -, rfl, -⟩ | ⟨-, -, w1, hloop, -⟩
  · simp at hsd
  · simp at hsd
  · obtain ⟨sds, h1, -, -, h4, -⟩ := tleLoop_spec E fuel _ _ 0 _ _ res w1 hloop
    rw [h1] at hsd
    simp only [List.nil_append] at hsd
    obtain ⟨j, hj, rfl⟩ := List.getElem_of_mem hsd
    obtain ⟨sd', b, wj, wj', e1, e2⟩ := h4 j hj
    rw [List.getElem?_eq_getElem hj, Option.some.injEq] at e1
    rw [e1]
    exact ⟨_, b, wj, wj', e2⟩

/-- The success flag of a result of `runSat` is set exactly when none of its
records is flagged. -/
theorem runSat_flag_iff {σ : Type} (E : Engine σ) (fuel : Nat) (satKey : Int) (w : World σ)
    (sd : SatelliteData) (b : Bool) (w' : World σ)
    (h : runSat E fuel satKey w = some (sd, b, w')) :
    sd.propagationSuccess = true ↔ ∀ r ∈ sd.timeSteps, r.hasError = false := by
  obtain ⟨-, -, -, -, hf, ht⟩ := runSat_trace E fuel satKey w sd b w' h
  cases b with
  | false =>
    obtain ⟨-, hts, hs, -⟩ := hf rfl
    rw [hs, hts]
    simp
  | true =>
    obtain ⟨-, evs, -, -, -, hor⟩ := ht rfl
    rcases hor with ⟨a, c⟩ | ⟨a, last, c, d⟩
    · exact ⟨fun _ => c, fun _ => a⟩
    · rw [a]
      refine ⟨fun hx => absurd hx (by decide), fun hall => ?_⟩
      have := hall last (List.mem_of_getLast?_eq_some c)
      rw [d] at this
      exact absurd this (by decide)

theorem removeCalls_append (l l' : List Call) :
    removeCalls (l ++ l') = removeCalls l ++ removeCalls l' := by
  induction l with
  | nil => rfl
  | cons c cs ih => cases c <;> simp [removeCalls, ih]

/-- A pass of `propStep` makes no `Sgp4RemoveSat` call. -/
theorem propStep_removeCalls {σ : Type} (E : Engine σ) (satKey : Int) (t : ℚ) (w : World σ) :
    removeCalls (propStep E satKey t w).2.2.log = removeCalls w.log := by
  simp only [propStep]
  split_ifs <;> simp only [call_log, removeCalls_append, removeCalls, List.append_nil]

/-- The stepping loop makes no `Sgp4RemoveSat` call. -/
theorem stepLoop_removeCalls {σ : Type} (E : Engine σ) (satKey : Int)
    (startTime stopTime stepSize : ℚ) (fuel : Nat) :
    ∀ (k : Nat) (ds50UTC : ℚ) (satData : SatelliteData) (w : World σ) (sd : SatelliteData)
      (w' : World σ),
      stepLoop E satKey startTime stopTime stepSize fuel k ds50UTC satData w = some (sd, w') →
      removeCalls w'.log = removeCalls w.log := by
  induction fuel with
  | zero => intro k ds50UTC satData w sd w' h; simp [stepLoop] at h
  | succ fuel ih =>
    intro k ds50UTC satData w sd w' h
    rw [stepLoop_succ] at h
    split_ifs at h with hx hc
    · simp only [Option.some.injEq, Prod.mk.injEq] at h
      obtain ⟨-, rfl⟩ := h
      rfl
    · rw [ih _ _ _ _ sd w' h, propStep_removeCalls]
    · simp only [Option.some.injEq, Prod.mk.injEq] at h
      obtain ⟨-, rfl⟩ := h
      exact propStep_removeCalls E satKey _ w

/-- The processing of one satellite up to the end of its stepping loop makes
no `Sgp4RemoveSat` call. -/
theorem runSat_removeCalls {σ : Type} (E : Engine σ) (fuel : Nat) (satKey : Int) (w : World σ)
    (sd : SatelliteData) (b : Bool) (w' : World σ)
    (h : runSat E fuel satKey w = some (sd, b, w')) :
    removeCalls w'.log = removeCalls w.log := by
  by_cases hinit : initCode E satKey w = 0
  · rw [runSat_of_init E fuel satKey w hinit, Option.map_eq_some'] at h
    obtain ⟨⟨sd0, w1⟩, hloop, heq⟩ := h
    simp only [Prod.mk.injEq] at heq
    obtain ⟨-, -, rfl⟩ := heq
    rw [stepLoop_removeCalls E satKey _ _ _ fuel 0 _ _ _ sd0 w1 hloop]
    simp only [satWindow, CalcStartStopTime, satEpoch, initWorld, call_log, removeCalls_append,
      removeCalls, List.append_nil]
  · rw [runSat_of_init_failure E fuel satKey w hinit] at h
    simp only [Option.some.injEq, Prod.mk.injEq] at h
    obtain ⟨-, -, rfl⟩ := h
    simp only [initWorld, call_log, removeCalls_append, removeCalls, List.append_nil]

/-- The log only grows during `runSat`. -/
theorem runSat_prefix {σ : Type} (E : Engine σ) (fuel : Nat) (satKey : Int) (w : World σ)
    (sd : SatelliteData) (b : Bool) (w' : World σ)
    (h : runSat E fuel satKey w = some (sd, b, w')) :
    w.log <+: w'.log := by
  obtain ⟨-, -, -, -, hf, ht⟩ := runSat_trace E fuel satKey w sd b w' h
  cases b with
  | false =>
    obtain ⟨-, -, -, hlog⟩ := hf rfl
    rw [hlog]
    exact List.prefix_append _ _
  | true =>
    obtain ⟨-, evs, hlog, -⟩ := ht rfl
    rw [hlog]
    exact List.prefix_append _ _

/-- The remove calls of the loop over the satellites, when it returns.  The
loop appends one result per processed satellite; `runs` pairs each result with
the flag that tells whether the satellite was initialised.  The `Sgp4RemoveSat`
calls of the loop are exactly the keys of the initialised satellites, in order,
and the call for a satellite comes right after the log of its `runSat`. -/
theorem tleLoop_removes {σ : Type} (E : Engine σ) (fuel : Nat) (pSatKeys : Nat → Int)
    (todo : Nat) :
    ∀ (i : Nat) (results : PropagationResults) (w : World σ) (res : PropagationResults)
      (w' : World σ),
      tleLoop E fuel pSatKeys todo i results w = some (res, w') →
      w.log <+: w'.log ∧
      ∃ runs : List (SatelliteData × Bool),
        res.satellites = results.satellites ++ runs.map Prod.fst ∧
        removeCalls w'.log = removeCalls w.log ++
          (runs.filter fun p => p.2).map (fun p => p.1.satKey) ∧
        ∀ p ∈ runs, ∃ wj wj' : World σ,
          runSat E fuel p.1.satKey wj = some (p.1, p.2, wj') ∧
          (p.2 = true → (wj'.log ++ [Call.Sgp4RemoveSat p.1.satKey]) <+: w'.log) := by
  induction todo with
  | zero =>
    intro i results w res w' h
    simp only [tleLoop, Option.some.injEq, Prod.mk.injEq] at h
    obtain ⟨rfl, rfl⟩ := h
    exact ⟨List.prefix_refl _, [], by simp, by simp, by simp⟩
  | succ todo ih =>
    intro i results w res w' h
    cases hrun : runSat E fuel (pSatKeys i) w with
    | none => rw [tleLoop_succ_none E fuel pSatKeys todo i results w hrun] at h; simp at h
    | some r =>
      obtain ⟨sd, b, w1⟩ := r
      have hkey : sd.satKey = pSatKeys i := (runSat_trace E fuel _ w sd b w1 hrun).1
      have hpre := runSat_prefix E fuel _ w sd b w1 hrun
      have hrc := runSat_removeCalls E fuel _ w sd b w1 hrun
      rw [← hkey] at hrun
      cases b with
      | false =>
        rw [tleLoop_succ_failed E fuel pSatKeys todo i results w sd w1 (hkey ▸ hrun)] at h
        obtain ⟨hp, runs, h1, h2, h3⟩ := ih (i + 1) _ w1 res w' h
        refine ⟨hpre.trans hp, (sd, false) :: runs, by rw [h1]; simp, ?_, ?_⟩
        · rw [h2, hrc]
          simp
        · intro p hp'
          rcases List.mem_cons.mp hp' with rfl | hp'
          · exact ⟨w, w1, hrun, fun hb => (Bool.false_ne_true hb).elim⟩
          · exact h3 p hp'
      | true =>
        rw [tleLoop_succ_stepped E fuel pSatKeys todo i results w sd w1 (hkey ▸ hrun)] at h
        have hwr : (w1.call (Call.Sgp4RemoveSat (pSatKeys i))
            (E.Sgp4RemoveSat (pSatKeys i))).2.log = w1.log ++ [Call.Sgp4RemoveSat sd.satKey] := by
          rw [call_log, hkey]
        have hrw : removeCalls (w1.call (Call.Sgp4RemoveSat (pSatKeys i))
            (E.Sgp4RemoveSat (pSatKeys i))).2.log = removeCalls w.log ++ [sd.satKey] := by
          rw [hwr, removeCalls_append, hrc]
          rfl
        by_cases hrem : (E.Sgp4RemoveSat (pSatKeys i) w1.eng).1 = 0
        · simp only [hrem, ne_eq, not_true_eq_false, if_false] at h
          obtain ⟨hp, runs, h1, h2, h3⟩ := ih (i + 1) _ _ res w' h
          rw [hwr] at hp
          refine ⟨hpre.trans ((List.prefix_append _ _).trans hp), (sd, true) :: runs,
            by rw [h1]; simp, ?_, ?_⟩
          · rw [h2, hrw]
            simp
          · intro p hp'
            rcases List.mem_cons.mp hp' with rfl | hp'
            · exact ⟨w, w1, hrun, fun _ => hp⟩
            · exact h3 p hp'
        · simp only [ne_eq, hrem, not_false_eq_true, if_true, Option.some.injEq,
            Prod.mk.injEq] at h
          obtain ⟨rfl, rfl⟩ := h
          refine ⟨hpre.trans (by rw [hwr]; exact List.prefix_append _ _), [(sd, true)],
            rfl, ?_, ?_⟩
          · rw [hrw]
            rfl
          · intro p hp'
            rw [List.mem_singleton] at hp'
            subst hp'
            exact ⟨w, w1, hrun, fun _ => by rw [hwr]⟩

/-- The calls of the cleanup, in order. -/
theorem jobCleanup_calls {σ : Type} (E : Engine σ) (w : World σ) :
    (jobCleanup E w).log =
      w.log ++ [Call.free, Call.TleRemoveAllSats, Call.Sgp4RemoveAllSats] := by
  simp [jobCleanup, call_log]

/-- When a remove call fails among the first `m` satellites there is a first
satellite whose remove call fails. -/
theorem removesOk_least {σ : Type} (E : Engine σ) (fuel : Nat) (pSatKeys : Nat → Int)
    (i : Nat) (w : World σ) (m : Nat) (h : removesOk E fuel pSatKeys m i w = false) :
    ∃ a, a < m ∧ removesOk E fuel pSatKeys a i w = true ∧
      removesOk E fuel pSatKeys (a + 1) i w = false := by
  induction m with
  | zero => simp [removesOk] at h
  | succ m ih =>
    by_cases hm : removesOk E fuel pSatKeys m i w = true
    · exact ⟨m, Nat.lt_succ_self m, hm, h⟩
    · obtain ⟨a, ha, h1, h2⟩ := ih (by simpa using hm)
      exact ⟨a, Nat.lt_succ_of_lt ha, h1, h2⟩

/-- The number of results after the first failing remove call: when it is the
call of the satellite of index `i + a`, the loop returns the results of the
satellites `i .. i + a` and leaves the satellite count alone. -/
theorem tleLoop_count_of_failure {σ : Type} (E : Engine σ) (fuel : Nat)
    (pSatKeys : Nat → Int) (a b i : Nat) (results : PropagationResults) (w : World σ)
    (res : PropagationResults) (w' : World σ)
    (h1 : removesOk E fuel pSatKeys a i w = true)
    (h2 : removesOk E fuel pSatKeys (a + 1) i w = false)
    (h : tleLoop E fuel pSatKeys (a + 1 + b) i results w = some (res, w')) :
    res.satellites.length = results.satellites.length + (a + 1) ∧
    res.totalSatellites = results.totalSatellites := by
  obtain ⟨resA, wA, sd, w1, e1, -, -, e4⟩ :=
    tleLoop_remove_failure E fuel pSatKeys a i results w h1 h2
  rw [e4 b, Option.some.injEq, Prod.mk.injEq] at h
  obtain ⟨rfl, -⟩ := h
  obtain ⟨sds, s1, s2, -, -, hor⟩ := tleLoop_spec E fuel pSatKeys a i results w resA wA e1
  rcases hor with ⟨-, hlen, -, -⟩ | ⟨hno, -, -⟩
  · refine ⟨?_, s2⟩
    show (resA.satellites ++ [sd]).length = _
    rw [s1, List.length_append, List.length_append, hlen]
    rfl
  · rw [h1] at hno
    exact (Bool.false_ne_true hno.symm).elim

/-- With, for every satellite that the loop over the satellites reaches, a
resolved step of 0 and a resolved start that is not before the resolved stop,
and no failing remove call in the run, the loop processes every remaining
satellite: it appends one result per satellite, leaves the batch flags alone
and makes no propagate call. -/
theorem tleLoop_zero_step {σ : Type} (E : Engine σ) (fuel : Nat) (pSatKeys : Nat → Int)
    (hfuel : 0 < fuel) (todo : Nat) :
    ∀ (i : Nat) (results : PropagationResults) (w : World σ),
      (∀ (j : Nat) (wj : World σ), j < todo →
        tleWorld E fuel pSatKeys i w j = some wj → initCode E (pSatKeys (i + j)) wj = 0 →
        (E.Get6P (satEpoch E (pSatKeys (i + j)) wj).2.eng).1.stepSize = 0 ∧
        (satWindow E (pSatKeys (i + j)) wj).1.2.1 ≤ (satWindow E (pSatKeys (i + j)) wj).1.1) →
      removesOk E fuel pSatKeys todo i w = true →
      ∃ (res : PropagationResults) (w' : World σ),
        tleLoop E fuel pSatKeys todo i results w = some (res, w') ∧
        res.overallSuccess = results.overallSuccess ∧
        res.generalError = results.generalError ∧
        res.totalSatellites = results.totalSatellites ∧
        res.satellites.length = results.satellites.length + todo ∧
        propTimes w'.log = propTimes w.log := by
  induction todo with
  | zero => exact fun i results w _ _ => ⟨results, w, rfl, rfl, rfl, rfl, rfl, rfl⟩
  | succ todo ih =>
    intro i results w hwin hrem
    obtain ⟨sd, b, w1, hrun, hlog⟩ := runSat_zero_step E fuel (pSatKeys i) w
      (hwin 0 w (Nat.succ_pos todo) rfl) hfuel
    cases b with
    | false =>
      rw [removesOk_succ_failed E fuel pSatKeys todo i w sd w1 hrun] at hrem
      obtain ⟨res, w', h1, h2, h3, h4, h5, h6⟩ :=
        ih (i + 1) { results with satellites := results.satellites ++ [sd] } w1
          (fun j wj hj hw => by
            have := hwin (j + 1) wj (by omega) (by simp only [tleWorld, hrun]; exact hw)
            rwa [show i + (j + 1) = i + 1 + j by omega] at this)
          hrem
      refine ⟨res, w', ?_, h2, h3, h4, ?_, h6.trans hlog⟩
      · simp only [tleLoop, hrun]
        exact h1
      · rw [h5]
        simp only [List.length_append, List.length_singleton]
        omega
    | true =>
      rw [removesOk_succ_stepped E fuel pSatKeys todo i w sd w1 hrun] at hrem
      have hrem0 : (E.Sgp4RemoveSat (pSatKeys i) w1.eng).1 = 0 := by
        by_contra hne
        simp [hne] at hrem
      simp only [hrem0, decide_True, Bool.true_and] at hrem
      obtain ⟨res, w', h1, h2, h3, h4, h5, h6⟩ :=
        ih (i + 1) { results with satellites := results.satellites ++ [sd] }
          (w1.call (Call.Sgp4RemoveSat (pSatKeys i)) (E.Sgp4RemoveSat (pSatKeys i))).2
          (fun j wj hj hw => by
            have := hwin (j + 1) wj (by omega)
              (by simp only [tleWorld, hrun, hrem0, ne_eq, not_true_eq_false, if_false]; exact hw)
            rwa [show i + (j + 1) = i + 1 + j by omega] at this)
          hrem
      refine ⟨res, w', ?_, h2, h3, h4, ?_, ?_⟩
      · simp only [tleLoop, hrun, call_fst, hrem0, ne_eq, not_true_eq_false, if_false]
        exact h1
      · rw [h5]
        simp only [List.length_append, List.length_singleton]
        omega
      · rw [h6, call_log, propTimes_append, hlog]
        simp [propTimes]

/-- The character that stands for a byte has the value of the byte. -/
theorem byte_char (b : Fin 256) : (Char.ofNat b.val).toNat = b.val := by
  have h : b.val.isValidChar := Or.inl (lt_trans b.isLt (by decide))
  simp only [Char.ofNat, h, dif_pos, Char.toNat, Char.ofNatAux]
  have : b.val < UInt32.size := lt_trans b.isLt (by decide)
  simp [UInt32.toNat, Nat.mod_eq_of_lt this]

/-- The loop over the satellites, when it returns, along its own run: result
`j` of the results it appends is the result of `runSat` for the key of
satellite `i + j`, started in the world that the processing of the satellites
before it has left. -/
theorem tleLoop_world {σ : Type} (E : Engine σ) (fuel : Nat) (pSatKeys : Nat → Int)
    (todo : Nat) :
    ∀ (i : Nat) (results : PropagationResults) (w : World σ) (res : PropagationResults)
      (w' : World σ),
      tleLoop E fuel pSatKeys todo i results w = some (res, w') →
      ∃ sds : List SatelliteData,
        res.satellites = results.satellites ++ sds ∧
        ∀ (j : Nat) (sd : SatelliteData), sds[j]? = some sd →
          ∃ (b : Bool) (wj wj' : World σ),
            tleWorld E fuel pSatKeys i w j = some wj ∧
            runSat E fuel (pSatKeys (i + j)) wj = some (sd, b, wj') := by
  induction todo with
  | zero =>
    intro i results w res w' h
    simp only [tleLoop, Option.some.injEq, Prod.mk.injEq] at h
    obtain ⟨rfl, rfl⟩ := h
    exact ⟨[], by simp, by simp⟩
  | succ todo ih =>
    intro i results w res w' h
    cases hrun : runSat E fuel (pSatKeys i) w with
    | none => rw [tleLoop_succ_none E fuel pSatKeys todo i results w hrun] at h; simp at h
    | some r =>
      obtain ⟨sd, b, w1⟩ := r
      have hstep : ∀ (sds : List SatelliteData) (w2 : World σ),
          (∀ k, tleWorld E fuel pSatKeys i w (k + 1) = tleWorld E fuel pSatKeys (i + 1) w2 k) →
          (∀ (j : Nat) (sd' : SatelliteData), sds[j]? = some sd' →
            ∃ (b' : Bool) (wj wj' : World σ),
              tleWorld E fuel pSatKeys (i + 1) w2 j = some wj ∧
              runSat E fuel (pSatKeys (i + 1 + j)) wj = some (sd', b', wj')) →
          ∀ (j : Nat) (sd' : SatelliteData), (sd :: sds)[j]? = some sd' →
            ∃ (b' : Bool) (wj wj' : World σ),
              tleWorld E fuel pSatKeys i w j = some wj ∧
              runSat E fuel (pSatKeys (i + j)) wj = some (sd', b', wj') := by
        intro sds w2 hw hall j sd' hj
        cases j with
        | zero =>
          simp only [List.getElem?_cons_zero, Option.some.injEq] at hj
          subst hj
          exact ⟨b, w, w1, rfl, hrun⟩
        | succ j =>
          obtain ⟨b', wj, wj', h1, h2⟩ := hall j sd' (by simpa using hj)
          refine ⟨b', wj, wj', by rw [hw j]; exact h1, ?_⟩
          rw [show i + (j + 1) = i + 1 + j by omega]
          exact h2
      cases b with
      | false =>
        rw [tleLoop_succ_failed E fuel pSatKeys todo i results w sd w1 hrun] at h
        obtain ⟨sds, h1, h2⟩ := ih (i + 1) _ w1 res w' h
        refine ⟨sd :: sds, by rw [h1]; simp, hstep sds w1 (fun k => ?_) h2⟩
        simp only [tleWorld, hrun]
      | true =>
        rw [tleLoop_succ_stepped E fuel pSatKeys todo i results w sd w1 hrun] at h
        by_cases hrem : (E.Sgp4RemoveSat (pSatKeys i) w1.eng).1 = 0
        · simp only [hrem, ne_eq, not_true_eq_false, if_false] at h
          obtain ⟨sds, h1, h2⟩ := ih (i + 1) _ _ res w' h
          refine ⟨sd :: sds, by rw [h1]; simp, hstep sds _ (fun k => ?_) h2⟩
          simp only [tleWorld, hrun, hrem, ne_eq, not_true_eq_false, if_false]
        · simp only [ne_eq, hrem, not_false_eq_true, if_true, Option.some.injEq,
            Prod.mk.injEq] at h
          obtain ⟨rfl, rfl⟩ := h
          refine ⟨[sd], rfl, ?_⟩
          intro j sd' hj
          cases j with
          | zero =>
            simp only [List.getElem?_cons_zero, Option.some.injEq] at hj
            subst hj
            exact ⟨true, w, w1, rfl, by rw [Nat.add_zero]; exact hrun⟩
          | succ j => simp at hj

/-- One pass of the stepping loop depends on the engine only through its
answers for the key of the satellite, and on the world only through the engine
state. -/
theorem propStep_congr {σ : Type} (E E1 : Engine σ) (satKey : Int) (t : ℚ) (w v : World σ)
    (h : AgreeOn E E1 satKey) (hw : w.eng = v.eng) :
    (propStep E satKey t w).1 = (propStep E1 satKey t v).1 ∧
    (propStep E satKey t w).2.1 = (propStep E1 satKey t v).2.1 ∧
    (propStep E satKey t w).2.2.eng = (propStep E1 satKey t v).2.2.eng := by
  simp only [propStep, World.call, h.prop, h.errMsg, h.propOut, h.aton, h.msgLen, h.oscKep,
    h.meanKep, h.nodalApPer, h.str, hw]
  split_ifs <;> exact ⟨rfl, rfl, rfl⟩

/-- The stepping loop depends on the engine only through its answers for the key
of the satellite, and on the world only through the engine state. -/
theorem stepLoop_congr {σ : Type} (E E1 : Engine σ) (satKey : Int)
    (startTime stopTime stepSize : ℚ) (h : AgreeOn E E1 satKey) (fuel : Nat) :
    ∀ (step : Nat) (ds50UTC : ℚ) (satData : SatelliteData) (w v : World σ), w.eng = v.eng →
      (stepLoop E satKey startTime stopTime stepSize fuel step ds50UTC satData w).map
          (fun q => (q.1, q.2.eng)) =
        (stepLoop E1 satKey startTime stopTime stepSize fuel step ds50UTC satData v).map
          (fun q => (q.1, q.2.eng)) := by
  induction fuel with
  | zero => intro step ds50UTC satData w v _; rfl
  | succ fuel ih =>
    intro step ds50UTC satData w v hw
    obtain ⟨h1, h2, h3⟩ :=
      propStep_congr E E1 satKey (stepInstant startTime stopTime stepSize step) w v h hw
    rw [stepLoop_succ, stepLoop_succ, ← h1, ← h2]
    by_cases hx : loopExit stopTime stepSize ds50UTC = true
    · simp only [hx, if_true, Option.map_some', hw]
    · rw [if_neg hx, if_neg hx]
      by_cases hp : (propStep E satKey (stepInstant startTime stopTime stepSize step) w).2.1 = true
      · rw [if_pos hp, if_pos hp]
        exact ih _ _ _ _ _ h3
      · rw [if_neg hp, if_neg hp]
        simp only [Option.map_some', h3]

/-- The processing of one satellite depends on the engine only through its
answers for the key of the satellite, and on the world only through the engine
state: not on the log, and so not on what happened to the satellites before. -/
theorem runSat_congr {σ : Type} (E E1 : Engine σ) (fuel : Nat) (satKey : Int) (w v : World σ)
    (h : AgreeOn E E1 satKey) (hw : w.eng = v.eng) :
    satResult (runSat E fuel satKey w) = satResult (runSat E1 fuel satKey v) := by
  have hcode : initCode E satKey w = initCode E1 satKey v := by
    simp only [initCode, World.call, h.lines, h.initSat, hw]
  have hinit : (initWorld E satKey w).eng = (initWorld E1 satKey v).eng := by
    simp only [initWorld, World.call, h.lines, h.initSat, hw]
  have hhead : satHeader E satKey w = satHeader E1 satKey v := by
    simp only [satHeader, h.lines, h.cardLen, hw]
  by_cases hc : initCode E satKey w = 0
  · have hwin : (satWindow E satKey w).1 = (satWindow E1 satKey v).1 ∧
        (satWindow E satKey w).2.eng = (satWindow E1 satKey v).2.eng := by
      simp only [satWindow, satEpoch, CalcStartStopTime, World.call, h.field, h.dtg, h.card,
        h.strLen, h.epochField, hinit]
      exact ⟨trivial, trivial⟩
    rw [runSat_of_init E fuel satKey w hc, runSat_of_init E1 fuel satKey v (hcode ▸ hc),
      hhead, hwin.1]
    have := stepLoop_congr E E1 satKey (satWindow E1 satKey v).1.1 (satWindow E1 satKey v).1.2.1
      (satWindow E1 satKey v).1.2.2 h fuel 0 (satWindow E1 satKey v).1.1
      (satHeader E1 satKey v) _ _ hwin.2
    unfold satResult
    cases hl : stepLoop E satKey (satWindow E1 satKey v).1.1 (satWindow E1 satKey v).1.2.1
        (satWindow E1 satKey v).1.2.2 fuel 0 (satWindow E1 satKey v).1.1
        (satHeader E1 satKey v) (satWindow E satKey w).2 <;>
      cases hr : stepLoop E1 satKey (satWindow E1 satKey v).1.1 (satWindow E1 satKey v).1.2.1
        (satWindow E1 satKey v).1.2.2 fuel 0 (satWindow E1 satKey v).1.1
        (satHeader E1 satKey v) (satWindow E1 satKey v).2 <;>
      simp_all
  · rw [runSat_of_init_failure E fuel satKey w hc,
      runSat_of_init_failure E1 fuel satKey v (hcode ▸ hc), hhead]
    simp only [satResult, Option.map_some', World.call, h.errMsg, h.msgLen, hinit]

/-- The loop over the satellites returns when each of its stepping loops returns
and none of its remove calls fails, both followed along its own run. -/
theorem tleLoop_isSome {σ : Type} (E : Engine σ) (fuel : Nat) (pSatKeys : Nat → Int)
    (todo : Nat) :
    ∀ (i : Nat) (results : PropagationResults) (w : World σ),
      removesOk E fuel pSatKeys todo i w = true →
      (∀ (j : Nat) (wj : World σ), j < todo → tleWorld E fuel pSatKeys i w j = some wj →
        (runSat E fuel (pSatKeys (i + j)) wj).isSome = true) →
      ∃ (res : PropagationResults) (w' : World σ),
        tleLoop E fuel pSatKeys todo i results w = some (res, w') := by
  induction todo with
  | zero => intro i results w _ _; exact ⟨results, w, rfl⟩
  | succ todo ih =>
    intro i results w hrem hret
    have h0 := hret 0 w (Nat.succ_pos todo) rfl
    rw [Nat.add_zero] at h0
    obtain ⟨⟨sd, b, w1⟩, hrun⟩ := Option.isSome_iff_exists.mp h0
    cases b with
    | false =>
      rw [tleLoop_succ_failed E fuel pSatKeys todo i results w sd w1 hrun]
      rw [removesOk_succ_failed E fuel pSatKeys todo i w sd w1 hrun] at hrem
      refine ih (i + 1) _ w1 hrem fun j wj hj hw => ?_
      have := hret (j + 1) wj (by omega) (by simp only [tleWorld, hrun]; exact hw)
      rwa [show i + (j + 1) = i + 1 + j by omega] at this
    | true =>
      rw [tleLoop_succ_stepped E fuel pSatKeys todo i results w sd w1 hrun]
      rw [removesOk_succ_stepped E fuel pSatKeys todo i w sd w1 hrun] at hrem
      simp only [Bool.and_eq_true, decide_eq_true_eq] at hrem
      simp only [hrem.1, ne_eq, not_true_eq_false, if_false]
      refine ih (i + 1) _ _ hrem.2 fun j wj hj hw => ?_
      have := hret (j + 1) wj (by omega)
        (by simp only [tleWorld, hrun, hrem.1, ne_eq, not_true_eq_false, if_false]; exact hw)
      rwa [show i + (j + 1) = i + 1 + j by omega] at this

/-! ### Machine rounding -/

theorem log2F_spec (f : Nat) : ∀ n, n ≤ f → 0 < n →
    2 ^ log2F f n ≤ n ∧ n < 2 ^ (log2F f n + 1) := by
  induction f with
  | zero => intro n h1 h2; omega
  | succ f ih =>
    intro n h1 h2
    by_cases hn : 2 ≤ n
    · have h3 := ih (n / 2) (by omega) (by omega)
      simp only [log2F, hn, if_true]
      constructor
      · calc 2 ^ (log2F f (n / 2) + 1) = 2 ^ log2F f (n / 2) * 2 := by ring
          _ ≤ n / 2 * 2 := Nat.mul_le_mul_right 2 h3.1
          _ ≤ n := Nat.div_mul_le_self n 2
      · have : n / 2 + 1 ≤ 2 ^ (log2F f (n / 2) + 1) := h3.2
        calc n < (n / 2 + 1) * 2 := by omega
          _ ≤ 2 ^ (log2F f (n / 2) + 1) * 2 := Nat.mul_le_mul_right 2 this
          _ = 2 ^ (log2F f (n / 2) + 1 + 1) := by ring
    · simp only [log2F, hn, if_false]
      constructor <;> omega

theorem ratio_bounds (n d ln ld : Nat) (hd : 0 < d)
    (n1 : 2 ^ ln ≤ n) (n2 : n < 2 ^ (ln + 1)) (d1 : 2 ^ ld ≤ d) (d2 : d < 2 ^ (ld + 1)) :
    (2 : ℚ) ^ ((ln : ℤ) - (ld : ℤ) - 1) ≤ (n : ℚ) / (d : ℚ) ∧
    (n : ℚ) / (d : ℚ) < (2 : ℚ) ^ ((ln : ℤ) - (ld : ℤ) + 1) := by
  have hd' : (0 : ℚ) < d := by exact_mod_cast hd
  have h2 : (0 : ℚ) < 2 := by norm_num
  have n1' : (2 : ℚ) ^ (ln : ℤ) ≤ (n : ℚ) := by
    rw [zpow_natCast]; exact_mod_cast n1
  have n2' : (n : ℚ) < (2 : ℚ) ^ ((ln : ℤ) + 1) := by
    rw [show ((ln : ℤ) + 1) = ((ln + 1 : ℕ) : ℤ) by push_cast; ring, zpow_natCast]
    exact_mod_cast n2
  have d1' : (2 : ℚ) ^ (ld : ℤ) ≤ (d : ℚ) := by
    rw [zpow_natCast]; exact_mod_cast d1
  have d2' : (d : ℚ) < (2 : ℚ) ^ ((ld : ℤ) + 1) := by
    rw [show ((ld : ℤ) + 1) = ((ld + 1 : ℕ) : ℤ) by push_cast; ring, zpow_natCast]
    exact_mod_cast d2
  have hD := zpow_pos h2 (ld : ℤ)
  have hn : (0 : ℚ) ≤ n := Nat.cast_nonneg n
  constructor
  · rw [show (ln : ℤ) - (ld : ℤ) - 1 = (ln : ℤ) - ((ld : ℤ) + 1) by ring,
      zpow_sub₀ h2.ne', div_le_div_iff₀ (zpow_pos h2 _) hd']
    calc (2 : ℚ) ^ (ln : ℤ) * d ≤ (n : ℚ) * d := mul_le_mul_of_nonneg_right n1' hd'.le
      _ ≤ (n : ℚ) * 2 ^ ((ld : ℤ) + 1) := mul_le_mul_of_nonneg_left d2'.le hn
  · rw [show (ln : ℤ) - (ld : ℤ) + 1 = ((ln : ℤ) + 1) - (ld : ℤ) by ring,
      zpow_sub₀ h2.ne', div_lt_div_iff₀ hd' hD]
    calc (n : ℚ) * 2 ^ (ld : ℤ) ≤ (n : ℚ) * d := mul_le_mul_of_nonneg_left d1' hn
      _ < 2 ^ ((ln : ℤ) + 1) * d := mul_lt_mul_of_pos_right n2' hd'

theorem binExp_spec (a : ℚ) (ha : 0 < a) :
    (2 : ℚ) ^ binExp a ≤ a ∧ a < (2 : ℚ) ^ (binExp a + 1) := by
  have hnum : 0 < a.num := Rat.num_pos.mpr ha
  have hn0 : 0 < a.num.natAbs := Int.natAbs_pos.mpr hnum.ne'
  obtain ⟨n1, n2⟩ := log2F_spec _ a.num.natAbs le_rfl hn0
  obtain ⟨d1, d2⟩ := log2F_spec _ a.den le_rfl a.den_pos
  have ha' : (a.num.natAbs : ℚ) / (a.den : ℚ) = a := by
    have h2 : (a.num.natAbs : ℚ) = (a.num : ℚ) := by
      rw [← Int.cast_natCast, Int.natAbs_of_nonneg hnum.le]
    rw [h2]
    exact Rat.num_div_den a
  obtain ⟨hlow, hup⟩ := ratio_bounds _ _ _ _ a.den_pos n1 n2 d1 d2
  rw [ha'] at hlow hup
  unfold binExp
  rw [abs_of_pos ha]
  split_ifs with hc
  · exact ⟨hc, hup⟩
  · refine ⟨hlow, ?_⟩
    rw [sub_add_cancel]
    exact not_le.mp hc

theorem binExp_unique (a : ℚ) (e : Int) (h1 : (2 : ℚ) ^ e ≤ a) (h2 : a < (2 : ℚ) ^ (e + 1)) :
    binExp a = e := by
  have ha : 0 < a := lt_of_lt_of_le (zpow_pos (by norm_num) e) h1
  obtain ⟨s1, s2⟩ := binExp_spec a ha
  have l1 : e < binExp a + 1 :=
    (zpow_lt_zpow_iff_right₀ (by norm_num : (1 : ℚ) < 2)).mp (lt_of_le_of_lt h1 s2)
  have l2 : binExp a < e + 1 :=
    (zpow_lt_zpow_iff_right₀ (by norm_num : (1 : ℚ) < 2)).mp (lt_of_le_of_lt s1 h2)
  omega

theorem rne_floor_le (q : ℚ) : ⌊q⌋ ≤ rne q := by
  unfold rne
  split_ifs <;> omega

theorem rne_le_floor_succ (q : ℚ) : rne q ≤ ⌊q⌋ + 1 := by
  unfold rne
  split_ifs <;> omega

theorem rne_int (m : Int) : rne (m : ℚ) = m := by
  unfold rne
  simp

theorem rne_mono {p q : ℚ} (h : p ≤ q) : rne p ≤ rne q := by
  have hf : ⌊p⌋ ≤ ⌊q⌋ := Int.floor_mono h
  rcases lt_or_eq_of_le hf with hlt | heq
  · calc rne p ≤ ⌊p⌋ + 1 := rne_le_floor_succ p
      _ ≤ ⌊q⌋ := hlt
      _ ≤ rne q := rne_floor_le q
  · unfold rne
    rw [heq]
    have hpq : p - (⌊q⌋ : ℚ) ≤ q - (⌊q⌋ : ℚ) := by linarith
    split_ifs <;> first | omega | (exfalso; linarith)

theorem flAbs_zero : flAbs 0 = 0 := by
  simp [flAbs, rne]

theorem flAbs_nonneg (a : ℚ) (ha : 0 ≤ a) : 0 ≤ flAbs a := by
  unfold flAbs
  have hu : (0 : ℚ) < 2 ^ (binExp a - 52) := zpow_pos (by norm_num) _
  have hq : (0 : ℚ) ≤ a / 2 ^ (binExp a - 52) := div_nonneg ha hu.le
  have h0 : (0 : ℤ) ≤ rne (a / 2 ^ (binExp a - 52)) := by
    have := rne_mono hq
    rwa [show ((0 : ℚ)) = ((0 : ℤ) : ℚ) by norm_num, rne_int] at this
  exact mul_nonneg (by exact_mod_cast h0) hu.le

/-- A grid point of the binade of exponent `e` is a `double`. -/
theorem flAbs_grid (m e : ℤ) (h1 : (2 : ℤ) ^ 52 ≤ m) (h2 : m < (2 : ℤ) ^ 53) :
    flAbs ((m : ℚ) * 2 ^ (e - 52)) = (m : ℚ) * 2 ^ (e - 52) := by
  have hu : (0 : ℚ) < 2 ^ (e - 52) := zpow_pos (by norm_num) _
  have h1' : (2 : ℚ) ^ (52 : ℤ) ≤ (m : ℚ) := by
    rw [show (52 : ℤ) = ((52 : ℕ) : ℤ) by norm_num, zpow_natCast]
    exact_mod_cast h1
  have h2' : (m : ℚ) < (2 : ℚ) ^ (53 : ℤ) := by
    rw [show (53 : ℤ) = ((53 : ℕ) : ℤ) by norm_num, zpow_natCast]
    exact_mod_cast h2
  have he : binExp ((m : ℚ) * 2 ^ (e - 52)) = e := by
    apply binExp_unique
    · calc (2 : ℚ) ^ e = 2 ^ (52 : ℤ) * 2 ^ (e - 52) := by
            rw [← zpow_add₀ (by norm_num : (2 : ℚ) ≠ 0)]; congr 1; ring
        _ ≤ (m : ℚ) * 2 ^ (e - 52) := mul_le_mul_of_nonneg_right h1' hu.le
    · calc (m : ℚ) * 2 ^ (e - 52) < 2 ^ (53 : ℤ) * 2 ^ (e - 52) :=
            mul_lt_mul_of_pos_right h2' hu
        _ = (2 : ℚ) ^ (e + 1) := by
            rw [← zpow_add₀ (by norm_num : (2 : ℚ) ≠ 0)]; congr 1; ring
  unfold flAbs
  rw [he, mul_div_assoc, div_self hu.ne', mul_one, rne_int]

/-- The double nearest to a positive real lies in the closed binade of the
real. -/
theorem flAbs_bounds (a : ℚ) (ha : 0 < a) :
    ∃ m : ℤ, (2 : ℤ) ^ 52 ≤ m ∧ m ≤ (2 : ℤ) ^ 53 ∧
      flAbs a = (m : ℚ) * 2 ^ (binExp a - 52) := by
  obtain ⟨s1, s2⟩ := binExp_spec a ha
  have hu : (0 : ℚ) < 2 ^ (binExp a - 52) := zpow_pos (by norm_num) _
  have q1 : (((2 : ℤ) ^ 52 : ℤ) : ℚ) ≤ a / 2 ^ (binExp a - 52) := by
    rw [le_div_iff₀ hu]
    calc (((2 : ℤ) ^ 52 : ℤ) : ℚ) * 2 ^ (binExp a - 52)
        = 2 ^ (52 : ℤ) * 2 ^ (binExp a - 52) := by norm_num
      _ = 2 ^ binExp a := by
          rw [← zpow_add₀ (by norm_num : (2 : ℚ) ≠ 0)]; congr 1; ring
      _ ≤ a := s1
  have q2 : a / 2 ^ (binExp a - 52) ≤ (((2 : ℤ) ^ 53 : ℤ) : ℚ) := by
    rw [div_le_iff₀ hu]
    calc a ≤ 2 ^ (binExp a + 1) := s2.le
      _ = 2 ^ (53 : ℤ) * 2 ^ (binExp a - 52) := by
          rw [← zpow_add₀ (by norm_num : (2 : ℚ) ≠ 0)]; congr 1; ring
      _ = (((2 : ℤ) ^ 53 : ℤ) : ℚ) * 2 ^ (binExp a - 52) := by norm_num
  refine ⟨rne (a / 2 ^ (binExp a - 52)), ?_, ?_, rfl⟩
  · have := rne_mono q1
    rwa [rne_int] at this
  · have := rne_mono q2
    rwa [rne_int] at this

theorem flAbs_pos_bounds (a : ℚ) (ha : 0 < a) :
    (2 : ℚ) ^ binExp a ≤ flAbs a ∧ flAbs a ≤ (2 : ℚ) ^ (binExp a + 1) := by
  obtain ⟨m, h1, h2, h3⟩ := flAbs_bounds a ha
  have hu : (0 : ℚ) < 2 ^ (binExp a - 52) := zpow_pos (by norm_num) _
  have h1' : (2 : ℚ) ^ (52 : ℤ) ≤ (m : ℚ) := by
    rw [show (52 : ℤ) = ((52 : ℕ) : ℤ) by norm_num, zpow_natCast]
    exact_mod_cast h1
  have h2' : (m : ℚ) ≤ (2 : ℚ) ^ (53 : ℤ) := by
    rw [show (53 : ℤ) = ((53 : ℕ) : ℤ) by norm_num, zpow_natCast]
    exact_mod_cast h2
  rw [h3]
  constructor
  · calc (2 : ℚ) ^ binExp a = 2 ^ (52 : ℤ) * 2 ^ (binExp a - 52) := by
          rw [← zpow_add₀ (by norm_num : (2 : ℚ) ≠ 0)]; congr 1; ring
      _ ≤ (m : ℚ) * 2 ^ (binExp a - 52) := mul_le_mul_of_nonneg_right h1' hu.le
  · calc (m : ℚ) * 2 ^ (binExp a - 52) ≤ 2 ^ (53 : ℤ) * 2 ^ (binExp a - 52) :=
          mul_le_mul_of_nonneg_right h2' hu.le
      _ = (2 : ℚ) ^ (binExp a + 1) := by
          rw [← zpow_add₀ (by norm_num : (2 : ℚ) ≠ 0)]; congr 1; ring

theorem binExp_mono {a b : ℚ} (ha : 0 < a) (h : a ≤ b) : binExp a ≤ binExp b := by
  obtain ⟨a1, -⟩ := binExp_spec a ha
  obtain ⟨-, b2⟩ := binExp_spec b (lt_of_lt_of_le ha h)
  have : binExp a < binExp b + 1 :=
    (zpow_lt_zpow_iff_right₀ (by norm_num : (1 : ℚ) < 2)).mp
      (lt_of_le_of_lt (a1.trans h) b2)
  omega

theorem flAbs_mono {a b : ℚ} (ha : 0 ≤ a) (h : a ≤ b) : flAbs a ≤ flAbs b := by
  rcases eq_or_lt_of_le ha with rfl | hpos
  · rw [flAbs_zero]
    exact flAbs_nonneg b h
  · have hb : 0 < b := lt_of_lt_of_le hpos h
    rcases eq_or_lt_of_le (binExp_mono hpos h) with he | hlt
    · unfold flAbs
      rw [he]
      have hu : (0 : ℚ) < 2 ^ (binExp b - 52) := zpow_pos (by norm_num) _
      apply mul_le_mul_of_nonneg_right _ hu.le
      exact_mod_cast rne_mono (div_le_div_of_nonneg_right h hu.le)
    · calc flAbs a ≤ 2 ^ (binExp a + 1) := (flAbs_pos_bounds a hpos).2
        _ ≤ 2 ^ binExp b :=
            (zpow_le_zpow_iff_right₀ (by norm_num : (1 : ℚ) < 2)).mpr (by omega)
        _ ≤ flAbs b := (flAbs_pos_bounds b hb).1

theorem flAbs_idem (a : ℚ) (ha : 0 ≤ a) : flAbs (flAbs a) = flAbs a := by
  rcases eq_or_lt_of_le ha with rfl | hpos
  · rw [flAbs_zero, flAbs_zero]
  · obtain ⟨m, h1, h2, h3⟩ := flAbs_bounds a hpos
    rw [h3]
    rcases eq_or_lt_of_le h2 with heq | hlt
    · have : (m : ℚ) * 2 ^ (binExp a - 52) =
          (((2 : ℤ) ^ 52 : ℤ) : ℚ) * 2 ^ (binExp a + 1 - 52) := by
        rw [heq]
        have : (2 : ℚ) ^ (binExp a + 1 - 52) = 2 * 2 ^ (binExp a - 52) := by
          rw [show binExp a + 1 - 52 = 1 + (binExp a - 52) by ring,
            zpow_add₀ (by norm_num : (2 : ℚ) ≠ 0), zpow_one]
        rw [this]
        push_cast
        ring
      rw [this]
      exact flAbs_grid _ _ le_rfl (by norm_num)
    · exact flAbs_grid m _ h1 hlt

theorem fl_mono {x y : ℚ} (h : x ≤ y) : fl x ≤ fl y := by
  unfold fl
  by_cases hx : x < 0
  · by_cases hy : y < 0
    · rw [if_pos hx, if_pos hy]
      exact neg_le_neg (flAbs_mono (by linarith) (by linarith))
    · rw [if_pos hx, if_neg hy]
      have := flAbs_nonneg (-x) (by linarith)
      have := flAbs_nonneg y (not_lt.mp hy)
      linarith
  · have hy : ¬ y < 0 := by intro hy; apply hx; linarith
    rw [if_neg hx, if_neg hy]
    exact flAbs_mono (not_lt.mp hx) h

theorem fl_idem (x : ℚ) : fl (fl x) = fl x := by
  unfold fl
  by_cases hx : x < 0
  · rw [if_pos hx]
    have h0 := flAbs_nonneg (-x) (by linarith)
    rcases eq_or_lt_of_le h0 with hz | hp
    · rw [← hz]
      simp [flAbs_zero]
    · rw [if_pos (by linarith), neg_neg, flAbs_idem _ (by linarith)]
  · rw [if_neg hx]
    have h0 := flAbs_nonneg x (not_lt.mp hx)
    rw [if_neg (not_lt.mpr h0), flAbs_idem _ (not_lt.mp hx)]

/-! ### The machine loop -/

theorem fl_zero : fl 0 = 0 := by
  simp [fl, flAbs_zero]

theorem fl_nonneg {x : ℚ} (h : 0 ≤ x) : 0 ≤ fl x := by
  have := fl_mono h
  rwa [fl_zero] at this

theorem tolM_nonneg : 0 ≤ tolM :=
  fl_nonneg (div_nonneg (fl_nonneg (by norm_num [EPSI])) (by norm_num))

theorem stepInstantM_eq (startTime stopTime stepSize : ℚ) (k : Nat) :
    stepInstantM startTime stopTime stepSize k =
      if (stepSize ≥ 0 ∧ fl (rawInstantM startTime stepSize k + tolM) > stopTime) ∨
          (stepSize < 0 ∧ fl (rawInstantM startTime stepSize k - tolM) < stopTime) then stopTime
      else rawInstantM startTime stepSize k := rfl

/-- The instant before the snap is a machine number. -/
theorem rawInstantM_idem (startTime stepSize : ℚ) (k : Nat) :
    fl (rawInstantM startTime stepSize k) = rawInstantM startTime stepSize k :=
  fl_idem _

/-- With a step that is not negative, the instant before the snap does not
decrease with the index. -/
theorem rawInstantM_mono (startTime stepSize : ℚ) (hs : 0 ≤ stepSize) {j k : Nat}
    (hjk : j ≤ k) : rawInstantM startTime stepSize j ≤ rawInstantM startTime stepSize k := by
  unfold rawInstantM
  apply fl_mono
  apply add_le_add_left
  apply fl_mono
  apply div_le_div_of_nonneg_right _ (by norm_num)
  apply fl_mono
  exact mul_le_mul_of_nonneg_right (by exact_mod_cast hjk) hs

theorem rawInstantM_le_add_tol (startTime stepSize : ℚ) (k : Nat) :
    rawInstantM startTime stepSize k ≤ fl (rawInstantM startTime stepSize k + tolM) := by
  have := fl_mono (le_add_of_nonneg_right tolM_nonneg :
    rawInstantM startTime stepSize k ≤ rawInstantM startTime stepSize k + tolM)
  rwa [rawInstantM_idem] at this

/-- In machine arithmetic, with a step that is not negative, the instants do
not decrease with the index. -/
theorem stepInstantM_mono (startTime stopTime stepSize : ℚ) (hs : 0 ≤ stepSize) {j k : Nat}
    (hjk : j ≤ k) :
    stepInstantM startTime stopTime stepSize j ≤ stepInstantM startTime stopTime stepSize k := by
  have hraw := rawInstantM_mono startTime stepSize hs hjk
  have hneg : ¬ stepSize < 0 := not_lt.mpr hs
  rw [stepInstantM_eq, stepInstantM_eq]
  simp only [ge_iff_le, hs, true_and, hneg, false_and, or_false, gt_iff_lt]
  split_ifs with h1 h2 h2
  · exact le_rfl
  · have := fl_mono (add_le_add_right hraw tolM)
    linarith
  · have := rawInstantM_le_add_tol startTime stepSize j
    linarith
  · exact hraw

/-- In machine arithmetic, with a step that is not negative, an instant that
is not before the stop time is the stop time itself. -/
theorem stepInstantM_ge_stop (startTime stopTime stepSize : ℚ) (hs : 0 ≤ stepSize) (k : Nat)
    (h : stopTime ≤ stepInstantM startTime stopTime stepSize k) :
    stepInstantM startTime stopTime stepSize k = stopTime := by
  have hneg : ¬ stepSize < 0 := not_lt.mpr hs
  rw [stepInstantM_eq] at h ⊢
  simp only [ge_iff_le, hs, true_and, hneg, false_and, or_false, gt_iff_lt] at h ⊢
  split_ifs with h1
  · rfl
  · rw [if_neg h1] at h
    have := rawInstantM_le_add_tol startTime stepSize k
    linarith

/-- The machine loop is the iteration of `propStep` at the machine instants,
as long as the counter can be incremented. -/
theorem stepLoopM_succ {σ : Type} (E : Engine σ) (satKey : Int) (startTime stopTime stepSize : ℚ)
    (fuel step : Nat) (ds50UTC : ℚ) (satData : SatelliteData) (w : World σ) :
    stepLoopM E satKey startTime stopTime stepSize (fuel + 1) step ds50UTC satData w =
      if loopExit stopTime stepSize ds50UTC then some (satData, w)
      else
        if (propStep E satKey (stepInstantM startTime stopTime stepSize step) w).2.1 then
          if INT_MAX ≤ step then none
          else
            stepLoopM E satKey startTime stopTime stepSize fuel (step + 1)
              (stepInstantM startTime stopTime stepSize step)
              { satData with timeSteps := satData.timeSteps ++
                  [(propStep E satKey (stepInstantM startTime stopTime stepSize step) w).1] }
              (propStep E satKey (stepInstantM startTime stopTime stepSize step) w).2.2
        else
          some ({ satData with
              timeSteps := satData.timeSteps ++
                [(propStep E satKey (stepInstantM startTime stopTime stepSize step) w).1],
              propagationSuccess := false },
            (propStep E satKey (stepInstantM startTime stopTime stepSize step) w).2.2) := rfl

/-- The machine loop exits at once, with nothing changed, when the exit test
holds. -/
theorem stepLoopM_exit {σ : Type} (E : Engine σ) (satKey : Int)
    (startTime stopTime stepSize : ℚ) (fuel step : Nat) (ds50UTC : ℚ)
    (satData : SatelliteData) (w : World σ)
    (h : loopExit stopTime stepSize ds50UTC = true) :
    stepLoopM E satKey startTime stopTime stepSize (fuel + 1) step ds50UTC satData w =
      some (satData, w) := by
  rw [stepLoopM_succ, h]
  rfl

/-- A run of `m` Ok steps of the machine loop from iteration `k`: when the
propagate calls of the steps `k .. k + m - 1` of the run are Ok and the counter
can be incremented after each, the loop appends `m` unflagged records, passes
the machine instants of these steps to the propagator, and arrives at the head
of iteration `k + m` in the world `stepWorldM .. k w m`. -/
theorem stepLoopM_ok_run {σ : Type} (E : Engine σ) (satKey : Int)
    (startTime stopTime stepSize : ℚ) (m : Nat) :
    ∀ (k : Nat) (satData : SatelliteData) (w : World σ),
      k + m ≤ INT_MAX →
      (∀ j, k ≤ j → j < k + m →
        loopExit stopTime stepSize (headInstantM startTime stopTime stepSize j) = false) →
      (∀ j, j < m → OkOut (stepOutM E satKey startTime stopTime stepSize k w j)) →
      ∃ (recs : List TimeStepData) (evs : List Call),
        recs.length = m ∧ (∀ r ∈ recs, r.hasError = false) ∧
        (stepWorldM E satKey startTime stopTime stepSize k w m).log = w.log ++ evs ∧
        propTimes evs = (List.range' k m).map (stepInstantM startTime stopTime stepSize) ∧
        ∀ fuel, stepLoopM E satKey startTime stopTime stepSize (fuel + m) k
            (headInstantM startTime stopTime stepSize k) satData w =
          stepLoopM E satKey startTime stopTime stepSize fuel (k + m)
            (headInstantM startTime stopTime stepSize (k + m))
            { satData with timeSteps := satData.timeSteps ++ recs }
            (stepWorldM E satKey startTime stopTime stepSize k w m) := by
  induction m with
  | zero =>
    intro k satData w _ _ _
    exact ⟨[], [], rfl, by simp, by simp [stepWorldM], rfl, fun fuel => by simp [stepWorldM]⟩
  | succ m ih =>
    intro k satData w hk h hok
    have hexit := h k le_rfl (by omega)
    obtain ⟨hcont, hflag⟩ := propStep_ok E satKey _ w (hok 0 (by omega))
    obtain ⟨ev0, hlog0, hev0⟩ := propStep_propTimes E satKey
      (stepInstantM startTime stopTime stepSize k) w
    obtain ⟨recs, evs, hlen, hall, hlog, hev, hrun⟩ :=
      ih (k + 1)
        { satData with timeSteps := satData.timeSteps ++
            [(propStep E satKey (stepInstantM startTime stopTime stepSize k) w).1] }
        (propStep E satKey (stepInstantM startTime stopTime stepSize k) w).2.2
        (by omega)
        (fun j h1 h2 => h j (by omega) (by omega))
        (fun j hj => hok (j + 1) (by omega))
    refine ⟨(propStep E satKey (stepInstantM startTime stopTime stepSize k) w).1 :: recs,
      ev0 ++ evs, by simp [hlen], ?_, ?_, ?_, ?_⟩
    · intro r hr
      rcases List.mem_cons.mp hr with rfl | hr
      · exact hflag
      · exact hall r hr
    · show (stepWorldM E satKey startTime stopTime stepSize (k + 1) _ m).log = _
      rw [hlog, hlog0, List.append_assoc]
    · rw [propTimes_append, hev0, hev, List.range'_succ]
      rfl
    · intro fuel
      have e1 : fuel + (m + 1) = (fuel + m) + 1 := by omega
      have e2 : k + (m + 1) = k + 1 + m := by omega
      have hk' : ¬ INT_MAX ≤ k := by omega
      rw [e1, stepLoopM_succ, hexit, e2]
      simp only [Bool.false_eq_true, if_false, hcont, if_true, hk']
      have := hrun fuel
      simp only [headInstantM, List.append_assoc, List.singleton_append] at this ⊢
      exact this

/-- The machine loop has no result when every pass is Ok and no instant that
the counter can reach attains the stop time of a forward window. -/
theorem stepLoopM_diverges {σ : Type} (E : Engine σ) (satKey : Int)
    (startTime stopTime stepSize : ℚ) (hs : 0 ≤ stepSize)
    (hlast : stepInstantM startTime stopTime stepSize INT_MAX < stopTime)
    (hok : ∀ (t : ℚ) (w : World σ), (propStep E satKey t w).2.1 = true) (fuel : Nat) :
    ∀ (step : Nat) (ds50UTC : ℚ) (satData : SatelliteData) (w : World σ),
      ds50UTC < stopTime →
      stepLoopM E satKey startTime stopTime stepSize fuel step ds50UTC satData w = none := by
  induction fuel with
  | zero => intro step ds50UTC satData w _; rfl
  | succ fuel ih =>
    intro step ds50UTC satData w hds
    have hx : loopExit stopTime stepSize ds50UTC = false := by
      simp [loopExit, hs, not_le.mpr hds, not_lt.mpr hs]
    rw [stepLoopM_succ, hx]
    simp only [Bool.false_eq_true, if_false, hok, if_true]
    by_cases hmax : INT_MAX ≤ step
    · rw [if_pos hmax]
    · rw [if_neg hmax]
      refine ih _ _ _ _ (lt_of_le_of_lt ?_ hlast)
      exact stepInstantM_mono startTime stopTime stepSize hs (by omega)

/-- Every pass of the stepping loop is Ok on a test engine whose propagator
always answers Ok at a height of 200 km. -/
theorem testEngine_pass (count : Int) (card : Card6P) (epoch : ℚ) (initSat removeSat : Int → Int)
    (k : Int) (t : ℚ) (w : World Unit) :
    (propStep (testEngine count card epoch initSat (fun _ _ => okOut 200) removeSat)
      k t w).2.1 = true :=
  (propStep_ok _ k t w ⟨rfl, by show (100 : ℚ) ≤ 200; norm_num⟩).1

/-! ## The claims -/

/-- C1, counterexample. In the arithmetic of the machine the loop need not reach
the stop time.  From day 0 to day 1 in steps of `2 ^ -21` minutes, every step
being Ok, the instant of every step index up to `INT_MAX` is before the stop
time, and the loop has no result whatever the fuel: the counter `step` cannot
be incremented beyond `INT_MAX`. -/
theorem stepLoopM_counter_overflow :
    ((0 : ℚ) < 1 ∧ (0 : ℚ) < 1 / 2097152 ∧ stepInstantM 0 1 (1 / 2097152) INT_MAX < 1) ∧
    (∀ k : Nat, k ≤ INT_MAX → stepInstantM 0 1 (1 / 2097152) k < 1) ∧
    ∀ fuel : Nat, stepLoopM okEngine 1 0 1 (1 / 2097152) fuel 0 0 sat1 w0 = none :=
  ⟨⟨by norm_num, by norm_num, by decide!⟩,
    fun k hk => lt_of_le_of_lt (stepInstantM_mono 0 1 (1 / 2097152) (by norm_num) hk) (by decide!),
    fun fuel => stepLoopM_diverges okEngine 1 0 1 (1 / 2097152) (by norm_num) (by decide!)
      (testEngine_pass _ _ _ _ _ 1) fuel 0 0 sat1 w0 (by norm_num)⟩

/-- C1, amended. In the arithmetic of the machine, take start < stop and
step > 0, and let the instant of some step index `n` below `INT_MAX` attain the
stop time, the propagate calls of the steps up to `n` of the run being Ok.
Then the stepping loop returns, with any fuel above the number of its steps; it
evaluates at least one instant, the instants are those of the step indices
`0 .. m` for some `m ≤ n`, and the last instant it passes to the engine is the
stop time exactly. -/
theorem stepLoopM_last_instant_is_stop {σ : Type} (E : Engine σ) (satKey : Int)
    (startTime stopTime stepSize : ℚ) (n : Nat) (satData : SatelliteData) (w : World σ)
    (h1 : startTime < stopTime) (h2 : 0 < stepSize) (hn : n < INT_MAX)
    (hreach : stopTime ≤ stepInstantM startTime stopTime stepSize n)
    (hok : ∀ j, j < n + 1 → OkOut (stepOutM E satKey startTime stopTime stepSize 0 w j)) :
    ∃ (m : Nat) (sd : SatelliteData) (w' : World σ) (evs : List Call),
      m ≤ n ∧
      (∀ fuel, m + 1 < fuel →
        stepLoopM E satKey startTime stopTime stepSize fuel 0 startTime satData w =
          some (sd, w')) ∧
      w'.log = w.log ++ evs ∧
      propTimes evs = (List.range' 0 (m + 1)).map (stepInstantM startTime stopTime stepSize) ∧
      propTimes evs ≠ [] ∧
      (propTimes evs).getLast? = some stopTime ∧
      sd.timeSteps.length = satData.timeSteps.length + (m + 1) ∧
      sd.propagationSuccess = satData.propagationSuccess := by
  have hex : ∃ k, stopTime ≤ stepInstantM startTime stopTime stepSize k := ⟨n, hreach⟩
  have hm := Nat.find_spec hex
  have hmn : Nat.find hex ≤ n := Nat.find_min' hex hreach
  have hmin : ∀ j, j < Nat.find hex → stepInstantM startTime stopTime stepSize j < stopTime :=
    fun j hj => not_le.mp (Nat.find_min hex hj)
  generalize Nat.find hex = m at hm hmn hmin
  have hheads : ∀ j, j < m + 1 →
      loopExit stopTime stepSize (headInstantM startTime stopTime stepSize j) = false := by
    intro j _
    have hlt : headInstantM startTime stopTime stepSize j < stopTime := by
      cases j with
      | zero => exact h1
      | succ i => exact hmin i (by omega)
    simp [loopExit, h2.le, not_le.mpr hlt, not_lt.mpr h2.le]
  have hstop := stepInstantM_ge_stop startTime stopTime stepSize h2.le m hm
  have hexit : loopExit stopTime stepSize
      (headInstantM startTime stopTime stepSize (m + 1)) = true := by
    show loopExit stopTime stepSize (stepInstantM startTime stopTime stepSize m) = true
    rw [hstop]
    simp [loopExit, h2.le]
  obtain ⟨recs, evs, hlen, -, hlog, hev, hrun⟩ :=
    stepLoopM_ok_run E satKey startTime stopTime stepSize (m + 1) 0 satData w (by omega)
      (fun j _ hj => hheads j (by omega)) (fun j hj => hok j (by omega))
  have hlast := getLast_map_range'_succ (stepInstantM startTime stopTime stepSize) m
  rw [← hev, hstop] at hlast
  refine ⟨m, { satData with timeSteps := satData.timeSteps ++ recs }, _, evs, hmn,
    fun fuel hf => ?_, hlog, hev, ?_, hlast, by simp [hlen], rfl⟩
  · have e : fuel = (fuel - (m + 1) - 1 + 1) + (m + 1) := by omega
    have h := hrun (fuel - (m + 1) - 1 + 1)
    rw [← e, show headInstantM startTime stopTime stepSize 0 = startTime from rfl] at h
    rw [h, Nat.zero_add]
    exact stepLoopM_exit _ _ _ _ _ _ _ _ _ _ hexit
  · intro h
    rw [h] at hlast
    simp at hlast

/-- Witness of C1, amended: a window from day 0 to day 1 in steps of 1000
minutes, on the engine with a state, in the world in which the key 1 is
initialised.  The sum of step 2 is beyond the stop time, and the instant of
step 2 is the stop time. -/
theorem stepLoopM_last_instant_is_stop_witness :
    (0 : ℚ) < 1 ∧ (0 : ℚ) < 1000 ∧ 2 < INT_MAX ∧ (1 : ℚ) ≤ stepInstantM 0 1 1000 2 ∧
    (1 : ℚ) < rawInstantM 0 1000 2 ∧
    (∀ j, j < 2 + 1 → OkOut (stepOutM okInitEngine 1 0 1 1000 0 ws1 j)) ∧
    ¬ OkOut (stepOutM okInitEngine 1 0 1 1000 0 ws0 0) ∧
    (∃ r, stepLoopM okInitEngine 1 0 1 1000 4 0 0 sat1 ws1 = some r ∧
      propTimes r.2.log = [0, rawInstantM 0 1000 1, 1]) ∧
    ∃ (m : Nat) (sd : SatelliteData) (w' : World (List Int)) (evs : List Call),
      m ≤ 2 ∧
      (∀ fuel, m + 1 < fuel → stepLoopM okInitEngine 1 0 1 1000 fuel 0 0 sat1 ws1 =
        some (sd, w')) ∧
      w'.log = ws1.log ++ evs ∧
      propTimes evs = (List.range' 0 (m + 1)).map (stepInstantM 0 1 1000) ∧
      propTimes evs ≠ [] ∧
      (propTimes evs).getLast? = some 1 ∧
      sd.timeSteps.length = sat1.timeSteps.length + (m + 1) ∧
      sd.propagationSuccess = sat1.propagationSuccess :=
  ⟨by norm_num, by norm_num, by decide, by decide!, by decide!, by decide!, by decide!,
    by decide!,
    stepLoopM_last_instant_is_stop okInitEngine 1 0 1 1000 2 sat1 ws1 (by norm_num)
      (by norm_num) (by decide) (by decide!) (by decide!)⟩

/-- C2. `CalcStartStopTime` returns the step `+|stepSize|` when the resolved
start is not after the resolved stop and `-|stepSize|` when it is after it; so
with start > stop and a non-zero magnitude the resolved step is negative,
whatever the sign of the magnitude on the card. -/
theorem CalcStartStopTime_step_sign {σ : Type} (E : Engine σ) (epoch : ℚ) (w : World σ) :
    ((CalcStartStopTime E epoch w).1.1 ≤ (CalcStartStopTime E epoch w).1.2.1 →
      (CalcStartStopTime E epoch w).1.2.2 = |(E.Get6P w.eng).1.stepSize|) ∧
    ((CalcStartStopTime E epoch w).1.1 > (CalcStartStopTime E epoch w).1.2.1 →
      (CalcStartStopTime E epoch w).1.2.2 = -|(E.Get6P w.eng).1.stepSize|) ∧
    ((CalcStartStopTime E epoch w).1.1 > (CalcStartStopTime E epoch w).1.2.1 →
      (E.Get6P w.eng).1.stepSize ≠ 0 → (CalcStartStopTime E epoch w).1.2.2 < 0) := by
  simp only [CalcStartStopTime, call_fst]
  refine ⟨fun h => by rw [if_neg (not_lt.mpr h)], fun h => by rw [if_pos h], fun h hm => ?_⟩
  rw [if_pos h]
  exact neg_neg_of_pos (abs_pos.mpr hm)

/-- Witness of C2: start 5 after stop 1 with the positive magnitude 7 gives the
step -7. -/
theorem CalcStartStopTime_step_sign_witness :
    (CalcStartStopTime backEngine 100 w0).1.1 > (CalcStartStopTime backEngine 100 w0).1.2.1 ∧
    (backEngine.Get6P w0.eng).1.stepSize ≠ 0 ∧
    (CalcStartStopTime backEngine 100 w0).1.2.2 = -|(backEngine.Get6P w0.eng).1.stepSize| ∧
    (CalcStartStopTime backEngine 100 w0).1.2.2 < 0 :=
  have hgt : (CalcStartStopTime backEngine 100 w0).1.1 >
      (CalcStartStopTime backEngine 100 w0).1.2.1 := by decide!
  have hne : (backEngine.Get6P w0.eng).1.stepSize ≠ 0 := by decide!
  ⟨hgt, hne, (CalcStartStopTime_step_sign backEngine 100 w0).2.1 hgt,
    (CalcStartStopTime_step_sign backEngine 100 w0).2.2 hgt hne⟩

/-- C3. `CalcStartStopTime` resolves the two bounds independently: a bound whose
flag is 1 (epoch-relative) resolves to `epoch + value / 1440`, a bound whose flag
is not 1 resolves to its value, whatever the epoch. -/
theorem CalcStartStopTime_bounds {σ : Type} (E : Engine σ) (epoch : ℚ) (w : World σ) :
    ((E.Get6P w.eng).1.startFrEpoch = 1 →
      (CalcStartStopTime E epoch w).1.1 = epoch + (E.Get6P w.eng).1.startTime / 1440) ∧
    ((E.Get6P w.eng).1.startFrEpoch ≠ 1 →
      (CalcStartStopTime E epoch w).1.1 = (E.Get6P w.eng).1.startTime) ∧
    ((E.Get6P w.eng).1.stopFrEpoch = 1 →
      (CalcStartStopTime E epoch w).1.2.1 = epoch + (E.Get6P w.eng).1.stopTime / 1440) ∧
    ((E.Get6P w.eng).1.stopFrEpoch ≠ 1 →
      (CalcStartStopTime E epoch w).1.2.1 = (E.Get6P w.eng).1.stopTime) := by
  simp only [CalcStartStopTime, call_fst]
  exact ⟨fun h => if_pos h, fun h => if_neg h, fun h => if_pos h, fun h => if_neg h⟩

/-- Witness of C3: an epoch-relative window (both flags 1) at epoch 100, and an
absolute window (both flags 0). -/
theorem CalcStartStopTime_bounds_witness :
    ((okEngine.Get6P w0.eng).1.startFrEpoch = 1 ∧
      (CalcStartStopTime okEngine 100 w0).1.1 = 100 + (okEngine.Get6P w0.eng).1.startTime / 1440) ∧
    ((backEngine.Get6P w0.eng).1.startFrEpoch ≠ 1 ∧
      (CalcStartStopTime backEngine 100 w0).1.1 = (backEngine.Get6P w0.eng).1.startTime) ∧
    ((okEngine.Get6P w0.eng).1.stopFrEpoch = 1 ∧
      (CalcStartStopTime okEngine 100 w0).1.2.1 = 100 + (okEngine.Get6P w0.eng).1.stopTime / 1440) ∧
    ((backEngine.Get6P w0.eng).1.stopFrEpoch ≠ 1 ∧
      (CalcStartStopTime backEngine 100 w0).1.2.1 = (backEngine.Get6P w0.eng).1.stopTime) :=
  ⟨⟨rfl, (CalcStartStopTime_bounds okEngine 100 w0).1 rfl⟩,
    ⟨by decide, (CalcStartStopTime_bounds backEngine 100 w0).2.1 (by decide)⟩,
    ⟨rfl, (CalcStartStopTime_bounds okEngine 100 w0).2.2.1 rfl⟩,
    ⟨by decide, (CalcStartStopTime_bounds backEngine 100 w0).2.2.2 (by decide)⟩⟩

/-- C4. Resolving a window whose start is epoch-relative with start value 0
yields a start equal to the epoch, whatever the stop setting and the step
magnitude. -/
theorem CalcStartStopTime_start_zero {σ : Type} (E : Engine σ) (epoch : ℚ) (w : World σ)
    (h1 : (E.Get6P w.eng).1.startFrEpoch = 1) (h2 : (E.Get6P w.eng).1.startTime = 0) :
    (CalcStartStopTime E epoch w).1.1 = epoch := by
  simp only [CalcStartStopTime, call_fst, h1, h2, if_true, zero_div, add_zero]

/-- Witness of C4: the epoch-relative window of `okEngine` starts at 0 minutes. -/
theorem CalcStartStopTime_start_zero_witness :
    (okEngine.Get6P w0.eng).1.startFrEpoch = 1 ∧ (okEngine.Get6P w0.eng).1.startTime = 0 ∧
    (CalcStartStopTime okEngine 100 w0).1.1 = 100 :=
  ⟨rfl, rfl, CalcStartStopTime_start_zero okEngine 100 w0 rfl rfl⟩

/-- C5. In exact arithmetic, for an initialised object with epoch `e` and an
epoch-relative window from `a` to `a + n * s` minutes, `n ≥ 1`, with a step of
`s > 0` minutes that is at least the snapping tolerance, and the propagate
calls of the steps `0 .. n` of the run Ok, each in the engine state the run has
reached: `runSat` returns as soon as the fuel is at least `n + 2`, with exactly `n + 1`
records, none flagged, the success flag set, and the propagator called at the
instants `e + (a + i * s) / 1440` for `i = 0 .. n`, in this order. -/
theorem runSat_epoch_relative_grid {σ : Type} (E : Engine σ) (satKey : Int) (w : World σ)
    (a s : ℚ) (n : Nat) (hinit : initCode E satKey w = 0)
    (hcard : (E.Get6P (satEpoch E satKey w).2.eng).1 = ⟨1, 1, a, a + (n : ℚ) * s, s⟩)
    (hs : 0 < s) (htol : EPSI / 86400 ≤ s / 1440) (hn : 1 ≤ n)
    (hok : ∀ j, j < n + 1 → OkOut (satOut E satKey w j)) :
    ∃ (sd : SatelliteData) (w' : World σ) (evs : List Call),
      (∀ fuel, n + 2 ≤ fuel → runSat E fuel satKey w = some (sd, true, w')) ∧
      sd.timeSteps.length = n + 1 ∧ (∀ r ∈ sd.timeSteps, r.hasError = false) ∧
      sd.propagationSuccess = true ∧
      w'.log = w.log ++ evs ∧
      propTimes evs =
        (List.range (n + 1)).map
          fun i : Nat => (satEpoch E satKey w).1 + (a + (i : ℚ) * s) / 1440 := by
  have hns : 0 ≤ (n : ℚ) * s := mul_nonneg (Nat.cast_nonneg n) hs.le
  have hn1 : (1 : ℚ) ≤ (n : ℚ) := by exact_mod_cast hn
  have hw : (satWindow E satKey w).1 =
      ((satEpoch E satKey w).1 + a / 1440,
        (satEpoch E satKey w).1 + (a + (n : ℚ) * s) / 1440, s) := by
    have hle : ¬ ((satEpoch E satKey w).1 + a / 1440 >
        (satEpoch E satKey w).1 + (a + (n : ℚ) * s) / 1440) := by
      rw [not_lt]
      have : a / 1440 ≤ (a + (n : ℚ) * s) / 1440 :=
        div_le_div_of_nonneg_right (by linarith) (by norm_num)
      linarith
    simp only [satWindow, CalcStartStopTime, call_fst, hcard, if_true, hle, if_false,
      abs_of_pos hs]
  have hlt : ∀ j, j < n →
      (satEpoch E satKey w).1 + a / 1440 + (j : ℚ) * s / 1440 + EPSI / 86400 ≤
        (satEpoch E satKey w).1 + (a + (n : ℚ) * s) / 1440 := by
    intro j hj
    have hj1 : (j : ℚ) + 1 ≤ (n : ℚ) := by exact_mod_cast hj
    have h3 : ((j : ℚ) + 1) * s ≤ (n : ℚ) * s := mul_le_mul_of_nonneg_right hj1 hs.le
    have h4 : (a + (n : ℚ) * s) / 1440 - a / 1440 - (j : ℚ) * s / 1440 =
        ((n : ℚ) * s - (j : ℚ) * s) / 1440 := by ring
    have h5 : s / 1440 ≤ ((n : ℚ) * s - (j : ℚ) * s) / 1440 :=
      div_le_div_of_nonneg_right (by linarith) (by norm_num)
    linarith
  have hN : (satEpoch E satKey w).1 + (a + (n : ℚ) * s) / 1440 <
      (satEpoch E satKey w).1 + a / 1440 + (n : ℚ) * s / 1440 + EPSI / 86400 := by
    have := tol_pos
    have h4 : (a + (n : ℚ) * s) / 1440 = a / 1440 + (n : ℚ) * s / 1440 := by ring
    linarith
  have hstart : (satEpoch E satKey w).1 + a / 1440 <
      (satEpoch E satKey w).1 + (a + (n : ℚ) * s) / 1440 := by
    have := hlt 0 (by omega)
    have := tol_pos
    simp only [Nat.cast_zero, zero_mul, zero_div, add_zero] at *
    linarith
  have hsnap := stepInstant_snap _ _ _ n hs.le hN
  obtain ⟨recs, w', evs, hlen, hall, hlog, hev, hrun⟩ :=
    runSat_complete E satKey w (n + 1) hinit
      (by rw [hw]; exact forward_heads _ _ _ n hstart hs.le hlt)
      (by
        rw [hw]
        simp only [headInstant, hsnap]
        exact loopExit_true_of_ge _ _ _ hs.le le_rfl)
      hok
  refine ⟨_, w', evs, fun fuel hf => hrun fuel (by omega), hlen, hall, rfl, hlog, ?_⟩
  rw [hev, hw, List.range_eq_range']
  refine List.map_congr_left fun j hj => ?_
  have hj' : j < n + 1 := by
    have := (List.mem_range'_1.mp hj).2
    omega
  rcases Nat.lt_succ_iff_lt_or_eq.mp hj' with h | rfl
  · rw [stepInstant_raw _ _ _ _ hs.le (hlt j h)]
    ring
  · rw [hsnap]

/-- Witness of C5: an engine whose propagator only answers for a key that
`Sgp4InitSat` has initialised.  Start 0, stop 60 and step 30 minutes from the
epoch 100 give exactly three steps, at 0, 30 and 60 minutes from the epoch, for
each object of the catalogue. -/
theorem runSat_epoch_relative_grid_witness :
    (∀ j, j < 2 + 1 → OkOut (satOut okInitEngine 1 ws0 j)) ∧
    ¬ OkOut (okInitEngine.Sgp4PropDs50UTC 1 100 ws0.eng).1 ∧
    (∃ (sd : SatelliteData) (w' : World (List Int)) (evs : List Call),
      (∀ fuel, 2 + 2 ≤ fuel → runSat okInitEngine fuel 1 ws0 = some (sd, true, w')) ∧
      sd.timeSteps.length = 2 + 1 ∧ (∀ r ∈ sd.timeSteps, r.hasError = false) ∧
      sd.propagationSuccess = true ∧
      w'.log = ws0.log ++ evs ∧
      propTimes evs =
        (List.range (2 + 1)).map
          fun i : Nat => (satEpoch okInitEngine 1 ws0).1 + (0 + (i : ℚ) * 30) / 1440) ∧
    (∃ r, RunOneSgp4Job okInitEngine 4 "catalogue" ws0 = some r ∧
      r.1.satellites.map (fun sd => (sd.satKey, sd.timeSteps.length, sd.propagationSuccess)) =
        [(1, 3, true), (2, 3, true)] ∧
      propTimes r.2.log =
        [100, 100 + 30 / 1440, 100 + 60 / 1440, 100, 100 + 30 / 1440, 100 + 60 / 1440]) :=
  ⟨by decide!, by decide!,
    runSat_epoch_relative_grid okInitEngine 1 ws0 0 30 2 (by decide!) (by decide!) (by norm_num)
      (by norm_num [EPSI]) (by norm_num) (by decide!), by decide!⟩

/-- C8. When `Sgp4InitSat` returns a non-zero status for an object, its result
has exactly one step record, flagged as an error and carrying the message that
`GetLastErrMsg` returns right after the failed call: the bytes of the message
are the bytes of the engine's buffer before its first NUL byte, at most
`LOGMSGLEN - 1` of them.  The object is marked unsuccessful, and the only
engine calls made for it are `TleGetLines`, `Sgp4InitSat` and `GetLastErrMsg`:
no propagate call. -/
theorem runSat_init_failure {σ : Type} (E : Engine σ) (fuel : Nat) (satKey : Int) (w : World σ)
    (h : initCode E satKey w ≠ 0) :
    ∃ (sd : SatelliteData) (w' : World σ) (errorStep : TimeStepData),
      runSat E fuel satKey w = some (sd, false, w') ∧
      sd.timeSteps = [errorStep] ∧ errorStep.hasError = true ∧
      errorStep.errorMsg = cstr E.LOGMSGLEN (E.GetLastErrMsg (initWorld E satKey w).eng).1 ∧
      strBytes errorStep.errorMsg =
        (((E.GetLastErrMsg (initWorld E satKey w).eng).1.take (E.LOGMSGLEN - 1)).takeWhile
          fun b => b ≠ 0).map Fin.val ∧
      sd.propagationSuccess = false ∧
      w'.log = w.log ++ [Call.TleGetLines satKey, Call.Sgp4InitSat satKey, Call.GetLastErrMsg] ∧
      propTimes w'.log = propTimes w.log := by
  refine ⟨_, _, _, runSat_of_init_failure E fuel satKey w h, rfl, rfl, rfl,
    ?_, rfl, ?_, ?_⟩
  · show List.map Char.toNat (List.map _ _) = _
    rw [List.map_map]
    exact List.map_congr_left fun b _ => byte_char b
  · simp only [initWorld, call_log, List.append_assoc, List.singleton_append, List.nil_append,
      List.cons_append]
  · simp only [initWorld, call_log, propTimes_append, propTimes, List.append_nil]

/-- Witness of C8: the engine whose `Sgp4InitSat` returns 1 and whose last
message is "engine error".  The record carries this text; with a message buffer
of 8 bytes it carries the first 7 bytes of it, and from a buffer with a NUL
byte it carries the bytes before the NUL. -/
theorem runSat_init_failure_witness :
    (∃ r, runSat nulMsgEngine 0 1 w0 = some r ∧
      r.1.timeSteps.map (fun t => (t.hasError, t.errorMsg)) = [(true, "bad tle")]) ∧
    initCode initFailEngine 1 w0 ≠ 0 ∧
    (∃ r, runSat initFailEngine 0 1 w0 = some r ∧
      r.1.timeSteps.map (fun t => (t.hasError, t.errorMsg)) = [(true, "engine error")]) ∧
    (∃ r, runSat shortMsgEngine 0 1 w0 = some r ∧
      r.1.timeSteps.map (fun t => (t.hasError, t.errorMsg)) = [(true, "engine ")]) ∧
    ∃ (sd : SatelliteData) (w' : World Unit) (errorStep : TimeStepData),
      runSat initFailEngine 0 1 w0 = some (sd, false, w') ∧
      sd.timeSteps = [errorStep] ∧ errorStep.hasError = true ∧
      errorStep.errorMsg =
        cstr initFailEngine.LOGMSGLEN
          (initFailEngine.GetLastErrMsg (initWorld initFailEngine 1 w0).eng).1 ∧
      strBytes errorStep.errorMsg =
        (((initFailEngine.GetLastErrMsg (initWorld initFailEngine 1 w0).eng).1.take
          (initFailEngine.LOGMSGLEN - 1)).takeWhile fun b => b ≠ 0).map Fin.val ∧
      sd.propagationSuccess = false ∧
      w'.log = w0.log ++ [Call.TleGetLines 1, Call.Sgp4InitSat 1, Call.GetLastErrMsg] ∧
      propTimes w'.log = propTimes w0.log :=
  ⟨by decide!, by decide, by decide!, by decide!,
    runSat_init_failure initFailEngine 0 1 w0 (by decide)⟩

/-- C10. For an initialised object and an index `k` within its instant sequence,
if the propagate calls of the steps `0 .. k - 1` of the run are Ok and the
propagate call of step `k` returns status zero with a geodetic height below 0,
each in the engine state the run has reached, then `runSat` returns a result
with exactly `k + 1` records; the last one is flagged and its message is the
warning "Decay condition. Distance from the Geoid (Km) = " followed by the
height the propagator returned; the first `k` records are unflagged and the
success flag is cleared. -/
theorem runSat_decay {σ : Type} (E : Engine σ) (fuel : Nat) (satKey : Int) (w : World σ)
    (k : Nat) (hinit : initCode E satKey w = 0)
    (hseq : inSequence (satWindow E satKey w).1.1 (satWindow E satKey w).1.2.1
      (satWindow E satKey w).1.2.2 k)
    (hok : ∀ j, j < k → OkOut (satOut E satKey w j))
    (hzero : (satOut E satKey w k).errCode = 0)
    (hneg : (satOut E satKey w k).llh.2.2 < 0)
    (hfuel : k < fuel) :
    ∃ (sd : SatelliteData) (w' : World σ) (last : TimeStepData),
      runSat E fuel satKey w = some (sd, true, w') ∧
      sd.timeSteps.length = k + 1 ∧ sd.timeSteps.getLast? = some last ∧
      last.hasError = true ∧ last.llh = some (satOut E satKey w k).llh ∧
      last.errorMsg =
        "Warning: Decay condition. Distance from the Geoid (Km) = " ++
          E.to_string (satOut E satKey w k).llh.2.2 ∧
      (∀ r ∈ sd.timeSteps.take k, r.hasError = false) ∧
      sd.propagationSuccess = false := by
  obtain ⟨recs, evs, hlen, hall, -, -, hrun⟩ := runSat_reach E satKey w k hinit hseq hok
  rw [satOut_eq] at hzero hneg ⊢
  obtain ⟨hllh, hdecay, -, -⟩ := propStep_zero_status E satKey _ (satWorld E satKey w k) hzero
  obtain ⟨hstop, hflag, hmsg⟩ := hdecay hneg
  refine ⟨_, _, _, hrun fuel hfuel hstop, ?_, ?_, hflag, hllh, hmsg, ?_, rfl⟩
  · simp [hlen]
  · simp
  · intro r hr
    rw [List.take_left' hlen] at hr
    exact hall r hr

/-- Witness of C10: an engine whose propagator only answers for an initialised
key; the orbit decays at step 2, after two Ok steps. -/
theorem runSat_decay_witness :
    (∀ j, j < 2 → OkOut (satOut decayInitEngine 1 ws0 j)) ∧
    (satOut decayInitEngine 1 ws0 2).errCode = 0 ∧
    (satOut decayInitEngine 1 ws0 2).llh.2.2 = -5 ∧
    ∃ (sd : SatelliteData) (w' : World (List Int)) (last : TimeStepData),
      runSat decayInitEngine 3 1 ws0 = some (sd, true, w') ∧
      sd.timeSteps.length = 2 + 1 ∧ sd.timeSteps.getLast? = some last ∧
      last.hasError = true ∧ last.llh = some (satOut decayInitEngine 1 ws0 2).llh ∧
      last.errorMsg =
        "Warning: Decay condition. Distance from the Geoid (Km) = " ++
          decayInitEngine.to_string (satOut decayInitEngine 1 ws0 2).llh.2.2 ∧
      (∀ r ∈ sd.timeSteps.take 2, r.hasError = false) ∧
      sd.propagationSuccess = false :=
  ⟨by decide!, by decide!, by decide!,
    runSat_decay decayInitEngine 3 1 ws0 2 (by decide!) (by decide!) (by decide!) (by decide!)
      (by decide!) (by decide)⟩

/-- C6, counterexample. With two satellites, the step magnitude 0 and a window
that runs from day 5 back to day 1, `RunOneSgp4Job` reports no configuration
error: `overallSuccess` is true, the batch message is empty, and both
satellites are processed, each with an empty record list and its success flag
set. -/
theorem RunOneSgp4Job_zero_step_no_error :
    (zeroBackEngine.Get6P ws0.eng).1.stepSize = 0 ∧
    ∃ r, RunOneSgp4Job zeroBackEngine 1 "catalogue" ws0 = some r ∧
      r.1.overallSuccess = true ∧ r.1.generalError = "" ∧
      r.1.satellites.map (fun sd => (sd.satKey, sd.timeSteps.length, sd.propagationSuccess)) =
        [(1, 0, true), (2, 0, true)] := by
  decide!

/-- C6, amended. Take a non-empty catalogue whose key array is allocated, and
let the control card that each initialised object of the run reads have the step
magnitude 0 and resolve to a start that is not before the stop.  Then
`RunOneSgp4Job` raises no configuration error: when no remove call of the run
fails it returns with any positive fuel, `overallSuccess` is true, the batch
message is empty, there is one result per catalogue object, and no propagate
call is made. -/
theorem RunOneSgp4Job_zero_step {σ : Type} (E : Engine σ) (fuel : Nat) (inFile : String)
    (w : World σ)
    (hcount : 0 < jobCount E inFile w)
    (halloc : (jobAlloc E inFile w).1 = true)
    (hwin : ∀ (j : Nat) (wj : World σ), j < (jobCount E inFile w).toNat →
      tleWorld E fuel (jobSetup E inFile w).1 0 (jobSetup E inFile w).2 j = some wj →
      initCode E ((jobSetup E inFile w).1 j) wj = 0 →
      (E.Get6P (satEpoch E ((jobSetup E inFile w).1 j) wj).2.eng).1.stepSize = 0 ∧
      (satWindow E ((jobSetup E inFile w).1 j) wj).1.2.1 ≤
        (satWindow E ((jobSetup E inFile w).1 j) wj).1.1)
    (hremove : removesOk E fuel (jobSetup E inFile w).1 (jobCount E inFile w).toNat 0
      (jobSetup E inFile w).2 = true)
    (hfuel : 0 < fuel) :
    ∃ (res : PropagationResults) (w' : World σ),
      RunOneSgp4Job E fuel inFile w = some (res, w') ∧
      res.overallSuccess = true ∧ res.generalError = "" ∧
      res.totalSatellites = jobCount E inFile w ∧
      res.satellites.length = (jobCount E inFile w).toNat ∧
      propTimes w'.log = propTimes w.log := by
  obtain ⟨res, w', h1, h2, h3, h4, h5, h6⟩ :=
    tleLoop_zero_step E fuel (jobSetup E inFile w).1 hfuel
      (jobCount E inFile w).toNat 0
      { overallSuccess := true, totalSatellites := jobCount E inFile w }
      (jobSetup E inFile w).2
      (fun j wj hj hw hi => by
        have := hwin j wj hj hw (by rwa [Nat.zero_add] at hi)
        rwa [Nat.zero_add])
      hremove
  refine ⟨res, jobCleanup E w', ?_, h2, h3, h4, by simpa using h5, ?_⟩
  · rw [RunOneSgp4Job_of_loop E fuel inFile w (by omega) halloc, h1]
    rfl
  · rw [jobCleanup_log, h6, jobSetup_log]

/-- Witness of C6, amended: an engine with a state, two satellites, the step
magnitude 0, a start at the epoch (day 100) and an absolute stop at day 50. -/
theorem RunOneSgp4Job_zero_step_witness :
    (satWindow zeroMixedEngine 1 ws0).1 = (100, 50, 0) ∧
    ∃ (res : PropagationResults) (w' : World (List Int)),
      RunOneSgp4Job zeroMixedEngine 1 "catalogue" ws0 = some (res, w') ∧
      res.overallSuccess = true ∧ res.generalError = "" ∧
      res.totalSatellites = jobCount zeroMixedEngine "catalogue" ws0 ∧
      res.satellites.length = (jobCount zeroMixedEngine "catalogue" ws0).toNat ∧
      propTimes w'.log = propTimes ws0.log :=
  ⟨by decide!,
    RunOneSgp4Job_zero_step zeroMixedEngine 1 "catalogue" ws0 (by decide) rfl
      (fun j wj hj hw _ => by
        have hj2 : j < 2 := hj
        interval_cases j
        · have h : ∃ v, tleWorld zeroMixedEngine 1 (jobSetup zeroMixedEngine "catalogue" ws0).1 0
              (jobSetup zeroMixedEngine "catalogue" ws0).2 0 = some v ∧
              (zeroMixedEngine.Get6P (satEpoch zeroMixedEngine
                ((jobSetup zeroMixedEngine "catalogue" ws0).1 0) v).2.eng).1.stepSize = 0 ∧
              (satWindow zeroMixedEngine ((jobSetup zeroMixedEngine "catalogue" ws0).1 0) v).1.2.1 ≤
                (satWindow zeroMixedEngine
                  ((jobSetup zeroMixedEngine "catalogue" ws0).1 0) v).1.1 := by decide!
          obtain ⟨v, h1, h2⟩ := h
          rw [hw, Option.some.injEq] at h1
          subst h1
          exact h2
        · have h : ∃ v, tleWorld zeroMixedEngine 1 (jobSetup zeroMixedEngine "catalogue" ws0).1 0
              (jobSetup zeroMixedEngine "catalogue" ws0).2 1 = some v ∧
              (zeroMixedEngine.Get6P (satEpoch zeroMixedEngine
                ((jobSetup zeroMixedEngine "catalogue" ws0).1 1) v).2.eng).1.stepSize = 0 ∧
              (satWindow zeroMixedEngine ((jobSetup zeroMixedEngine "catalogue" ws0).1 1) v).1.2.1 ≤
                (satWindow zeroMixedEngine
                  ((jobSetup zeroMixedEngine "catalogue" ws0).1 1) v).1.1 := by decide!
          obtain ⟨v, h1, h2⟩ := h
          rw [hw, Option.some.injEq] at h1
          subst h1
          exact h2)
      (by decide!) (by decide)⟩

/-- C7, counterexample. With a zero step and start < stop the loop does evaluate
instants.  From start 0 to a stop within the tolerance of it, the loop passes
one instant, the stop time, to the propagator; from start 0 to stop 1 it is
still running after 50 iterations. -/
theorem stepLoop_zero_step_evaluates :
    (∃ r, stepLoop okEngine 1 0 (1 / 200000000) 0 2 0 0 sat1 w0 = some r ∧
      propTimes r.2.log = [1 / 200000000]) ∧
    stepSequence 0 (1 / 200000000) 0 2 0 0 = some [1 / 200000000] ∧
    stepLoop okEngine 1 0 1 0 50 0 0 sat1 w0 = none := by
  decide!

/-- C7, amended. For every start and stop with start not before stop, when the
signed step is zero the stepping loop evaluates no instant: with any positive
fuel it exits at once, leaving the record and the call log as they were, and
the instant sequence is empty. -/
theorem stepLoop_zero_step_empty {σ : Type} (E : Engine σ) (satKey : Int)
    (startTime stopTime : ℚ) (fuel : Nat) (satData : SatelliteData) (w : World σ)
    (h : stopTime ≤ startTime) :
    stepLoop E satKey startTime stopTime 0 (fuel + 1) 0 startTime satData w =
      some (satData, w) ∧
    stepSequence startTime stopTime 0 (fuel + 1) 0 startTime = some [] := by
  have hx := loopExit_true_of_ge stopTime 0 startTime le_rfl h
  exact ⟨stepLoop_exit _ _ _ _ _ _ _ _ _ _ hx, by rw [stepSequence_succ, hx]; rfl⟩

/-- Witness of C7, amended: from start 1 back to stop 0 with a zero step. -/
theorem stepLoop_zero_step_empty_witness :
    (0 : ℚ) ≤ 1 ∧
    stepLoop okEngine 1 1 0 0 (0 + 1) 0 1 sat1 w0 = some (sat1, w0) ∧
    stepSequence 1 0 0 (0 + 1) 0 1 = some [] :=
  ⟨by norm_num, stepLoop_zero_step_empty okEngine 1 1 0 0 sat1 w0 (by norm_num)⟩

/-- C11. A step whose propagate call returns status zero is classified by the
height `h` it returns alone.  With `h < 0` the record carries the decay warning,
with `0 ≤ h < 100` the low-height warning; in both cases the record is flagged
and appended, the success flag is cleared and the loop returns, this instant
being the only one it evaluated.  With `100 ≤ h` the record is unflagged and
appended and the loop goes on with the next step. -/
theorem stepLoop_height_classes {σ : Type} (E : Engine σ) (satKey : Int)
    (startTime stopTime stepSize : ℚ) (fuel step : Nat) (ds50UTC : ℚ)
    (satData : SatelliteData) (w : World σ)
    (hcont : loopExit stopTime stepSize ds50UTC = false)
    (hzero : (E.Sgp4PropDs50UTC satKey (stepInstant startTime stopTime stepSize step)
      w.eng).1.errCode = 0) :
    ∃ (stepData : TimeStepData) (w' : World σ) (evs : List Call),
      w'.log = w.log ++ evs ∧
      propTimes evs = [stepInstant startTime stopTime stepSize step] ∧
      stepData.llh = some (E.Sgp4PropDs50UTC satKey
        (stepInstant startTime stopTime stepSize step) w.eng).1.llh ∧
      ((E.Sgp4PropDs50UTC satKey (stepInstant startTime stopTime stepSize step)
          w.eng).1.llh.2.2 < 0 →
        stepData.hasError = true ∧
        stepData.errorMsg =
          "Warning: Decay condition. Distance from the Geoid (Km) = " ++
            E.to_string (E.Sgp4PropDs50UTC satKey
              (stepInstant startTime stopTime stepSize step) w.eng).1.llh.2.2 ∧
        stepLoop E satKey startTime stopTime stepSize (fuel + 1) step ds50UTC satData w =
          some ({ satData with timeSteps := satData.timeSteps ++ [stepData],
                               propagationSuccess := false }, w')) ∧
      (0 ≤ (E.Sgp4PropDs50UTC satKey (stepInstant startTime stopTime stepSize step)
          w.eng).1.llh.2.2 →
        (E.Sgp4PropDs50UTC satKey (stepInstant startTime stopTime stepSize step)
          w.eng).1.llh.2.2 < 100 →
        stepData.hasError = true ∧
        stepData.errorMsg =
          "Warning: Height is low. HT (Km) = " ++
            E.to_string (E.Sgp4PropDs50UTC satKey
              (stepInstant startTime stopTime stepSize step) w.eng).1.llh.2.2 ∧
        stepLoop E satKey startTime stopTime stepSize (fuel + 1) step ds50UTC satData w =
          some ({ satData with timeSteps := satData.timeSteps ++ [stepData],
                               propagationSuccess := false }, w')) ∧
      (100 ≤ (E.Sgp4PropDs50UTC satKey (stepInstant startTime stopTime stepSize step)
          w.eng).1.llh.2.2 →
        stepData.hasError = false ∧
        stepLoop E satKey startTime stopTime stepSize (fuel + 1) step ds50UTC satData w =
          stepLoop E satKey startTime stopTime stepSize fuel (step + 1)
            (stepInstant startTime stopTime stepSize step)
            { satData with timeSteps := satData.timeSteps ++ [stepData] } w') := by
  obtain ⟨evs, hlog, hev⟩ := propStep_propTimes E satKey
    (stepInstant startTime stopTime stepSize step) w
  obtain ⟨hllh, hdecay, hlow, hok⟩ := propStep_zero_status E satKey
    (stepInstant startTime stopTime stepSize step) w hzero
  refine ⟨_, _, evs, hlog, hev, hllh, fun h => ?_, fun h1 h2 => ?_, fun h => ?_⟩
  · obtain ⟨a, b, c⟩ := hdecay h
    refine ⟨b, c, ?_⟩
    rw [stepLoop_succ, hcont, a]
    rfl
  · obtain ⟨a, b, c⟩ := hlow h1 h2
    refine ⟨b, c, ?_⟩
    rw [stepLoop_succ, hcont, a]
    rfl
  · obtain ⟨a, b⟩ := hok h
    refine ⟨b, ?_⟩
    rw [stepLoop_succ, hcont, a]
    rfl

/-- Witness of C11: at step 0 of the window of `heightEngine`, the height 0 gives
the low-height warning (not the decay warning), the height -5 the decay
warning, and the height 100 an unflagged record after which the loop goes on. -/
theorem stepLoop_height_classes_witness :
    (∃ (stepData : TimeStepData) (w' : World Unit),
      stepData.hasError = true ∧
      stepData.errorMsg =
        "Warning: Height is low. HT (Km) = " ++
          (heightEngine 0).to_string (((heightEngine 0).Sgp4PropDs50UTC 1
            (stepInstant 100 (100 + 60 / 1440) 30 0) w0.eng).1.llh.2.2) ∧
      stepLoop (heightEngine 0) 1 100 (100 + 60 / 1440) 30 (3 + 1) 0 100 sat1 w0 =
        some ({ sat1 with timeSteps := sat1.timeSteps ++ [stepData],
                          propagationSuccess := false }, w')) ∧
    (∃ (stepData : TimeStepData) (w' : World Unit),
      stepData.hasError = true ∧
      stepData.errorMsg =
        "Warning: Decay condition. Distance from the Geoid (Km) = " ++
          (heightEngine (-5)).to_string (((heightEngine (-5)).Sgp4PropDs50UTC 1
            (stepInstant 100 (100 + 60 / 1440) 30 0) w0.eng).1.llh.2.2) ∧
      stepLoop (heightEngine (-5)) 1 100 (100 + 60 / 1440) 30 (3 + 1) 0 100 sat1 w0 =
        some ({ sat1 with timeSteps := sat1.timeSteps ++ [stepData],
                          propagationSuccess := false }, w')) ∧
    (∃ (stepData : TimeStepData) (w' : World Unit),
      stepData.hasError = false ∧
      stepLoop (heightEngine 100) 1 100 (100 + 60 / 1440) 30 (3 + 1) 0 100 sat1 w0 =
        stepLoop (heightEngine 100) 1 100 (100 + 60 / 1440) 30 3 (0 + 1)
          (stepInstant 100 (100 + 60 / 1440) 30 0)
          { sat1 with timeSteps := sat1.timeSteps ++ [stepData] } w') := by
  refine ⟨?_, ?_, ?_⟩
  · obtain ⟨sd, w', evs, -, -, -, -, hlow, -⟩ :=
      stepLoop_height_classes (heightEngine 0) 1 100 (100 + 60 / 1440) 30 3 0 100 sat1 w0
        (by decide!) (by decide!)
    exact ⟨sd, w', hlow (by decide!) (by decide!)⟩
  · obtain ⟨sd, w', evs, -, -, -, hdecay, -, -⟩ :=
      stepLoop_height_classes (heightEngine (-5)) 1 100 (100 + 60 / 1440) 30 3 0 100 sat1 w0
        (by decide!) (by decide!)
    exact ⟨sd, w', hdecay (by decide!)⟩
  · obtain ⟨sd, w', evs, -, -, -, -, -, hok⟩ :=
      stepLoop_height_classes (heightEngine 100) 1 100 (100 + 60 / 1440) 30 3 0 100 sat1 w0
        (by decide!) (by decide!)
    exact ⟨sd, w', hok (by decide!)⟩

/-- C12. When the propagate calls of the steps before step `k` of an initialised
object are Ok and the propagate call of step `k` returns a non-zero status,
each in the engine state the run has reached, `runSat` returns with `k + 1`
records.  The last one is flagged and carries the message that `GetLastErrMsg`
returns right after the failed call: its bytes are the bytes of the engine's
buffer before its first NUL byte, at most `LOGMSGLEN - 1` of them.  The success
flag of the object is cleared and no instant after step `k` is evaluated: the
last call for the steps is `GetLastErrMsg`.  The step error does not abort the
batch: when the `Sgp4RemoveSat` call that follows for this object returns zero,
the loop over the satellites appends the result and goes on with the next
object, the batch flags being as they were. -/
theorem tleLoop_step_error {σ : Type} (E : Engine σ) (fuel : Nat) (pSatKeys : Nat → Int)
    (todo i : Nat) (results : PropagationResults) (w : World σ) (k : Nat)
    (hinit : initCode E (pSatKeys i) w = 0)
    (hseq : inSequence (satWindow E (pSatKeys i) w).1.1 (satWindow E (pSatKeys i) w).1.2.1
      (satWindow E (pSatKeys i) w).1.2.2 k)
    (hok : ∀ j, j < k → OkOut (satOut E (pSatKeys i) w j))
    (herr : (satOut E (pSatKeys i) w k).errCode ≠ 0)
    (hfuel : k < fuel)
    (hrem : ∀ (sd : SatelliteData) (w1 : World σ),
      runSat E fuel (pSatKeys i) w = some (sd, true, w1) →
      (E.Sgp4RemoveSat (pSatKeys i) w1.eng).1 = 0) :
    ∃ (sd : SatelliteData) (w1 : World σ) (last : TimeStepData) (evs : List Call),
      runSat E fuel (pSatKeys i) w = some (sd, true, w1) ∧
      sd.timeSteps.length = k + 1 ∧ sd.timeSteps.getLast? = some last ∧
      last.hasError = true ∧
      last.errorMsg = cstr E.LOGMSGLEN (E.GetLastErrMsg (E.Sgp4PropDs50UTC (pSatKeys i)
        (stepInstant (satWindow E (pSatKeys i) w).1.1 (satWindow E (pSatKeys i) w).1.2.1
          (satWindow E (pSatKeys i) w).1.2.2 k) (satWorld E (pSatKeys i) w k).eng).2).1 ∧
      strBytes last.errorMsg =
        (((E.GetLastErrMsg (E.Sgp4PropDs50UTC (pSatKeys i)
          (stepInstant (satWindow E (pSatKeys i) w).1.1 (satWindow E (pSatKeys i) w).1.2.1
            (satWindow E (pSatKeys i) w).1.2.2 k)
          (satWorld E (pSatKeys i) w k).eng).2).1.take (E.LOGMSGLEN - 1)).takeWhile
            fun b => b ≠ 0).map Fin.val ∧
      (∀ r ∈ sd.timeSteps.take k, r.hasError = false) ∧
      sd.propagationSuccess = false ∧
      w1.log = w.log ++ evs ∧
      propTimes evs = (List.range' 0 (k + 1)).map
        (stepInstant (satWindow E (pSatKeys i) w).1.1 (satWindow E (pSatKeys i) w).1.2.1
          (satWindow E (pSatKeys i) w).1.2.2) ∧
      evs.getLast? = some Call.GetLastErrMsg ∧
      tleLoop E fuel pSatKeys (todo + 1) i results w =
        tleLoop E fuel pSatKeys todo (i + 1)
          { results with satellites := results.satellites ++ [sd] }
          (w1.call (Call.Sgp4RemoveSat (pSatKeys i)) (E.Sgp4RemoveSat (pSatKeys i))).2 := by
  obtain ⟨recs, evs, hlen, hall, hlog, hev, hrun⟩ :=
    runSat_reach E (pSatKeys i) w k hinit hseq hok
  rw [satOut_eq] at herr
  obtain ⟨hstop, hflag, hmsg, hlog2⟩ :=
    propStep_error E (pSatKeys i) _ (satWorld E (pSatKeys i) w k) herr
  have hr := hrun fuel hfuel hstop
  have hrem0 := hrem _ _ hr
  refine ⟨_, _, _, evs ++ [Call.Sgp4PropDs50UTC (pSatKeys i)
      (stepInstant (satWindow E (pSatKeys i) w).1.1 (satWindow E (pSatKeys i) w).1.2.1
        (satWindow E (pSatKeys i) w).1.2.2 k), Call.GetLastErrMsg],
    hr, ?_, ?_, hflag, hmsg, ?_, ?_, rfl, ?_, ?_, ?_, ?_⟩
  · simp [hlen]
  · simp
  · rw [hmsg]
    show List.map Char.toNat (List.map _ _) = _
    rw [List.map_map]
    exact List.map_congr_left fun b _ => byte_char b
  · intro r hr'
    rw [List.take_left' hlen] at hr'
    exact hall r hr'
  · rw [hlog2, hlog, List.append_assoc]
  · rw [propTimes_append, hev, List.range'_concat]
    simp [propTimes]
  · simp
  · rw [tleLoop_succ_stepped E fuel pSatKeys todo i results w _ _ hr]
    simp only [hrem0, ne_eq, not_true_eq_false, if_false]

/-- Witness of C12: an engine whose propagator only answers for an initialised
key and fails at step 1 of every satellite.  The record of step 1 carries the
text "engine error", or its first 7 bytes with a message buffer of 8 bytes, and
the batch goes on: both satellites get a result and `overallSuccess` stays
true. -/
theorem tleLoop_step_error_witness :
    (∃ r, runSat shortErrInitEngine 3 1 ws0 = some r ∧
      r.1.timeSteps.map (fun t => (t.hasError, t.errorMsg)) =
        [(false, ""), (true, "engine ")]) ∧
    (∃ r, RunOneSgp4Job errInitEngine 3 "catalogue" ws0 = some r ∧
      r.1.satellites.map
        (fun sd => (sd.satKey, sd.timeSteps.map (fun t => (t.hasError, t.errorMsg)),
          sd.propagationSuccess)) =
          [(1, [(false, ""), (true, "engine error")], false),
            (2, [(false, ""), (true, "engine error")], false)] ∧
      r.1.overallSuccess = true) ∧
    ∃ (sd : SatelliteData) (w1 : World (List Int)) (last : TimeStepData) (evs : List Call),
      runSat errInitEngine 3 ((fun i : Nat => (i : Int) + 1) 0) ws0 = some (sd, true, w1) ∧
      sd.timeSteps.length = 1 + 1 ∧ sd.timeSteps.getLast? = some last ∧
      last.hasError = true ∧
      last.errorMsg = cstr errInitEngine.LOGMSGLEN
        (errInitEngine.GetLastErrMsg (errInitEngine.Sgp4PropDs50UTC
          ((fun i : Nat => (i : Int) + 1) 0)
          (stepInstant
            (satWindow errInitEngine ((fun i : Nat => (i : Int) + 1) 0) ws0).1.1
            (satWindow errInitEngine ((fun i : Nat => (i : Int) + 1) 0) ws0).1.2.1
            (satWindow errInitEngine ((fun i : Nat => (i : Int) + 1) 0) ws0).1.2.2 1)
          (satWorld errInitEngine ((fun i : Nat => (i : Int) + 1) 0) ws0 1).eng).2).1 ∧
      strBytes last.errorMsg =
        (((errInitEngine.GetLastErrMsg (errInitEngine.Sgp4PropDs50UTC
          ((fun i : Nat => (i : Int) + 1) 0)
          (stepInstant
            (satWindow errInitEngine ((fun i : Nat => (i : Int) + 1) 0) ws0).1.1
            (satWindow errInitEngine ((fun i : Nat => (i : Int) + 1) 0) ws0).1.2.1
            (satWindow errInitEngine ((fun i : Nat => (i : Int) + 1) 0) ws0).1.2.2 1)
          (satWorld errInitEngine ((fun i : Nat => (i : Int) + 1) 0) ws0 1).eng).2).1.take
            (errInitEngine.LOGMSGLEN - 1)).takeWhile fun b => b ≠ 0).map Fin.val ∧
      (∀ r ∈ sd.timeSteps.take 1, r.hasError = false) ∧
      sd.propagationSuccess = false ∧
      w1.log = ws0.log ++ evs ∧
      propTimes evs = (List.range' 0 (1 + 1)).map
        (stepInstant
          (satWindow errInitEngine ((fun i : Nat => (i : Int) + 1) 0) ws0).1.1
          (satWindow errInitEngine ((fun i : Nat => (i : Int) + 1) 0) ws0).1.2.1
          (satWindow errInitEngine ((fun i : Nat => (i : Int) + 1) 0) ws0).1.2.2) ∧
      evs.getLast? = some Call.GetLastErrMsg ∧
      tleLoop errInitEngine 3 (fun i : Nat => (i : Int) + 1) (1 + 1) 0
          { overallSuccess := true, totalSatellites := 2 } ws0 =
        tleLoop errInitEngine 3 (fun i : Nat => (i : Int) + 1) 1 (0 + 1)
          { ({ overallSuccess := true, totalSatellites := 2 } : PropagationResults) with
            satellites :=
              ({ overallSuccess := true, totalSatellites := 2 } :
                PropagationResults).satellites ++ [sd] }
          (w1.call (Call.Sgp4RemoveSat ((fun i : Nat => (i : Int) + 1) 0))
            (errInitEngine.Sgp4RemoveSat ((fun i : Nat => (i : Int) + 1) 0))).2 := by
  have hr : ∃ r, runSat errInitEngine 3 1 ws0 = some r ∧
      (errInitEngine.Sgp4RemoveSat 1 r.2.2.eng).1 = 0 := by decide!
  obtain ⟨r, h1, h2⟩ := hr
  exact ⟨by decide!, by decide!,
    tleLoop_step_error errInitEngine 3 (fun i : Nat => (i : Int) + 1) 1 0
      { overallSuccess := true, totalSatellites := 2 } ws0 1 (by decide!) (by decide!)
      (by decide!) (by decide!) (by decide)
      (fun sd w1 h => by
        have e : runSat errInitEngine 3 1 ws0 = some (sd, true, w1) := h
        rw [e, Option.some.injEq] at h1
        subst h1
        exact h2)⟩

/-- C14. In every result of `RunOneSgp4Job`, object result `j` carries the key
at index `j` of the key array, which is the answer of `TleGetLoaded` with the
load order (2) right after the allocation, and its two lines are the lines that
`TleGetLines` returns for that key in the engine state of the call, the state
that the processing of the objects before it has left, cut to the line buffer:
the bytes before the first NUL byte, at most `INPUTCARDLEN - 1` of them. -/
theorem RunOneSgp4Job_catalogue_order {σ : Type} (E : Engine σ) (fuel : Nat)
    (inFile : String) (w : World σ) (res : PropagationResults) (w' : World σ)
    (h : RunOneSgp4Job E fuel inFile w = some (res, w')) :
    ∀ (j : Nat) (sd : SatelliteData), res.satellites[j]? = some sd →
      sd.satKey = (E.TleGetLoaded 2 (jobAlloc E inFile w).2.eng).1 j ∧
      ∃ wj : World σ,
        tleWorld E fuel (jobSetup E inFile w).1 0 (jobSetup E inFile w).2 j = some wj ∧
        sd.line1 = cstr E.INPUTCARDLEN (E.TleGetLines sd.satKey wj.eng).1.1 ∧
        sd.line2 = cstr E.INPUTCARDLEN (E.TleGetLines sd.satKey wj.eng).1.2 ∧
        strBytes sd.line1 =
          (((E.TleGetLines sd.satKey wj.eng).1.1.take (E.INPUTCARDLEN - 1)).takeWhile
            fun b => b ≠ 0).map Fin.val ∧
        strBytes sd.line2 =
          (((E.TleGetLines sd.satKey wj.eng).1.2.take (E.INPUTCARDLEN - 1)).takeWhile
            fun b => b ≠ 0).map Fin.val := by
  intro j sd hj
  rcases RunOneSgp4Job_cases E fuel inFile w res w' h with
    ⟨-, rfl, -⟩ | ⟨-, -, rfl, -⟩ | ⟨-, -, w1, hloop, -⟩
  · simp at hj
  · simp at hj
  · obtain ⟨sds, h1, h2⟩ := tleLoop_world E fuel _ _ 0 _ _ res w1 hloop
    rw [h1, List.nil_append] at hj
    obtain ⟨b, wj, wj', h5, h6⟩ := h2 j sd hj
    rw [Nat.zero_add] at h6
    obtain ⟨a, b', c, -⟩ := runSat_trace E fuel _ wj sd b wj' h6
    have ha : sd.satKey = (E.TleGetLoaded 2 (jobAlloc E inFile w).2.eng).1 j := a
    rw [← a] at b' c
    refine ⟨ha, wj, h5, b', c, ?_, ?_⟩
    · rw [b']
      show List.map Char.toNat (List.map _ _) = _
      rw [List.map_map]
      exact List.map_congr_left fun b _ => byte_char b
    · rw [c]
      show List.map Char.toNat (List.map _ _) = _
      rw [List.map_map]
      exact List.map_congr_left fun b _ => byte_char b

/-- Witness of C14: a catalogue loaded in the order 7, 3, with element lines of
8 bytes that depend on the key and line buffers of 6 bytes.  The two results
carry the keys 7 and 3 and the first 5 bytes of the lines of their key. -/
theorem RunOneSgp4Job_catalogue_order_witness :
    ∃ (res : PropagationResults) (w' : World (List Int)) (sd : SatelliteData),
      RunOneSgp4Job shortLineEngine 4 "catalogue" ws0 = some (res, w') ∧
      res.satellites.map (fun sd => (sd.satKey, sd.line1, sd.line2)) =
        [(7, "1 755", "2 755"), (3, "1 355", "2 355")] ∧
      res.satellites[1]? = some sd ∧
      sd.satKey =
        (shortLineEngine.TleGetLoaded 2 (jobAlloc shortLineEngine "catalogue" ws0).2.eng).1 1 ∧
      ∃ wj : World (List Int),
        tleWorld shortLineEngine 4 (jobSetup shortLineEngine "catalogue" ws0).1 0
          (jobSetup shortLineEngine "catalogue" ws0).2 1 = some wj ∧
        sd.line1 = cstr shortLineEngine.INPUTCARDLEN
          (shortLineEngine.TleGetLines sd.satKey wj.eng).1.1 ∧
        sd.line2 = cstr shortLineEngine.INPUTCARDLEN
          (shortLineEngine.TleGetLines sd.satKey wj.eng).1.2 ∧
        strBytes sd.line1 =
          (((shortLineEngine.TleGetLines sd.satKey wj.eng).1.1.take
            (shortLineEngine.INPUTCARDLEN - 1)).takeWhile fun b => b ≠ 0).map Fin.val ∧
        strBytes sd.line2 =
          (((shortLineEngine.TleGetLines sd.satKey wj.eng).1.2.take
            (shortLineEngine.INPUTCARDLEN - 1)).takeWhile fun b => b ≠ 0).map Fin.val := by
  have h : ∃ r, RunOneSgp4Job shortLineEngine 4 "catalogue" ws0 = some r ∧
      r.1.satellites.map (fun sd => (sd.satKey, sd.line1, sd.line2)) =
        [(7, "1 755", "2 755"), (3, "1 355", "2 355")] ∧
      (r.1.satellites[1]?).isSome = true := by decide!
  obtain ⟨⟨res, w'⟩, h, hk, hs⟩ := h
  obtain ⟨sd, hsd⟩ := Option.isSome_iff_exists.mp hs
  exact ⟨res, w', sd, h, hk, hsd,
    RunOneSgp4Job_catalogue_order shortLineEngine 4 "catalogue" ws0 res w' h 1 sd hsd⟩

/-- C15. When `TleGetCount` reports zero satellites after the catalogue load,
`RunOneSgp4Job` returns at once, whatever the fuel: `overallSuccess` is false,
the batch message is the non-empty text "No TLEs were found in the input file",
there is no object result, `totalSatellites` is 0, and the only engine calls
made are `Sgp4LoadFileAll` and `TleGetCount`. -/
theorem RunOneSgp4Job_empty_catalogue {σ : Type} (E : Engine σ) (fuel : Nat)
    (inFile : String) (w : World σ) (h : jobCount E inFile w = 0) :
    ∃ (res : PropagationResults) (w' : World σ),
      RunOneSgp4Job E fuel inFile w = some (res, w') ∧
      res.overallSuccess = false ∧
      res.generalError = "No TLEs were found in the input file" ∧ res.generalError ≠ "" ∧
      res.satellites = [] ∧ res.totalSatellites = 0 ∧
      w'.log = w.log ++ [Call.Sgp4LoadFileAll inFile, Call.TleGetCount] := by
  refine ⟨_, _, RunOneSgp4Job_of_empty E fuel inFile w h, rfl, rfl, by decide, rfl, rfl, ?_⟩
  simp only [call_log, List.append_assoc, List.singleton_append]

/-- Witness of C15: the engine with an empty catalogue, without any fuel. -/
theorem RunOneSgp4Job_empty_catalogue_witness :
    jobCount emptyEngine "catalogue" w0 = 0 ∧
    ∃ (res : PropagationResults) (w' : World Unit),
      RunOneSgp4Job emptyEngine 0 "catalogue" w0 = some (res, w') ∧
      res.overallSuccess = false ∧
      res.generalError = "No TLEs were found in the input file" ∧ res.generalError ≠ "" ∧
      res.satellites = [] ∧ res.totalSatellites = 0 ∧
      w'.log = w0.log ++ [Call.Sgp4LoadFileAll "catalogue", Call.TleGetCount] :=
  ⟨rfl, RunOneSgp4Job_empty_catalogue emptyEngine 0 "catalogue" w0 rfl⟩

/-- C16. When the key array is allocated and the first failing `Sgp4RemoveSat`
call is the one for the object at catalogue index `i`, `RunOneSgp4Job` returns
with `overallSuccess` false and the non-empty batch message "Failed to remove
satellite from memory".  The returned results are the `i` results that the loop
over the objects `0 .. i - 1` accumulated, followed by the result of object
`i`; and after the failed call the only calls are those of the cleanup, so none
is made for an object of a larger index. -/
theorem RunOneSgp4Job_remove_failure {σ : Type} (E : Engine σ) (fuel : Nat)
    (inFile : String) (w : World σ) (i : Nat)
    (hi : i < (jobCount E inFile w).toNat)
    (halloc : (jobAlloc E inFile w).1 = true)
    (hok : removesOk E fuel (jobSetup E inFile w).1 i 0 (jobSetup E inFile w).2 = true)
    (hfail : removesOk E fuel (jobSetup E inFile w).1 (i + 1) 0 (jobSetup E inFile w).2 = false) :
    ∃ (res : PropagationResults) (w' : World σ) (resI : PropagationResults) (wI : World σ)
      (sd : SatelliteData) (w1 : World σ),
      RunOneSgp4Job E fuel inFile w = some (res, w') ∧
      res.overallSuccess = false ∧
      res.generalError = "Failed to remove satellite from memory" ∧ res.generalError ≠ "" ∧
      tleLoop E fuel (jobSetup E inFile w).1 i 0
        { overallSuccess := true, totalSatellites := jobCount E inFile w }
        (jobSetup E inFile w).2 = some (resI, wI) ∧
      resI.satellites.length = i ∧
      runSat E fuel ((jobSetup E inFile w).1 i) wI = some (sd, true, w1) ∧
      (E.Sgp4RemoveSat ((jobSetup E inFile w).1 i) w1.eng).1 ≠ 0 ∧
      res.satellites = resI.satellites ++ [sd] ∧ res.satellites.length = i + 1 ∧
      w'.log = w1.log ++ [Call.Sgp4RemoveSat ((jobSetup E inFile w).1 i), Call.free,
        Call.TleRemoveAllSats, Call.Sgp4RemoveAllSats] := by
  obtain ⟨resI, wI, sd, w1, e1, e2, e3, e4⟩ :=
    tleLoop_remove_failure E fuel (jobSetup E inFile w).1 i 0
      { overallSuccess := true, totalSatellites := jobCount E inFile w }
      (jobSetup E inFile w).2 hok hfail
  rw [Nat.zero_add] at e2 e3
  obtain ⟨sds, h1, -, -, -, h5⟩ := tleLoop_spec E fuel _ i 0 _ _ resI wI e1
  have hlen : resI.satellites.length = i := by
    rcases h5 with ⟨-, b, -, -⟩ | ⟨a, -, -⟩
    · rw [h1]; simpa using b
    · rw [hok] at a; exact absurd a (by decide)
  have hcount : jobCount E inFile w ≠ 0 := by omega
  obtain ⟨b, hb⟩ := Nat.exists_eq_add_of_le (Nat.succ_le_of_lt hi)
  have hloop := e4 b
  rw [Nat.zero_add] at hloop
  rw [show i + 1 + b = (jobCount E inFile w).toNat by omega] at hloop
  refine ⟨{ resI with
      satellites := resI.satellites ++ [sd],
      overallSuccess := false,
      generalError := "Failed to remove satellite from memory" },
    jobCleanup E (w1.call (Call.Sgp4RemoveSat ((jobSetup E inFile w).1 i))
      (E.Sgp4RemoveSat ((jobSetup E inFile w).1 i))).2,
    resI, wI, sd, w1, ?_, rfl, rfl, ?_, e1, hlen, e2, e3, rfl, ?_, ?_⟩
  · rw [RunOneSgp4Job_of_loop E fuel inFile w hcount halloc, hloop]
    rfl
  · show "Failed to remove satellite from memory" ≠ ""
    decide
  · simp [hlen]
  · simp only [jobCleanup, call_log, List.append_assoc, List.singleton_append,
      List.nil_append, List.cons_append]

/-- Witness of C16: three satellites, and `Sgp4RemoveSat` fails for the key 2
at index 1. -/
theorem RunOneSgp4Job_remove_failure_witness :
    ∃ (res : PropagationResults) (w' : World Unit) (resI : PropagationResults)
      (wI : World Unit) (sd : SatelliteData) (w1 : World Unit),
      RunOneSgp4Job (removeEngine fun k => if k = 2 then 1 else 0) 4 "catalogue" w0 =
        some (res, w') ∧
      res.overallSuccess = false ∧
      res.generalError = "Failed to remove satellite from memory" ∧ res.generalError ≠ "" ∧
      tleLoop (removeEngine fun k => if k = 2 then 1 else 0) 4
        (jobSetup (removeEngine fun k => if k = 2 then 1 else 0) "catalogue" w0).1 1 0
        { overallSuccess := true,
          totalSatellites :=
            jobCount (removeEngine fun k => if k = 2 then 1 else 0) "catalogue" w0 }
        (jobSetup (removeEngine fun k => if k = 2 then 1 else 0) "catalogue" w0).2 =
          some (resI, wI) ∧
      resI.satellites.length = 1 ∧
      runSat (removeEngine fun k => if k = 2 then 1 else 0) 4
        ((jobSetup (removeEngine fun k => if k = 2 then 1 else 0) "catalogue" w0).1 1) wI =
          some (sd, true, w1) ∧
      ((removeEngine fun k => if k = 2 then 1 else 0).Sgp4RemoveSat
        ((jobSetup (removeEngine fun k => if k = 2 then 1 else 0) "catalogue" w0).1 1)
        w1.eng).1 ≠ 0 ∧
      res.satellites = resI.satellites ++ [sd] ∧ res.satellites.length = 1 + 1 ∧
      w'.log = w1.log ++
        [Call.Sgp4RemoveSat
          ((jobSetup (removeEngine fun k => if k = 2 then 1 else 0) "catalogue" w0).1 1),
          Call.free, Call.TleRemoveAllSats, Call.Sgp4RemoveAllSats] :=
  RunOneSgp4Job_remove_failure (removeEngine fun k => if k = 2 then 1 else 0) 4 "catalogue"
    w0 1 (by decide) (by decide!) (by decide!) (by decide!)

/-- C17. In every result of `RunOneSgp4Job`, `overallSuccess` is true if and
only if the batch setup succeeded (the catalogue is not empty and the key array
is allocated) and no `Sgp4RemoveSat` call of the run returned a non-zero
status.  No success flag of an object enters this condition. -/
theorem RunOneSgp4Job_overallSuccess {σ : Type} (E : Engine σ) (fuel : Nat)
    (inFile : String) (w : World σ) (res : PropagationResults) (w' : World σ)
    (h : RunOneSgp4Job E fuel inFile w = some (res, w')) :
    res.overallSuccess = true ↔
      jobCount E inFile w ≠ 0 ∧ (jobAlloc E inFile w).1 = true ∧
      removesOk E fuel (jobSetup E inFile w).1 (jobCount E inFile w).toNat 0
        (jobSetup E inFile w).2 = true := by
  rcases RunOneSgp4Job_cases E fuel inFile w res w' h with
    ⟨hc, rfl, -⟩ | ⟨-, ha, rfl, -⟩ | ⟨hc, ha, w1, hloop, -⟩
  · constructor
    · intro h1; exact (Bool.false_ne_true h1).elim
    · intro h1; exact absurd hc h1.1
  · constructor
    · intro h1; exact (Bool.false_ne_true h1).elim
    · intro h1; rw [ha] at h1; exact (Bool.false_ne_true h1.2.1).elim
  · obtain ⟨sds, -, -, -, -, h5⟩ := tleLoop_spec E fuel _ _ 0 _ _ res w1 hloop
    rcases h5 with ⟨a, -, c, -⟩ | ⟨a, c, -⟩
    · exact ⟨fun _ => ⟨hc, ha, a⟩, fun _ => c⟩
    · constructor
      · intro h1; rw [c] at h1; exact absurd h1 (by decide)
      · intro h1; rw [a] at h1; exact absurd h1.2.2 (by decide)

/-- Witness of C17: a batch in which every object fails its initialisation and
a batch in which every object hits a step error both have `overallSuccess`
true, with all object success flags cleared. -/
theorem RunOneSgp4Job_overallSuccess_witness :
    (∃ (res : PropagationResults) (w' : World Unit),
      RunOneSgp4Job initFailEngine 3 "catalogue" w0 = some (res, w') ∧
      res.satellites.map (fun sd => sd.propagationSuccess) = [false, false] ∧
      res.overallSuccess = true ∧
      (res.overallSuccess = true ↔
        jobCount initFailEngine "catalogue" w0 ≠ 0 ∧
        (jobAlloc initFailEngine "catalogue" w0).1 = true ∧
        removesOk initFailEngine 3 (jobSetup initFailEngine "catalogue" w0).1
          (jobCount initFailEngine "catalogue" w0).toNat 0
          (jobSetup initFailEngine "catalogue" w0).2 = true)) ∧
    (∃ (res : PropagationResults) (w' : World Unit),
      RunOneSgp4Job (errEngine fun _ => 0) 3 "catalogue" w0 = some (res, w') ∧
      res.satellites.map (fun sd => sd.propagationSuccess) = [false, false] ∧
      res.overallSuccess = true ∧
      (res.overallSuccess = true ↔
        jobCount (errEngine fun _ => 0) "catalogue" w0 ≠ 0 ∧
        (jobAlloc (errEngine fun _ => 0) "catalogue" w0).1 = true ∧
        removesOk (errEngine fun _ => 0) 3 (jobSetup (errEngine fun _ => 0) "catalogue" w0).1
          (jobCount (errEngine fun _ => 0) "catalogue" w0).toNat 0
          (jobSetup (errEngine fun _ => 0) "catalogue" w0).2 = true)) := by
  have h1 : ∃ r, RunOneSgp4Job initFailEngine 3 "catalogue" w0 = some r ∧
      r.1.satellites.map (fun sd => sd.propagationSuccess) = [false, false] ∧
      r.1.overallSuccess = true := by decide!
  have h2 : ∃ r, RunOneSgp4Job (errEngine fun _ => 0) 3 "catalogue" w0 = some r ∧
      r.1.satellites.map (fun sd => sd.propagationSuccess) = [false, false] ∧
      r.1.overallSuccess = true := by decide!
  obtain ⟨⟨res1, w1⟩, e1, f1, g1⟩ := h1
  obtain ⟨⟨res2, w2⟩, e2, f2, g2⟩ := h2
  exact ⟨⟨res1, w1, e1, f1, g1,
      RunOneSgp4Job_overallSuccess initFailEngine 3 "catalogue" w0 res1 w1 e1⟩,
    ⟨res2, w2, e2, f2, g2,
      RunOneSgp4Job_overallSuccess (errEngine fun _ => 0) 3 "catalogue" w0 res2 w2 e2⟩⟩

/-- C18, counterexample. A non-empty catalogue of two objects in which no remove
call fails, and a batch without any object result: the allocation of the key
array fails, and `RunOneSgp4Job` returns before the loop over the satellites,
whatever the fuel. -/
theorem RunOneSgp4Job_alloc_failure_no_results :
    jobCount (allocFailEngine [1, 2]) "catalogue" ws0 = 2 ∧
    ∀ fuel : Nat, ∃ r, RunOneSgp4Job (allocFailEngine [1, 2]) fuel "catalogue" ws0 = some r ∧
      r.1.satellites = [] ∧ r.1.totalSatellites = 2 ∧ r.1.overallSuccess = false ∧
      r.1.generalError = "Memory allocation failed for satellite keys" ∧
      removeCalls r.2.log = [] ∧
      r.2.log = [Call.Sgp4LoadFileAll "catalogue", Call.TleGetCount, Call.malloc 2] :=
  ⟨by decide, fun _ => ⟨_, rfl, by decide⟩⟩

/-- C18, amended. Object-scoped failures are contained.  Take a non-empty
catalogue of `n` objects whose key array is allocated, a run in which none of
the remove calls it makes fails and each stepping loop it enters returns, and
let `Sgp4InitSat` and the propagator answer as they will.  Then `RunOneSgp4Job`
returns, with `overallSuccess` true, an empty batch message and exactly `n`
object results.  Object result `j` is what `runSat` computes for the key of
object `j` in the engine state that the objects before it have left.  It is the
same in any other batch that returns, of any engine that answers alike for this
key, whatever this engine answers for the other keys, provided the processing
of the object starts there in the same engine state: the driver carries nothing
from one object to the next but the engine state. -/
theorem RunOneSgp4Job_contained {σ : Type} (E : Engine σ) (fuel : Nat) (inFile : String)
    (w : World σ)
    (hcount : 0 < jobCount E inFile w)
    (halloc : (jobAlloc E inFile w).1 = true)
    (hremove : removesOk E fuel (jobSetup E inFile w).1 (jobCount E inFile w).toNat 0
      (jobSetup E inFile w).2 = true)
    (hret : ∀ (j : Nat) (wj : World σ), j < (jobCount E inFile w).toNat →
      tleWorld E fuel (jobSetup E inFile w).1 0 (jobSetup E inFile w).2 j = some wj →
      (runSat E fuel ((jobSetup E inFile w).1 j) wj).isSome = true) :
    ∃ (res : PropagationResults) (w' : World σ),
      RunOneSgp4Job E fuel inFile w = some (res, w') ∧
      res.overallSuccess = true ∧ res.generalError = "" ∧
      res.totalSatellites = jobCount E inFile w ∧
      res.satellites.length = (jobCount E inFile w).toNat ∧
      ∀ (j : Nat) (sd : SatelliteData), res.satellites[j]? = some sd →
        ∃ (b : Bool) (wj wj' : World σ),
          tleWorld E fuel (jobSetup E inFile w).1 0 (jobSetup E inFile w).2 j = some wj ∧
          runSat E fuel ((jobSetup E inFile w).1 j) wj = some (sd, b, wj') ∧
          ∀ (E1 : Engine σ) (inFile1 : String) (v : World σ) (res1 : PropagationResults)
            (v' vj : World σ) (sd1 : SatelliteData),
            RunOneSgp4Job E1 fuel inFile1 v = some (res1, v') →
            (jobSetup E1 inFile1 v).1 j = (jobSetup E inFile w).1 j →
            AgreeOn E E1 ((jobSetup E inFile w).1 j) →
            tleWorld E1 fuel (jobSetup E1 inFile1 v).1 0 (jobSetup E1 inFile1 v).2 j = some vj →
            vj.eng = wj.eng →
            res1.satellites[j]? = some sd1 → sd1 = sd := by
  have hne : jobCount E inFile w ≠ 0 := by omega
  obtain ⟨res, w1, hloop⟩ := tleLoop_isSome E fuel (jobSetup E inFile w).1
    (jobCount E inFile w).toNat 0
    { overallSuccess := true, totalSatellites := jobCount E inFile w }
    (jobSetup E inFile w).2 hremove
    (fun j wj hj hw => by rw [Nat.zero_add]; exact hret j wj hj hw)
  obtain ⟨sds, h1, h2, -, -, h5⟩ := tleLoop_spec E fuel _ _ 0 _ _ res w1 hloop
  obtain ⟨sds', h1', hw⟩ := tleLoop_world E fuel _ _ 0 _ _ res w1 hloop
  have hsat : res.satellites = sds := by rw [h1]; rfl
  have hsat' : res.satellites = sds' := by rw [h1']; rfl
  rcases h5 with ⟨-, hlen, hsucc, hmsg⟩ | ⟨hbad, -, -⟩
  · refine ⟨res, jobCleanup E w1, ?_, hsucc, hmsg, h2, by rw [hsat, hlen], ?_⟩
    · rw [RunOneSgp4Job_of_loop E fuel inFile w hne halloc, hloop]
      rfl
    · intro j sd hj
      rw [hsat'] at hj
      obtain ⟨b, wj, wj', e1, e2⟩ := hw j sd hj
      rw [Nat.zero_add] at e2
      refine ⟨b, wj, wj', e1, e2, ?_⟩
      intro E1 inFile1 v res1 v' vj sd1 hrun hkey hagree hvj heng hj1
      rcases RunOneSgp4Job_cases E1 fuel inFile1 v res1 v' hrun with
        ⟨-, rfl, -⟩ | ⟨-, -, rfl, -⟩ | ⟨-, -, v1, hloop1, -⟩
      · simp at hj1
      · simp at hj1
      · obtain ⟨sds1, g1, g2⟩ := tleLoop_world E1 fuel _ _ 0 _ _ res1 v1 hloop1
        rw [g1, List.nil_append] at hj1
        obtain ⟨b1, uj, uj', f1, f2⟩ := g2 j sd1 hj1
        rw [hvj, Option.some.injEq] at f1
        subst f1
        rw [Nat.zero_add, hkey] at f2
        have := runSat_congr E E1 fuel ((jobSetup E inFile w).1 j) wj vj hagree heng.symm
        rw [e2, f2] at this
        simp only [satResult, Option.map_some', Option.some.injEq, Prod.mk.injEq] at this
        exact this.1.symm
  · rw [hremove] at hbad
    exact absurd hbad (by decide)

/-- The engine `mixedInitEngine` and the engine `cleanInitEngine` answer alike
for the key 3. -/
theorem mixed_clean_agree : AgreeOn mixedInitEngine cleanInitEngine 3 where
  cardLen := rfl
  msgLen := rfl
  strLen := rfl
  epochField := rfl
  oscKep := rfl
  meanKep := rfl
  nodalApPer := rfl
  lines := rfl
  initSat := rfl
  errMsg := rfl
  field := rfl
  dtg := rfl
  card := rfl
  prop := by
    funext t s
    simp [mixedInitEngine, cleanInitEngine, initEngine]
  propOut := rfl
  aton := rfl
  str := rfl

/-- Witness of C18, amended: three objects, of which the first fails its
initialisation and the second hits a step error, on an engine with a state.  The
batch returns three results, and the result of the third object is the one it
has in the batch of the engine `cleanInitEngine`, in which no object fails. -/
theorem RunOneSgp4Job_contained_witness :
    ∃ (res : PropagationResults) (w' : World (List Int)) (res1 : PropagationResults)
      (v' : World (List Int)) (sd : SatelliteData),
      RunOneSgp4Job mixedInitEngine 4 "catalogue" ws0 = some (res, w') ∧
      RunOneSgp4Job cleanInitEngine 4 "catalogue" ws0 = some (res1, v') ∧
      res.overallSuccess = true ∧ res.generalError = "" ∧
      res.totalSatellites = 3 ∧ res.satellites.length = 3 ∧
      res.satellites.map (fun sd => (sd.satKey, sd.timeSteps.length, sd.propagationSuccess)) =
        [(1, 1, false), (2, 2, false), (3, 3, true)] ∧
      res1.satellites.map (fun sd => (sd.satKey, sd.timeSteps.length, sd.propagationSuccess)) =
        [(1, 3, true), (2, 3, true), (3, 3, true)] ∧
      res.satellites[2]? = some sd ∧ res1.satellites[2]? = some sd := by
  obtain ⟨res, w', h1, h2, h3, h4, h5, h6⟩ :=
    RunOneSgp4Job_contained mixedInitEngine 4 "catalogue" ws0 (by decide) rfl (by decide!)
      (fun j wj hj hw => by
        have hj3 : j < 3 := hj
        interval_cases j
        · have h : ∃ v, tleWorld mixedInitEngine 4 (jobSetup mixedInitEngine "catalogue" ws0).1 0
              (jobSetup mixedInitEngine "catalogue" ws0).2 0 = some v ∧
              (runSat mixedInitEngine 4 ((jobSetup mixedInitEngine "catalogue" ws0).1 0)
                v).isSome = true := by decide!
          obtain ⟨v, e1, e2⟩ := h
          rw [hw, Option.some.injEq] at e1
          subst e1
          exact e2
        · have h : ∃ v, tleWorld mixedInitEngine 4 (jobSetup mixedInitEngine "catalogue" ws0).1 0
              (jobSetup mixedInitEngine "catalogue" ws0).2 1 = some v ∧
              (runSat mixedInitEngine 4 ((jobSetup mixedInitEngine "catalogue" ws0).1 1)
                v).isSome = true := by decide!
          obtain ⟨v, e1, e2⟩ := h
          rw [hw, Option.some.injEq] at e1
          subst e1
          exact e2
        · have h : ∃ v, tleWorld mixedInitEngine 4 (jobSetup mixedInitEngine "catalogue" ws0).1 0
              (jobSetup mixedInitEngine "catalogue" ws0).2 2 = some v ∧
              (runSat mixedInitEngine 4 ((jobSetup mixedInitEngine "catalogue" ws0).1 2)
                v).isSome = true := by decide!
          obtain ⟨v, e1, e2⟩ := h
          rw [hw, Option.some.injEq] at e1
          subst e1
          exact e2)
  have hc : ∃ r, RunOneSgp4Job cleanInitEngine 4 "catalogue" ws0 = some r ∧
      r.1.satellites.map (fun sd => (sd.satKey, sd.timeSteps.length, sd.propagationSuccess)) =
        [(1, 3, true), (2, 3, true), (3, 3, true)] ∧
      (r.1.satellites[2]?).isSome = true := by decide!
  obtain ⟨⟨res1, v'⟩, g1, g2, g3⟩ := hc
  obtain ⟨sd1, g3⟩ := Option.isSome_iff_exists.mp g3
  have hm : ∃ r, RunOneSgp4Job mixedInitEngine 4 "catalogue" ws0 = some r ∧
      r.1.satellites.map (fun sd => (sd.satKey, sd.timeSteps.length, sd.propagationSuccess)) =
        [(1, 1, false), (2, 2, false), (3, 3, true)] := by decide!
  obtain ⟨r, m1, m2⟩ := hm
  rw [h1, Option.some.injEq] at m1
  subst m1
  have hlen : 2 < res.satellites.length := by rw [h5]; decide
  obtain ⟨b, wj, wj', e1, -, e3⟩ := h6 2 res.satellites[2] (List.getElem?_eq_getElem hlen)
  have hv : ∃ v, tleWorld cleanInitEngine 4 (jobSetup cleanInitEngine "catalogue" ws0).1 0
      (jobSetup cleanInitEngine "catalogue" ws0).2 2 = some v ∧
      ∃ u, tleWorld mixedInitEngine 4 (jobSetup mixedInitEngine "catalogue" ws0).1 0
        (jobSetup mixedInitEngine "catalogue" ws0).2 2 = some u ∧ v.eng = u.eng := by decide!
  obtain ⟨vj, f1, u, f2, f3⟩ := hv
  rw [e1, Option.some.injEq] at f2
  subst f2
  have := e3 cleanInitEngine "catalogue" ws0 res1 v' vj sd1 g1 rfl mixed_clean_agree f1 f3 g3
  rw [this] at g3
  exact ⟨res, w', res1, v', res.satellites[2], h1, g1, h2, h3, h4, h5, m2, g2,
    List.getElem?_eq_getElem hlen, g3⟩

/-- C25. In every returning run of the stepping loop, the instant passed to the
propagator at index `i` is computed from the index, not by accumulation: with
`raw = start + i * step / 1440` and the tolerance `EPSI / 86400` days, where
`EPSI = 0.00050`, it is the stop time when `raw + tol > stop` (step ≥ 0) or
`raw - tol < stop` (step < 0), and `raw` otherwise.  There is one propagate call
per appended record. -/
theorem stepLoop_instant_formula {σ : Type} (E : Engine σ) (satKey : Int)
    (startTime stopTime stepSize : ℚ) (fuel : Nat) (satData : SatelliteData) (w : World σ)
    (sd : SatelliteData) (w' : World σ)
    (hrun : stepLoop E satKey startTime stopTime stepSize fuel 0 startTime satData w =
      some (sd, w')) :
    EPSI = 5 / 10000 ∧
    ∃ evs : List Call, w'.log = w.log ++ evs ∧
      satData.timeSteps.length + (propTimes evs).length = sd.timeSteps.length ∧
      ∀ (i : Nat) (t : ℚ), (propTimes evs)[i]? = some t →
        t = if (stepSize ≥ 0 ∧
                startTime + (i : ℚ) * stepSize / 1440 + EPSI / 86400 > stopTime) ∨
              (stepSize < 0 ∧
                startTime + (i : ℚ) * stepSize / 1440 - EPSI / 86400 < stopTime)
            then stopTime
            else startTime + (i : ℚ) * stepSize / 1440 := by
  obtain ⟨recs, evs, h1, -, -, -, hlog, hev, -, -, -⟩ :=
    stepLoop_trace E satKey startTime stopTime stepSize fuel 0 satData w sd w' hrun
  refine ⟨by norm_num [EPSI], evs, hlog, ?_, fun i t ht => ?_⟩
  · rw [hev, h1]
    simp
  · rw [hev, List.getElem?_map] at ht
    cases hr : (List.range' 0 recs.length)[i]? with
    | none => rw [hr] at ht; simp at ht
    | some a =>
      rw [hr, Option.map_some', Option.some.injEq] at ht
      obtain ⟨hlt, ha⟩ := List.getElem?_eq_some.mp hr
      rw [List.getElem_range'] at ha
      have hai : a = i := by omega
      rw [← ht, hai]
      rfl

/-- Witness of C25: the run of the first three steps over the window of
`okEngine`, from day 100 in steps of 30 minutes. -/
theorem stepLoop_instant_formula_witness :
    ∃ (sd : SatelliteData) (w' : World Unit),
      stepLoop okEngine 1 100 (100 + 60 / 1440) 30 4 0 100 sat1 w0 = some (sd, w') ∧
      sd.timeSteps.length = 3 ∧
      EPSI = 5 / 10000 ∧
      ∃ evs : List Call, w'.log = w0.log ++ evs ∧
        sat1.timeSteps.length + (propTimes evs).length = sd.timeSteps.length ∧
        ∀ (i : Nat) (t : ℚ), (propTimes evs)[i]? = some t →
          t = if ((30 : ℚ) ≥ 0 ∧
                  100 + (i : ℚ) * 30 / 1440 + EPSI / 86400 > 100 + 60 / 1440) ∨
                ((30 : ℚ) < 0 ∧
                  100 + (i : ℚ) * 30 / 1440 - EPSI / 86400 < 100 + 60 / 1440)
              then 100 + 60 / 1440
              else 100 + (i : ℚ) * 30 / 1440 := by
  have h : ∃ r, stepLoop okEngine 1 100 (100 + 60 / 1440) 30 4 0 100 sat1 w0 = some r ∧
      r.1.timeSteps.length = 3 := by decide!
  obtain ⟨⟨sd, w'⟩, h, hlen⟩ := h
  have := stepLoop_instant_formula okEngine 1 100 (100 + 60 / 1440) 30 4 sat1 w0 sd w' h
  exact ⟨sd, w', h, hlen, this.1, this.2⟩

/-- C26. For every window resolved by `CalcStartStopTime`, whatever the step
magnitude, the instant of every step index lies between the start and the stop,
so the loop never evaluates an instant beyond the stop, also when the step does
not divide the window; and the instants that a returning run of the stepping
loop passes to the propagator all lie between the start and the stop. -/
theorem stepLoop_instants_within {σ : Type} (E : Engine σ) (epoch : ℚ) (w : World σ) :
    (∀ i : Nat,
      min (CalcStartStopTime E epoch w).1.1 (CalcStartStopTime E epoch w).1.2.1 ≤
        stepInstant (CalcStartStopTime E epoch w).1.1 (CalcStartStopTime E epoch w).1.2.1
          (CalcStartStopTime E epoch w).1.2.2 i ∧
      stepInstant (CalcStartStopTime E epoch w).1.1 (CalcStartStopTime E epoch w).1.2.1
          (CalcStartStopTime E epoch w).1.2.2 i ≤
        max (CalcStartStopTime E epoch w).1.1 (CalcStartStopTime E epoch w).1.2.1) ∧
    ∀ (satKey : Int) (fuel : Nat) (satData : SatelliteData) (w1 : World σ)
      (sd : SatelliteData) (w' : World σ),
      stepLoop E satKey (CalcStartStopTime E epoch w).1.1
        (CalcStartStopTime E epoch w).1.2.1 (CalcStartStopTime E epoch w).1.2.2 fuel 0
        (CalcStartStopTime E epoch w).1.1 satData w1 = some (sd, w') →
      ∃ evs : List Call, w'.log = w1.log ++ evs ∧
        ∀ t ∈ propTimes evs,
          min (CalcStartStopTime E epoch w).1.1 (CalcStartStopTime E epoch w).1.2.1 ≤ t ∧
          t ≤ max (CalcStartStopTime E epoch w).1.1 (CalcStartStopTime E epoch w).1.2.1 := by
  have hall : ∀ i : Nat,
      min (CalcStartStopTime E epoch w).1.1 (CalcStartStopTime E epoch w).1.2.1 ≤
        stepInstant (CalcStartStopTime E epoch w).1.1 (CalcStartStopTime E epoch w).1.2.1
          (CalcStartStopTime E epoch w).1.2.2 i ∧
      stepInstant (CalcStartStopTime E epoch w).1.1 (CalcStartStopTime E epoch w).1.2.1
          (CalcStartStopTime E epoch w).1.2.2 i ≤
        max (CalcStartStopTime E epoch w).1.1 (CalcStartStopTime E epoch w).1.2.1 := by
    intro i
    rw [CalcStartStopTime_step]
    exact stepInstant_within _ _ _ i
  refine ⟨hall, fun satKey fuel satData w1 sd w' hrun => ?_⟩
  obtain ⟨recs, evs, -, -, -, -, hlog, hev, -, -, -⟩ :=
    stepLoop_trace E satKey _ _ _ fuel 0 satData w1 sd w' hrun
  refine ⟨evs, hlog, fun t ht => ?_⟩
  rw [hev] at ht
  obtain ⟨i, -, rfl⟩ := List.mem_map.mp ht
  exact hall i

/-- Witness of C26: a step of 45 minutes over a window of 60 minutes.  The raw
instant of step 2 would lie 30 minutes beyond the stop; the instants passed to
the propagator are the start, 45 minutes later, and the stop. -/
theorem stepLoop_instants_within_witness :
    ∃ (sd : SatelliteData) (w' : World Unit),
      stepLoop overshootEngine 1 (CalcStartStopTime overshootEngine 100 w0).1.1
        (CalcStartStopTime overshootEngine 100 w0).1.2.1
        (CalcStartStopTime overshootEngine 100 w0).1.2.2 4 0
        (CalcStartStopTime overshootEngine 100 w0).1.1 sat1 w0 = some (sd, w') ∧
      propTimes w'.log = [100, 100 + 45 / 1440, 100 + 60 / 1440] ∧
      ∃ evs : List Call, w'.log = w0.log ++ evs ∧
        ∀ t ∈ propTimes evs,
          min (CalcStartStopTime overshootEngine 100 w0).1.1
            (CalcStartStopTime overshootEngine 100 w0).1.2.1 ≤ t ∧
          t ≤ max (CalcStartStopTime overshootEngine 100 w0).1.1
            (CalcStartStopTime overshootEngine 100 w0).1.2.1 := by
  have h : ∃ r, stepLoop overshootEngine 1 (CalcStartStopTime overshootEngine 100 w0).1.1
      (CalcStartStopTime overshootEngine 100 w0).1.2.1
      (CalcStartStopTime overshootEngine 100 w0).1.2.2 4 0
      (CalcStartStopTime overshootEngine 100 w0).1.1 sat1 w0 = some r ∧
      propTimes r.2.log = [100, 100 + 45 / 1440, 100 + 60 / 1440] := by decide!
  obtain ⟨⟨sd, w'⟩, h, ht⟩ := h
  exact ⟨sd, w', h, ht,
    (stepLoop_instants_within overshootEngine 100 w0).2 1 4 sat1 w0 sd w' h⟩

/-- C27. For an initialised object whose resolved start equals its resolved
stop, whatever the step magnitude, the stepping loop evaluates no instant:
`runSat` returns with any positive fuel, the propagator is never called, the
record list of the object is empty and its success flag is set. -/
theorem runSat_empty_window {σ : Type} (E : Engine σ) (fuel : Nat) (satKey : Int)
    (w : World σ) (hinit : initCode E satKey w = 0)
    (heq : (satWindow E satKey w).1.1 = (satWindow E satKey w).1.2.1)
    (hfuel : 0 < fuel) :
    ∃ (sd : SatelliteData) (w' : World σ),
      runSat E fuel satKey w = some (sd, true, w') ∧
      sd.timeSteps = [] ∧ sd.propagationSuccess = true ∧
      propTimes w'.log = propTimes w.log := by
  have hstep : 0 ≤ (satWindow E satKey w).1.2.2 := by
    have hs : (satWindow E satKey w).1.2.2 =
        if (satWindow E satKey w).1.1 > (satWindow E satKey w).1.2.1 then
          -|(E.Get6P (satEpoch E satKey w).2.eng).1.stepSize|
        else |(E.Get6P (satEpoch E satKey w).2.eng).1.stepSize| := rfl
    rw [hs, if_neg (by rw [heq]; exact lt_irrefl _)]
    exact abs_nonneg _
  obtain ⟨recs, w', evs, hlen, -, hlog, hev, hrun⟩ :=
    runSat_complete E satKey w 0 hinit (fun j h => absurd h (Nat.not_lt_zero j))
      (loopExit_true_of_ge _ _ _ hstep heq.ge)
      (fun j h => absurd h (Nat.not_lt_zero j))
  refine ⟨_, w', hrun fuel hfuel, List.length_eq_zero.mp hlen, rfl, ?_⟩
  rw [hlog, propTimes_append, hev]
  simp

/-- Witness of C27: the first satellite of `emptyWindowEngine`, whose window
runs from the epoch to the epoch with the step magnitude 30. -/
theorem runSat_empty_window_witness :
    initCode emptyWindowEngine 1 w0 = 0 ∧
    (satWindow emptyWindowEngine 1 w0).1.1 = (satWindow emptyWindowEngine 1 w0).1.2.1 ∧
    ∃ (sd : SatelliteData) (w' : World Unit),
      runSat emptyWindowEngine 1 1 w0 = some (sd, true, w') ∧
      sd.timeSteps = [] ∧ sd.propagationSuccess = true ∧
      propTimes w'.log = propTimes w0.log :=
  ⟨by decide!, by decide!,
    runSat_empty_window emptyWindowEngine 1 1 w0 (by decide!) (by decide!) (by decide)⟩

/-- C28. An engine error takes precedence over the height classification.  At a
step whose propagate call returns a non-zero status, whatever the height it
reports, the loop appends a flagged record whose message is the text that
`GetLastErrMsg` returns right after the call, never a warning text: the bytes
of the message are the bytes of the engine's buffer before its first NUL byte,
at most `LOGMSGLEN - 1` of them.  The loop clears the success flag and returns.
The derived elements are not queried: after the propagate call the only call is
`GetLastErrMsg`, and the derived fields of the record stay unset. -/
theorem stepLoop_error_precedence {σ : Type} (E : Engine σ) (satKey : Int)
    (startTime stopTime stepSize : ℚ) (fuel step : Nat) (ds50UTC : ℚ)
    (satData : SatelliteData) (w : World σ)
    (hcont : loopExit stopTime stepSize ds50UTC = false)
    (herr : (E.Sgp4PropDs50UTC satKey (stepInstant startTime stopTime stepSize step)
      w.eng).1.errCode ≠ 0) :
    ∃ (stepData : TimeStepData) (w' : World σ),
      stepLoop E satKey startTime stopTime stepSize (fuel + 1) step ds50UTC satData w =
        some ({ satData with timeSteps := satData.timeSteps ++ [stepData],
                             propagationSuccess := false }, w') ∧
      stepData.hasError = true ∧
      stepData.errorMsg = cstr E.LOGMSGLEN (E.GetLastErrMsg (E.Sgp4PropDs50UTC satKey
        (stepInstant startTime stopTime stepSize step) w.eng).2).1 ∧
      strBytes stepData.errorMsg =
        (((E.GetLastErrMsg (E.Sgp4PropDs50UTC satKey
          (stepInstant startTime stopTime stepSize step) w.eng).2).1.take
            (E.LOGMSGLEN - 1)).takeWhile fun b => b ≠ 0).map Fin.val ∧
      stepData.llh = some (E.Sgp4PropDs50UTC satKey
        (stepInstant startTime stopTime stepSize step) w.eng).1.llh ∧
      stepData.meanKep = none ∧ stepData.oscKep = none ∧ stepData.nodalApPer = none ∧
      stepData.meanMotion = none ∧
      w'.log = w.log ++ [Call.Sgp4PropDs50UTC satKey
        (stepInstant startTime stopTime stepSize step), Call.GetLastErrMsg] := by
  obtain ⟨hstop, hflag, hmsg, hlog⟩ := propStep_error E satKey _ w herr
  obtain ⟨h1, h2, h3, h4⟩ := propStep_error_fields E satKey _ w herr
  refine ⟨(propStep E satKey (stepInstant startTime stopTime stepSize step) w).1,
    (propStep E satKey (stepInstant startTime stopTime stepSize step) w).2.2,
    ?_, hflag, hmsg, ?_, ?_, h1, h2, h3, h4, hlog⟩
  · rw [stepLoop_succ, hcont, hstop]
    rfl
  · rw [hmsg]
    show List.map Char.toNat (List.map _ _) = _
    rw [List.map_map]
    exact List.map_congr_left fun b _ => byte_char b
  · simp only [propStep, call_fst, ne_eq, herr, not_false_eq_true, if_true]

/-- Witness of C28: a failing propagator that reports the height -5, then 50,
then 200; the record carries the text "engine error" of the engine each time,
with the height as reported.  With a message buffer of 8 bytes the record
carries the first 7 bytes of the text. -/
theorem stepLoop_error_precedence_witness :
    (∃ r, stepLoop shortErrEngine 1 100 (100 + 60 / 1440) 30 (3 + 1) 0 100 sat1 w0 = some r ∧
      r.1.timeSteps.map (fun t => (t.hasError, t.errorMsg)) = [(true, "engine ")]) ∧
    (∃ r, stepLoop (errHeightEngine (-5)) 1 100 (100 + 60 / 1440) 30 (3 + 1) 0 100 sat1 w0 =
        some r ∧
      r.1.timeSteps.map (fun t => (t.hasError, t.errorMsg, t.llh.map fun v => v.2.2)) =
        [(true, "engine error", some (-5))]) ∧
    (∃ r, stepLoop (errHeightEngine 50) 1 100 (100 + 60 / 1440) 30 (3 + 1) 0 100 sat1 w0 =
        some r ∧
      r.1.timeSteps.map (fun t => (t.hasError, t.errorMsg, t.llh.map fun v => v.2.2)) =
        [(true, "engine error", some 50)]) ∧
    (∃ r, stepLoop (errHeightEngine 200) 1 100 (100 + 60 / 1440) 30 (3 + 1) 0 100 sat1 w0 =
        some r ∧
      r.1.timeSteps.map (fun t => (t.hasError, t.errorMsg, t.llh.map fun v => v.2.2)) =
        [(true, "engine error", some 200)]) ∧
    (∃ (stepData : TimeStepData) (w' : World Unit),
      stepLoop (errHeightEngine (-5)) 1 100 (100 + 60 / 1440) 30 (3 + 1) 0 100 sat1 w0 =
        some ({ sat1 with timeSteps := sat1.timeSteps ++ [stepData],
                          propagationSuccess := false }, w') ∧
      stepData.hasError = true ∧
      stepData.errorMsg = cstr (errHeightEngine (-5)).LOGMSGLEN
        ((errHeightEngine (-5)).GetLastErrMsg ((errHeightEngine (-5)).Sgp4PropDs50UTC 1
          (stepInstant 100 (100 + 60 / 1440) 30 0) w0.eng).2).1 ∧
      strBytes stepData.errorMsg =
        ((((errHeightEngine (-5)).GetLastErrMsg ((errHeightEngine (-5)).Sgp4PropDs50UTC 1
          (stepInstant 100 (100 + 60 / 1440) 30 0) w0.eng).2).1.take
            ((errHeightEngine (-5)).LOGMSGLEN - 1)).takeWhile fun b => b ≠ 0).map Fin.val ∧
      stepData.llh = some ((errHeightEngine (-5)).Sgp4PropDs50UTC 1
        (stepInstant 100 (100 + 60 / 1440) 30 0) w0.eng).1.llh ∧
      stepData.meanKep = none ∧ stepData.oscKep = none ∧ stepData.nodalApPer = none ∧
      stepData.meanMotion = none ∧
      w'.log = w0.log ++ [Call.Sgp4PropDs50UTC 1
        (stepInstant 100 (100 + 60 / 1440) 30 0), Call.GetLastErrMsg]) ∧
    (∃ (stepData : TimeStepData) (w' : World Unit),
      stepLoop (errHeightEngine 50) 1 100 (100 + 60 / 1440) 30 (3 + 1) 0 100 sat1 w0 =
        some ({ sat1 with timeSteps := sat1.timeSteps ++ [stepData],
                          propagationSuccess := false }, w') ∧
      stepData.hasError = true ∧
      stepData.errorMsg = cstr (errHeightEngine 50).LOGMSGLEN
        ((errHeightEngine 50).GetLastErrMsg ((errHeightEngine 50).Sgp4PropDs50UTC 1
          (stepInstant 100 (100 + 60 / 1440) 30 0) w0.eng).2).1 ∧
      strBytes stepData.errorMsg =
        ((((errHeightEngine 50).GetLastErrMsg ((errHeightEngine 50).Sgp4PropDs50UTC 1
          (stepInstant 100 (100 + 60 / 1440) 30 0) w0.eng).2).1.take
            ((errHeightEngine 50).LOGMSGLEN - 1)).takeWhile fun b => b ≠ 0).map Fin.val ∧
      stepData.llh = some ((errHeightEngine 50).Sgp4PropDs50UTC 1
        (stepInstant 100 (100 + 60 / 1440) 30 0) w0.eng).1.llh ∧
      stepData.meanKep = none ∧ stepData.oscKep = none ∧ stepData.nodalApPer = none ∧
      stepData.meanMotion = none ∧
      w'.log = w0.log ++ [Call.Sgp4PropDs50UTC 1
        (stepInstant 100 (100 + 60 / 1440) 30 0), Call.GetLastErrMsg]) ∧
    (∃ (stepData : TimeStepData) (w' : World Unit),
      stepLoop (errHeightEngine 200) 1 100 (100 + 60 / 1440) 30 (3 + 1) 0 100 sat1 w0 =
        some ({ sat1 with timeSteps := sat1.timeSteps ++ [stepData],
                          propagationSuccess := false }, w') ∧
      stepData.hasError = true ∧
      stepData.errorMsg = cstr (errHeightEngine 200).LOGMSGLEN
        ((errHeightEngine 200).GetLastErrMsg ((errHeightEngine 200).Sgp4PropDs50UTC 1
          (stepInstant 100 (100 + 60 / 1440) 30 0) w0.eng).2).1 ∧
      strBytes stepData.errorMsg =
        ((((errHeightEngine 200).GetLastErrMsg ((errHeightEngine 200).Sgp4PropDs50UTC 1
          (stepInstant 100 (100 + 60 / 1440) 30 0) w0.eng).2).1.take
            ((errHeightEngine 200).LOGMSGLEN - 1)).takeWhile fun b => b ≠ 0).map Fin.val ∧
      stepData.llh = some ((errHeightEngine 200).Sgp4PropDs50UTC 1
        (stepInstant 100 (100 + 60 / 1440) 30 0) w0.eng).1.llh ∧
      stepData.meanKep = none ∧ stepData.oscKep = none ∧ stepData.nodalApPer = none ∧
      stepData.meanMotion = none ∧
      w'.log = w0.log ++ [Call.Sgp4PropDs50UTC 1
        (stepInstant 100 (100 + 60 / 1440) 30 0), Call.GetLastErrMsg]) :=
  ⟨by decide!, by decide!, by decide!, by decide!,
    stepLoop_error_precedence (errHeightEngine (-5)) 1 100 (100 + 60 / 1440) 30 3 0 100
      sat1 w0 (by decide!) (by decide!),
    stepLoop_error_precedence (errHeightEngine 50) 1 100 (100 + 60 / 1440) 30 3 0 100
      sat1 w0 (by decide!) (by decide!),
    stepLoop_error_precedence (errHeightEngine 200) 1 100 (100 + 60 / 1440) 30 3 0 100
      sat1 w0 (by decide!) (by decide!)⟩

/-- C29. For every object result that `RunOneSgp4Job` returns, the success flag
`propagationSuccess` is set if and only if none of the records of the object
has its `hasError` flag set. -/
theorem RunOneSgp4Job_success_iff_unflagged {σ : Type} (E : Engine σ) (fuel : Nat)
    (inFile : String) (w : World σ) (res : PropagationResults) (w' : World σ)
    (h : RunOneSgp4Job E fuel inFile w = some (res, w')) :
    ∀ sd ∈ res.satellites,
      (sd.propagationSuccess = true ↔ ∀ r ∈ sd.timeSteps, r.hasError = false) := by
  intro sd hsd
  obtain ⟨key, b, wj, wj', hrun⟩ := RunOneSgp4Job_results E fuel inFile w res w' h sd hsd
  exact runSat_flag_iff E fuel key wj sd b wj' hrun

/-- Witness of C29: the batch of `mixedEngine`.  The initialisation of the first
satellite fails, the propagator fails at step 1 of the second, every step of
the third is Ok. -/
theorem RunOneSgp4Job_success_iff_unflagged_witness :
    ∃ (res : PropagationResults) (w' : World Unit),
      RunOneSgp4Job mixedEngine 10 "f" w0 = some (res, w') ∧
      res.satellites.map (fun sd => (sd.propagationSuccess,
        sd.timeSteps.map fun r => r.hasError)) =
        [(false, [true]), (false, [false, true]), (true, [false, false, false])] ∧
      ∀ sd ∈ res.satellites,
        (sd.propagationSuccess = true ↔ ∀ r ∈ sd.timeSteps, r.hasError = false) := by
  have h : ∃ r, RunOneSgp4Job mixedEngine 10 "f" w0 = some r ∧
      r.1.satellites.map (fun sd => (sd.propagationSuccess,
        sd.timeSteps.map fun r => r.hasError)) =
        [(false, [true]), (false, [false, true]), (true, [false, false, false])] := by decide!
  obtain ⟨⟨res, w'⟩, h, hs⟩ := h
  exact ⟨res, w', h, hs, RunOneSgp4Job_success_iff_unflagged mixedEngine 10 "f" w0 res w' h⟩

/-- C22, counterexample. In the batch of `initFailEngine` both
satellites are processed, each ends Terminated by an initialisation failure, and
`Sgp4RemoveSat` is not called at all. -/
theorem RunOneSgp4Job_init_failure_no_remove :
    ∃ r, RunOneSgp4Job initFailEngine 10 "f" w0 = some r ∧
      r.1.satellites.map (fun sd => (sd.satKey, sd.propagationSuccess)) =
        [(1, false), (2, false)] ∧
      removeCalls r.2.log = [] := by
  decide!

/-- C22, amended. In every returned run of `RunOneSgp4Job` the `Sgp4RemoveSat`
calls are exactly the keys of the processed satellites whose initialisation
succeeded, in catalogue order: one call for each of them, whether its stepping
ended Completed or Terminated, made right after the log of the satellite's
stepping loop, and no call for a satellite whose initialisation failed.  The
processing of a satellite up to the end of its stepping loop makes no such
call. -/
theorem RunOneSgp4Job_remove_calls {σ : Type} (E : Engine σ) (fuel : Nat)
    (inFile : String) (w : World σ) (res : PropagationResults) (w' : World σ)
    (h : RunOneSgp4Job E fuel inFile w = some (res, w')) :
    ∃ runs : List (SatelliteData × Bool),
      res.satellites = runs.map Prod.fst ∧
      removeCalls w'.log = removeCalls w.log ++
        (runs.filter fun p => p.2).map (fun p => p.1.satKey) ∧
      ∀ p ∈ runs, ∃ wj wj' : World σ,
        runSat E fuel p.1.satKey wj = some (p.1, p.2, wj') ∧
        (p.2 = true ↔ initCode E p.1.satKey wj = 0) ∧
        removeCalls wj'.log = removeCalls wj.log ∧
        (p.2 = true → (wj'.log ++ [Call.Sgp4RemoveSat p.1.satKey]) <+: w'.log) := by
  rcases RunOneSgp4Job_cases E fuel inFile w res w' h with
    ⟨-, rfl, hlog⟩ | ⟨-, -, rfl, rfl⟩ | ⟨-, -, w1, hloop, rfl⟩
  · refine ⟨[], rfl, ?_, by simp⟩
    rw [hlog]
    simp [removeCalls_append, removeCalls]
  · refine ⟨[], rfl, ?_, by simp⟩
    simp [jobAlloc, call_log, removeCalls_append, removeCalls]
  · obtain ⟨-, runs, h1, h2, h3⟩ := tleLoop_removes E fuel _ _ 0 _ _ res w1 hloop
    have hclean := jobCleanup_calls E w1
    refine ⟨runs, by rw [h1]; rfl, ?_, fun p hp => ?_⟩
    · rw [hclean, removeCalls_append, h2]
      simp [jobSetup, jobAlloc, call_log, removeCalls_append, removeCalls]
    · obtain ⟨wj, wj', e1, e2⟩ := h3 p hp
      obtain ⟨-, -, -, -, hf, ht⟩ := runSat_trace E fuel _ wj p.1 p.2 wj' e1
      refine ⟨wj, wj', e1, ⟨fun hb => (ht hb).1, fun h0 => ?_⟩,
        runSat_removeCalls E fuel _ wj p.1 p.2 wj' e1, fun hb => ?_⟩
      · cases hb : p.2 with
        | true => rfl
        | false => exact absurd h0 (hf hb).1
      · rw [hclean]
        exact (e2 hb).trans (List.prefix_append _ _)

/-- Witness of C22, amended: the batch of `mixedEngine`.  The initialisation
of the satellite with key 1 fails, the satellite with key 2 ends Terminated by a
step error, the satellite with key 3 ends Completed; the remove calls are those
for the keys 2 and 3. -/
theorem RunOneSgp4Job_remove_calls_witness :
    ∃ (res : PropagationResults) (w' : World Unit),
      RunOneSgp4Job mixedEngine 10 "f" w0 = some (res, w') ∧
      res.satellites.map (fun sd => (sd.satKey, sd.propagationSuccess)) =
        [(1, false), (2, false), (3, true)] ∧
      removeCalls w'.log = [2, 3] ∧
      ∃ runs : List (SatelliteData × Bool),
        res.satellites = runs.map Prod.fst ∧
        removeCalls w'.log = removeCalls w0.log ++
          (runs.filter fun p => p.2).map (fun p => p.1.satKey) ∧
        ∀ p ∈ runs, ∃ wj wj' : World Unit,
          runSat mixedEngine 10 p.1.satKey wj = some (p.1, p.2, wj') ∧
          (p.2 = true ↔ initCode mixedEngine p.1.satKey wj = 0) ∧
          removeCalls wj'.log = removeCalls wj.log ∧
          (p.2 = true → (wj'.log ++ [Call.Sgp4RemoveSat p.1.satKey]) <+: w'.log) := by
  have h : ∃ r, RunOneSgp4Job mixedEngine 10 "f" w0 = some r ∧
      r.1.satellites.map (fun sd => (sd.satKey, sd.propagationSuccess)) =
        [(1, false), (2, false), (3, true)] ∧
      removeCalls r.2.log = [2, 3] := by decide!
  obtain ⟨⟨res, w'⟩, h, hs, hr⟩ := h
  exact ⟨res, w', h, hs, hr, RunOneSgp4Job_remove_calls mixedEngine 10 "f" w0 res w' h⟩

/-- C21. The two early returns of `RunOneSgp4Job` leave without the cleanup that
the return after a failed remove call performs.  On the catalogue with the keys
1 and 2, started from the empty registry: when the remove call of the first
object fails, the run ends with `free`, `TleRemoveAllSats` and
`Sgp4RemoveAllSats` and leaves the registry empty; when the allocation of the
key array fails, the run ends with the `malloc` call, without any remove-all
call, and the keys 1 and 2 stay registered, so that a second run on the same
catalogue counts 4 objects.  On an empty catalogue the run ends with
`TleGetCount`, without any remove-all call. -/
theorem RunOneSgp4Job_early_return_skips_cleanup :
    (∃ r, RunOneSgp4Job (removeFailEngine [1, 2]) 4 "catalogue" ws0 = some r ∧
      r.1.overallSuccess = false ∧
      r.1.generalError = "Failed to remove satellite from memory" ∧
      r.2.log.drop (r.2.log.length - 4) =
        [Call.Sgp4RemoveSat 1, Call.free, Call.TleRemoveAllSats, Call.Sgp4RemoveAllSats] ∧
      r.2.eng = []) ∧
    (∃ r, RunOneSgp4Job (allocFailEngine [1, 2]) 4 "catalogue" ws0 = some r ∧
      r.1.overallSuccess = false ∧
      r.1.generalError = "Memory allocation failed for satellite keys" ∧
      r.2.log = [Call.Sgp4LoadFileAll "catalogue", Call.TleGetCount, Call.malloc 2] ∧
      r.2.eng = [1, 2] ∧
      jobCount (allocFailEngine [1, 2]) "catalogue" r.2 = 4) ∧
    (∃ r, RunOneSgp4Job (registryEngine []) 4 "catalogue" ws0 = some r ∧
      r.1.overallSuccess = false ∧
      r.1.generalError = "No TLEs were found in the input file" ∧
      r.2.log = [Call.Sgp4LoadFileAll "catalogue", Call.TleGetCount]) := by
  refine ⟨?_, ?_, ?_⟩ <;> decide!

/-- The count of object results when the engine reports a count that is not
negative and the key array is allocated. -/
theorem result_count_of_alloc {σ : Type} (E : Engine σ) (fuel : Nat)
    (inFile : String) (w : World σ) (res : PropagationResults) (w' : World σ)
    (h : RunOneSgp4Job E fuel inFile w = some (res, w'))
    (hcount : 0 ≤ jobCount E inFile w) :
    (res.satellites.length : Int) ≤ res.totalSatellites ∧
    ((jobCount E inFile w ≠ 0 → (jobAlloc E inFile w).1 = true) →
      (((res.satellites.length : Int) = res.totalSatellites ↔
          removesOk E fuel (jobSetup E inFile w).1 ((jobCount E inFile w).toNat - 1) 0
            (jobSetup E inFile w).2 = true) ∧
        ∀ i, i < (jobCount E inFile w).toNat →
          removesOk E fuel (jobSetup E inFile w).1 i 0 (jobSetup E inFile w).2 = true →
          removesOk E fuel (jobSetup E inFile w).1 (i + 1) 0 (jobSetup E inFile w).2 = false →
          res.totalSatellites = jobCount E inFile w ∧ res.satellites.length = i + 1)) := by
  have hcast : (((jobCount E inFile w).toNat : Nat) : Int) = jobCount E inFile w :=
    Int.toNat_of_nonneg hcount
  rcases RunOneSgp4Job_cases E fuel inFile w res w' h with
    ⟨h0, rfl, -⟩ | ⟨h0, ha, rfl, -⟩ | ⟨h0, -, w1, hloop, -⟩
  · refine ⟨le_refl _, fun _ => ⟨?_, fun i hi => ?_⟩⟩
    · rw [h0]
      exact ⟨fun _ => rfl, fun _ => rfl⟩
    · rw [h0] at hi
      exact absurd hi (Nat.not_lt_zero i)
  · refine ⟨hcount, fun halloc => ?_⟩
    rw [halloc h0] at ha
    exact (Bool.false_ne_true ha.symm).elim
  · obtain ⟨n, hn⟩ : ∃ n, (jobCount E inFile w).toNat = n := ⟨_, rfl⟩
    rw [hn] at hloop hcast
    rw [hn]
    have hpos : 0 < n := by
      rcases Nat.eq_zero_or_pos n with hz | hp
      · rw [hz] at hcast
        exact absurd hcast.symm h0
      · exact hp
    obtain ⟨sds, s1, s2, s3, -, hor⟩ := tleLoop_spec E fuel _ n 0 _ _ res w1 hloop
    have hlen : res.satellites.length = sds.length := by rw [s1]; rfl
    have htot : res.totalSatellites = jobCount E inFile w := s2
    have hfail : ∀ i, i < n →
        removesOk E fuel (jobSetup E inFile w).1 i 0 (jobSetup E inFile w).2 = true →
        removesOk E fuel (jobSetup E inFile w).1 (i + 1) 0 (jobSetup E inFile w).2 = false →
        res.satellites.length = i + 1 := by
      intro i hi h1 h2
      have hloop' := hloop
      rw [show n = i + 1 + (n - i - 1) by omega] at hloop'
      have := (tleLoop_count_of_failure E fuel _ i (n - i - 1) 0 _ _ res w1 h1 h2 hloop').1
      simpa using this
    refine ⟨?_, fun _ => ⟨⟨fun heq => ?_, fun hok => ?_⟩, fun i hi h1 h2 =>
      ⟨htot, hfail i hi h1 h2⟩⟩⟩
    · rw [hlen, htot, ← hcast]
      exact_mod_cast s3
    · rw [htot, ← hcast] at heq
      have heq' : res.satellites.length = n := by exact_mod_cast heq
      by_contra hno
      obtain ⟨a, ha, h1, h2⟩ := removesOk_least E fuel _ 0 _ (n - 1) (by simpa using hno)
      have := hfail a (by omega) h1 h2
      omega
    · rw [htot, ← hcast]
      by_cases hall : removesOk E fuel (jobSetup E inFile w).1 n 0 (jobSetup E inFile w).2 = true
      · rcases hor with ⟨-, hl, -, -⟩ | ⟨hno, -, -⟩
        · rw [hlen, hl]
        · rw [hall] at hno
          exact (Bool.false_ne_true hno.symm).elim
      · have h2 : removesOk E fuel (jobSetup E inFile w).1 (n - 1 + 1) 0
            (jobSetup E inFile w).2 = false := by
          rw [Nat.sub_add_cancel hpos]
          simpa using hall
        have := hfail (n - 1) (by omega) hok h2
        rw [this, Nat.sub_add_cancel hpos]

/-- C30, counterexample. A run in which no remove call fails, and in which the
number of object results differs from `totalSatellites`: on a catalogue of three
objects the allocation of the key array fails, `totalSatellites` is 3 and no
result is returned, without a single remove call. -/
theorem RunOneSgp4Job_alloc_failure_count :
    ∃ r, RunOneSgp4Job (allocFailEngine [1, 2, 3]) 4 "catalogue" ws0 = some r ∧
      r.1.totalSatellites = 3 ∧ r.1.satellites.length = 0 ∧ removeCalls r.2.log = [] ∧
      removesOk (allocFailEngine [1, 2, 3]) 4 (jobSetup (allocFailEngine [1, 2, 3]) "catalogue" ws0).1
        3 0 (jobSetup (allocFailEngine [1, 2, 3]) "catalogue" ws0).2 = true := by
  decide!

/-- C30, amended. For every returned run of `RunOneSgp4Job` the number of object
results does not exceed `totalSatellites`, read as a count (a negative value as
0).  When the engine reports a negative count there is no result and
`totalSatellites` is that count.  When the catalogue is not empty and the
allocation of the key array fails there is no result, `totalSatellites` is the
count, and the run makes no remove call.  When the count is not negative and
the key array is allocated, the number of results equals `totalSatellites` if
and only if no remove call fails before the last catalogue object; and when the
first failing remove call is that of the object of index `i` among `n`,
`totalSatellites` is still `n` while `i + 1` results are returned. -/
theorem RunOneSgp4Job_result_count {σ : Type} (E : Engine σ) (fuel : Nat)
    (inFile : String) (w : World σ) (res : PropagationResults) (w' : World σ)
    (h : RunOneSgp4Job E fuel inFile w = some (res, w')) :
    res.satellites.length ≤ res.totalSatellites.toNat ∧
    (jobCount E inFile w < 0 →
      res.satellites = [] ∧ res.totalSatellites = jobCount E inFile w) ∧
    (jobCount E inFile w ≠ 0 → (jobAlloc E inFile w).1 = false →
      res.satellites = [] ∧ res.totalSatellites = jobCount E inFile w ∧
      removeCalls w'.log = removeCalls w.log) ∧
    (0 ≤ jobCount E inFile w → (jobCount E inFile w ≠ 0 → (jobAlloc E inFile w).1 = true) →
      (res.satellites.length : Int) ≤ res.totalSatellites ∧
      ((res.satellites.length : Int) = res.totalSatellites ↔
          removesOk E fuel (jobSetup E inFile w).1 ((jobCount E inFile w).toNat - 1) 0
            (jobSetup E inFile w).2 = true) ∧
        ∀ i, i < (jobCount E inFile w).toNat →
          removesOk E fuel (jobSetup E inFile w).1 i 0 (jobSetup E inFile w).2 = true →
          removesOk E fuel (jobSetup E inFile w).1 (i + 1) 0 (jobSetup E inFile w).2 = false →
          res.totalSatellites = jobCount E inFile w ∧ res.satellites.length = i + 1) := by
  refine ⟨?_, ?_, ?_, fun hcount halloc => ?_⟩
  · rcases RunOneSgp4Job_cases E fuel inFile w res w' h with
      ⟨-, rfl, -⟩ | ⟨-, -, rfl, -⟩ | ⟨-, -, w1, hloop, -⟩
    · simp
    · simp
    · obtain ⟨sds, s1, s2, s3, -, -⟩ := tleLoop_spec E fuel _ _ 0 _ _ res w1 hloop
      rw [s1, s2]
      simpa using s3
  · intro hneg
    rcases RunOneSgp4Job_cases E fuel inFile w res w' h with
      ⟨h0, -, -⟩ | ⟨-, -, rfl, -⟩ | ⟨-, -, w1, hloop, -⟩
    · omega
    · exact ⟨rfl, rfl⟩
    · rw [Int.toNat_eq_zero.mpr hneg.le] at hloop
      simp only [tleLoop, Option.some.injEq, Prod.mk.injEq] at hloop
      obtain ⟨rfl, -⟩ := hloop
      exact ⟨rfl, rfl⟩
  · intro hne hfalse
    rcases RunOneSgp4Job_cases E fuel inFile w res w' h with
      ⟨h0, -, -⟩ | ⟨-, -, rfl, rfl⟩ | ⟨-, ha, -⟩
    · exact absurd h0 hne
    · refine ⟨rfl, rfl, ?_⟩
      simp only [jobAlloc, call_log, removeCalls_append, removeCalls, List.append_nil]
    · rw [hfalse] at ha
      exact (Bool.false_ne_true ha).elim
  · obtain ⟨h1, h2⟩ := result_count_of_alloc E fuel inFile w res w' h hcount
    exact ⟨h1, (h2 halloc).1, (h2 halloc).2⟩

/-- Witness of C30, amended: the batch of three satellites in which the remove
call for the second (index 1) fails: `totalSatellites` is 3 and 2 results are
returned. -/
theorem RunOneSgp4Job_result_count_witness :
    ∃ (res : PropagationResults) (w' : World Unit),
      RunOneSgp4Job (removeEngine fun k => if k = 2 then 1 else 0) 10 "f" w0 =
        some (res, w') ∧
      res.totalSatellites = 3 ∧ res.satellites.length = 2 ∧
      removesOk (removeEngine fun k => if k = 2 then 1 else 0) 10
        (jobSetup (removeEngine fun k => if k = 2 then 1 else 0) "f" w0).1 1 0
        (jobSetup (removeEngine fun k => if k = 2 then 1 else 0) "f" w0).2 = true ∧
      removesOk (removeEngine fun k => if k = 2 then 1 else 0) 10
        (jobSetup (removeEngine fun k => if k = 2 then 1 else 0) "f" w0).1 2 0
        (jobSetup (removeEngine fun k => if k = 2 then 1 else 0) "f" w0).2 = false ∧
      res.satellites.length ≤ res.totalSatellites.toNat ∧
      ((res.satellites.length : Int) = res.totalSatellites ↔
        removesOk (removeEngine fun k => if k = 2 then 1 else 0) 10
          (jobSetup (removeEngine fun k => if k = 2 then 1 else 0) "f" w0).1
          ((jobCount (removeEngine fun k => if k = 2 then 1 else 0) "f" w0).toNat - 1) 0
          (jobSetup (removeEngine fun k => if k = 2 then 1 else 0) "f" w0).2 = true) := by
  have h : ∃ r, RunOneSgp4Job (removeEngine fun k => if k = 2 then 1 else 0) 10 "f" w0 =
      some r ∧ r.1.totalSatellites = 3 ∧ r.1.satellites.length = 2 := by decide!
  obtain ⟨⟨res, w'⟩, h, h1, h2⟩ := h
  have hc := RunOneSgp4Job_result_count (removeEngine fun k => if k = 2 then 1 else 0) 10 "f"
    w0 res w' h
  exact ⟨res, w', h, h1, h2, by decide!, by decide!, hc.1,
    (hc.2.2.2 (by decide!) (fun _ => by decide!)).2.1⟩

/-- C23. `RunOneSgp4Job` does not clear the registry before it loads the
catalogue: its first two calls are `Sgp4LoadFileAll` and `TleGetCount`.  On
the catalogue with the keys 1 and 2, a run that starts from the empty registry
reports 2 objects, with the keys 1 and 2; a run that starts from a registry
that holds the key 7 reports 3 objects, with the keys 7, 1 and 2. -/
theorem RunOneSgp4Job_registry_not_cleared :
    (∃ r, RunOneSgp4Job (registryEngine [1, 2]) 10 "f" { eng := [], log := [] } = some r ∧
      r.1.totalSatellites = 2 ∧
      r.1.satellites.map (fun sd => sd.satKey) = [1, 2] ∧
      r.2.log.take 2 = [Call.Sgp4LoadFileAll "f", Call.TleGetCount]) ∧
    (∃ r, RunOneSgp4Job (registryEngine [1, 2]) 10 "f" { eng := [7], log := [] } = some r ∧
      r.1.totalSatellites = 3 ∧
      r.1.satellites.map (fun sd => sd.satKey) = [7, 1, 2] ∧
      r.2.log.take 2 = [Call.Sgp4LoadFileAll "f", Call.TleGetCount]) := by
  constructor <;> decide!

end SGP_IMPL
